import Mathlib

/-!
DroneSimulator: the scheduling core of `drone_scheduler.c` and the set-up of `main.c`

A shallow embedding of the C sources `drone_scheduler.h`, `drone_scheduler.c`
and `main.c`.

Modelling conventions.

* A C `int` is an `Int`; array indices, `size` and `num_drones` (which the code
  never lets go below zero) are `Nat`.  Signed overflow is undefined behaviour
  in C and is outside the model.
* A `Task *` is an address (`TaskPtr`); the `malloc`ed `Task` objects live in a
  memory `TaskPtr → Task`.  A nullable pointer is an `Option TaskPtr`.
* A C array is a total map from indices to cells; only the cells below the
  relevant bound (`size`, `num_drones`) are ever read.
* Mutexes, thread handles, log output, and the wall-clock fields
  (`start_time`, `end_time`, `total_delivery_time`) are not modelled: no
  control flow depends on them.
* A `while` loop whose bound is not syntactic is run with an explicit fuel and
  returns `none` when the fuel runs out; the lemmas `sift_up_total`,
  `sift_down_total` and `charge_loop_fuel_spec` show that the fuel handed over
  by the caller always suffices.
* The two counting semaphores are their current values; `sem_wait` on a value
  of 0 never returns when nothing else runs, which a worker cycle reports as
  `none`.  `sem_init` with a negative count fails and leaves the semaphore as
  the memory had it.
* A run is a list of operations (`add_drone`, `add_task`, a scheduler cycle, a
  worker cycle of a registered drone), each executed on its own, started from
  the state `init_simulation` leaves.
* `main` is modelled up to the call of `start_simulation`, on arguments and
  configuration lines that are already split into tokens and converted.
-/

namespace DroneSim

/-! ## Constants of `drone_scheduler.h` -/

def MAX_DRONES : Nat := 50
def MAX_TASKS : Nat := 200
def BATTERY_LOW_THRESHOLD : Int := 20
def BATTERY_DRAIN_RATE : Int := 5
def BATTERY_CHARGE_RATE : Int := 10

/-! ## Data model -/

inductive DroneState where
  | DRONE_IDLE
  | DRONE_LOADING
  | DRONE_DELIVERING
  | DRONE_CHARGING
  | DRONE_PREEMPTED
  deriving DecidableEq, Repr

inductive TaskState where
  | TASK_PENDING
  | TASK_ASSIGNED
  | TASK_IN_PROGRESS
  | TASK_COMPLETED
  | TASK_PREEMPTED
  deriving DecidableEq, Repr

open DroneState TaskState

/-- The `Task` record (the location strings and the two time stamps are left out). -/
structure Task where
  task_id : Int
  priority : Int
  estimated_time : Int
  state : TaskState
  assigned_drone : Int
  deriving DecidableEq, Repr

/-- Address of a `malloc`ed `Task`. -/
abbrev TaskPtr := Nat

/-- The memory holding the `Task` objects. -/
abbrev TaskMem := TaskPtr → Task

/-- The `Drone` record (without its thread handle). -/
structure Drone where
  drone_id : Int
  state : DroneState
  battery_level : Int
  speed : Int
  current_task : Option TaskPtr
  active : Bool
  tasks_completed : Int
  preempted_count : Int
  deriving DecidableEq, Repr

/-- The `PriorityQueue` record: the array `tasks[MAX_TASKS]` and `size`. -/
structure PriorityQueue where
  tasks : Nat → TaskPtr
  size : Nat

/-! ## The priority queue (`pq_init` … `pq_is_empty`) -/

/-- Source: `pq->tasks[i]->priority`. -/
def prio (mem : TaskMem) (tasks : Nat → TaskPtr) (i : Nat) : Int :=
  (mem (tasks i)).priority

/-- Source: the three-assignment exchange
`temp = tasks[i]; tasks[i] = tasks[j]; tasks[j] = temp`. -/
def swap (tasks : Nat → TaskPtr) (i j : Nat) : Nat → TaskPtr :=
  Function.update (Function.update tasks i (tasks j)) j (tasks i)

/-- Source: `pq_init` sets `size` to 0 and does not touch the array. -/
def pq_init (pq : PriorityQueue) : PriorityQueue :=
  { pq with size := 0 }

/-- Source: the `while (i > 0)` loop of `pq_push`. -/
def sift_up_fuel (mem : TaskMem) : Nat → (Nat → TaskPtr) → Nat → Option (Nat → TaskPtr)
  | 0, _, _ => none
  | fuel + 1, tasks, i =>
    if i > 0 then
      let parent := (i - 1) / 2
      if prio mem tasks i < prio mem tasks parent then
        sift_up_fuel mem fuel (swap tasks i parent) parent
      else
        some tasks
    else
      some tasks

/-- The sift-up loop started at `i`; `i + 1` rounds always suffice. -/
def sift_up (mem : TaskMem) (tasks : Nat → TaskPtr) (i : Nat) : Nat → TaskPtr :=
  (sift_up_fuel mem (i + 1) tasks i).getD tasks

/-- Source: `pq_push`. -/
def pq_push (mem : TaskMem) (pq : PriorityQueue) (task : TaskPtr) : PriorityQueue :=
  if pq.size ≥ MAX_TASKS then
    pq
  else
    let i := pq.size
    let tasks := Function.update pq.tasks i task
    { tasks := sift_up mem tasks i, size := pq.size + 1 }

/-- Source: the choice of `smallest` among `i`, `left` and `right` in `pq_pop`. -/
def smallest_of (mem : TaskMem) (tasks : Nat → TaskPtr) (size i : Nat) : Nat :=
  let left := 2 * i + 1
  let right := 2 * i + 2
  let smallest := i
  let smallest :=
    if left < size ∧ prio mem tasks left < prio mem tasks smallest then left else smallest
  let smallest :=
    if right < size ∧ prio mem tasks right < prio mem tasks smallest then right else smallest
  smallest

/-- Source: the `while (true)` loop of `pq_pop`. -/
def sift_down_fuel (mem : TaskMem) (size : Nat) :
    Nat → (Nat → TaskPtr) → Nat → Option (Nat → TaskPtr)
  | 0, _, _ => none
  | fuel + 1, tasks, i =>
    let smallest := smallest_of mem tasks size i
    if smallest ≠ i then
      sift_down_fuel mem size fuel (swap tasks i smallest) smallest
    else
      some tasks

/-- The sift-down loop started at `i`; `size + 1` rounds always suffice. -/
def sift_down (mem : TaskMem) (size : Nat) (tasks : Nat → TaskPtr) (i : Nat) : Nat → TaskPtr :=
  (sift_down_fuel mem size (size + 1) tasks i).getD tasks

/-- Source: `pq_pop`; returns the result pointer (`none` for `NULL`) and the queue. -/
def pq_pop (mem : TaskMem) (pq : PriorityQueue) : Option TaskPtr × PriorityQueue :=
  if pq.size = 0 then
    (none, pq)
  else
    let result := pq.tasks 0
    let size := pq.size - 1
    if size > 0 then
      let tasks := Function.update pq.tasks 0 (pq.tasks size)
      (some result, { tasks := sift_down mem size tasks 0, size := size })
    else
      (some result, { pq with size := size })

/-- Source: `pq_peek`; the queue is handed back as the call leaves it. -/
def pq_peek (pq : PriorityQueue) : Option TaskPtr × PriorityQueue :=
  (if pq.size > 0 then some (pq.tasks 0) else none, pq)

/-- Source: `pq_is_empty`. -/
def pq_is_empty (pq : PriorityQueue) : Bool :=
  pq.size == 0

/-- The min-heap property on the live cells of the array. -/
def HeapOk (mem : TaskMem) (tasks : Nat → TaskPtr) (size : Nat) : Prop :=
  ∀ i, 0 < i → i < size → prio mem tasks ((i - 1) / 2) ≤ prio mem tasks i

instance (mem : TaskMem) (tasks : Nat → TaskPtr) (size : Nat) : Decidable (HeapOk mem tasks size) :=
  decidable_of_iff (∀ i, i < size → 0 < i → prio mem tasks ((i - 1) / 2) ≤ prio mem tasks i)
    ⟨fun h i h0 hi => h i hi h0, fun h i hi h0 => h i h0 hi⟩

/-- The min-heap property of a queue, as the data model states it:
`tasks[(i-1)/2].priority <= tasks[i].priority` for every `0 < i < size`. -/
def heap_property (mem : TaskMem) (pq : PriorityQueue) : Prop :=
  HeapOk mem pq.tasks pq.size

instance (mem : TaskMem) (pq : PriorityQueue) : Decidable (heap_property mem pq) :=
  inferInstanceAs (Decidable (HeapOk mem pq.tasks pq.size))

/-- The tasks held in the live cells of the array, with multiplicity. -/
def contents (tasks : Nat → TaskPtr) (n : Nat) : Multiset TaskPtr :=
  (Multiset.range n).map tasks

/-- The tasks in the queue, with multiplicity. -/
def pq_contents (pq : PriorityQueue) : Multiset TaskPtr :=
  contents pq.tasks pq.size

/-- Loop invariant of the sift-up: the heap property holds everywhere except
possibly between `i` and its parent, and the children of `i` already respect
the parent of `i`. -/
def UpInv (mem : TaskMem) (tasks : Nat → TaskPtr) (n i : Nat) : Prop :=
  (∀ j, 0 < j → j < n → j ≠ i → prio mem tasks ((j - 1) / 2) ≤ prio mem tasks j) ∧
  (∀ j, 0 < j → j < n → (j - 1) / 2 = i → 0 < i →
      prio mem tasks ((i - 1) / 2) ≤ prio mem tasks j)

/-- Loop invariant of the sift-down: the heap property holds everywhere except
possibly between `i` and its children, and the children of `i` already respect
the parent of `i`. -/
def DownInv (mem : TaskMem) (tasks : Nat → TaskPtr) (n i : Nat) : Prop :=
  (∀ j, 0 < j → j < n → (j - 1) / 2 ≠ i → prio mem tasks ((j - 1) / 2) ≤ prio mem tasks j) ∧
  (∀ j, 0 < j → j < n → (j - 1) / 2 = i → 0 < i →
      prio mem tasks ((i - 1) / 2) ≤ prio mem tasks j)

/-- Queues built from `pq_init` by finitely many `pq_push` and `pq_pop` calls.
The memory is fixed: a task's `priority` is written once, before the task is
first pushed, and never again. -/
inductive Reach (mem : TaskMem) : PriorityQueue → Prop
  | init (pq : PriorityQueue) : Reach mem (pq_init pq)
  | push (pq : PriorityQueue) (task : TaskPtr) : Reach mem pq → Reach mem (pq_push mem pq task)
  | pop (pq : PriorityQueue) : Reach mem pq → Reach mem (pq_pop mem pq).2

/-- Calls `pq_pop` again and again until it returns `NULL` and collects the
returned tasks in order; `none` when `fuel` calls were not enough to see `NULL`. -/
def pop_all (mem : TaskMem) : Nat → PriorityQueue → Option (List TaskPtr)
  | 0, _ => none
  | fuel + 1, pq =>
    match pq_pop mem pq with
    | (none, _) => some []
    | (some t, pq') => (pop_all mem fuel pq').map (fun l => t :: l)

/-- The results of `k` successive `pq_pop` calls. -/
def pop_results (mem : TaskMem) : Nat → PriorityQueue → List (Option TaskPtr)
  | 0, _ => []
  | k + 1, pq => (pq_pop mem pq).1 :: pop_results mem k (pq_pop mem pq).2

/-- A small memory for examples: the task at address `p` has priority `ps[p]`
(priority 0 beyond the list), id `p`, and is pending. -/
def memOfPrios (ps : List Int) : TaskMem := fun p =>
  { task_id := p, priority := ps.getD p 0, estimated_time := 1,
    state := TASK_PENDING, assigned_drone := -1 }

/-- Example queue: addresses 1, 0, 2 in the first three cells. -/
def exQueue : PriorityQueue :=
  { tasks := fun i => if i = 0 then 1 else if i = 1 then 0 else 2, size := 3 }

/-- Example queue with all `MAX_TASKS` cells in use, every cell holding address 0. -/
def exFullQueue : PriorityQueue :=
  { tasks := fun _ => 0, size := 200 }

/-! ## The simulation state -/

/-- The `Statistics` record (without its mutex and the floating-point
`total_delivery_time`). -/
structure Statistics where
  total_tasks : Int
  completed_tasks : Int
  total_preemptions : Int
  charging_station_uses : Int
  loading_bay_uses : Int
  deriving DecidableEq, Repr

/-- The `Simulation` record together with the memory its `Task *` point into.
`charging_stations` and `loading_bays` are the current values of the two
counting semaphores; `mem` holds the `malloc`ed tasks and `next_free` is the
address the next `malloc` returns. -/
structure Simulation where
  drones : Nat → Drone
  num_drones : Nat
  task_queue : PriorityQueue
  stats : Statistics
  charging_stations : Nat
  loading_bays : Nat
  simulation_running : Bool
  num_charging_stations : Int
  num_loading_bays : Int
  mem : TaskMem
  next_free : TaskPtr

/-! ## One cycle of `scheduler_thread_func` -/

/-- The test of the first scan (source lines 255–256): drone `j` is active,
has battery above `BATTERY_LOW_THRESHOLD`, is idle and holds no task. -/
def eligible (s : Simulation) (j : Nat) : Prop :=
  (s.drones j).active = true ∧ (s.drones j).battery_level > BATTERY_LOW_THRESHOLD ∧
    (s.drones j).state = DRONE_IDLE ∧ (s.drones j).current_task = none

instance (s : Simulation) (j : Nat) : Decidable (eligible s j) := by
  unfold eligible; infer_instance

/-- The test of the second scan (source lines 266–269): drone `j` is active,
holds a task of priority above 1, and has battery above `BATTERY_LOW_THRESHOLD`. -/
def preemptable (s : Simulation) (j : Nat) : Prop :=
  (s.drones j).active = true ∧
    (∃ t, (s.drones j).current_task = some t ∧ (s.mem t).priority > 1) ∧
    (s.drones j).battery_level > BATTERY_LOW_THRESHOLD

/-- Source: the first `for` loop of the scheduler (lines 254–262), with `k`
iterations left, loop index `i` and current `best_drone` (an index, `none` for
`NULL`). -/
def find_best (s : Simulation) : Nat → Nat → Option Nat → Option Nat
  | 0, _, best => best
  | k + 1, i, best =>
    let best :=
      if (s.drones i).active = true ∧ (s.drones i).battery_level > BATTERY_LOW_THRESHOLD then
        if (s.drones i).state = DRONE_IDLE ∧ (s.drones i).current_task = none then
          match best with
          | none => some i
          | some b =>
            if (s.drones i).battery_level > (s.drones b).battery_level then some i else best
        else best
      else best
    find_best s k (i + 1) best

/-- Source: the body of the preemption branch (lines 277–285) for drone `i`
holding task `t`. -/
def preempt (s : Simulation) (i : Nat) (t : TaskPtr) : Simulation :=
  let mem := Function.update s.mem t { s.mem t with state := TASK_PREEMPTED }
  let queue := pq_push mem s.task_queue t
  let d := s.drones i
  let d := { d with current_task := none, state := DRONE_PREEMPTED,
                    preempted_count := d.preempted_count + 1 }
  { s with mem := mem, task_queue := queue, drones := Function.update s.drones i d,
           stats := { s.stats with total_preemptions := s.stats.total_preemptions + 1 } }

/-- Source: the second `for` loop of the scheduler (lines 265–290), which stops
(`break`) at the first drone it preempts; returns the state and `best_drone`. -/
def preempt_scan : Nat → Nat → Simulation → Option Nat → Simulation × Option Nat
  | 0, _, s, best => (s, best)
  | k + 1, i, s, best =>
    match (s.drones i).current_task with
    | some t =>
      if (s.drones i).active = true ∧ (s.mem t).priority > 1 ∧
          (s.drones i).battery_level > BATTERY_LOW_THRESHOLD then
        (preempt s i t, some i)
      else
        preempt_scan k (i + 1) s best
    | none => preempt_scan k (i + 1) s best

/-- Source: the assignment (lines 293–306). -/
def assign (s : Simulation) (best : Option Nat) : Simulation :=
  match best with
  | none => s
  | some b =>
    match pq_pop s.mem s.task_queue with
    | (none, queue) => { s with task_queue := queue }
    | (some task, queue) =>
      let mem := Function.update s.mem task
        { s.mem task with state := TASK_ASSIGNED, assigned_drone := (s.drones b).drone_id }
      let d := { s.drones b with current_task := some task, state := DRONE_IDLE }
      { s with task_queue := queue, mem := mem, drones := Function.update s.drones b d }

/-- Source: the body of the `while (sim->simulation_running)` loop of
`scheduler_thread_func` (lines 248–308), that is one scheduler cycle, run on its
own; the closing `sleep(1)` changes nothing. -/
def scheduler_cycle (s : Simulation) : Simulation :=
  if pq_is_empty s.task_queue = false then
    match (pq_peek s.task_queue).1 with
    | some highest_priority_task =>
      let best := find_best s s.num_drones 0 none
      let r :=
        if (s.mem highest_priority_task).priority = 1 then
          preempt_scan s.num_drones 0 s best
        else (s, best)
      assign r.1 r.2
    | none => s
  else s

/-! ## One cycle of `drone_thread_func`

A cycle is one iteration of the worker's `while` loop, run on its own (no other
thread runs in between).  The result is `none` when the cycle does not come to
an end: `sem_wait` on a semaphore whose value is 0 blocks for good, a division
by a zero `speed` kills the process, a loop runs out of fuel. -/

/-- Source: one iteration of the delivery loop body: `sleep(1)` and
`battery_level -= BATTERY_DRAIN_RATE`. -/
def deliver_tick (d : Drone) : Drone :=
  { d with battery_level := d.battery_level - BATTERY_DRAIN_RATE }

/-- Source: the `for` loop of the delivery (lines 168–177) with `k` iterations
left; returns the drone and the number of ticks (`sleep(1)`) spent. -/
def deliver_loop : Nat → Drone → Nat → Drone × Nat
  | 0, d, ticks => (d, ticks)
  | k + 1, d, ticks =>
    if d.state = DRONE_DELIVERING then
      let d := deliver_tick d
      if d.battery_level ≤ BATTERY_LOW_THRESHOLD then
        (d, ticks + 1)
      else
        deliver_loop k d (ticks + 1)
    else
      (d, ticks)

/-- Source: `delivery_time = estimated_time / speed; if (delivery_time < 1)
delivery_time = 1;` with C's truncating division. -/
def delivery_time (estimated_time speed : Int) : Int :=
  let delivery_time := Int.tdiv estimated_time speed
  if delivery_time < 1 then 1 else delivery_time

/-- Source: one iteration of the charging loop body (lines 220–222). -/
def charge_tick (battery_level : Int) : Int :=
  let battery_level := battery_level + BATTERY_CHARGE_RATE
  if battery_level > 100 then 100 else battery_level

/-- Source: the loop `while (battery_level < 100)` (lines 219–223). -/
def charge_loop_fuel : Nat → Int → Option Int
  | 0, _ => none
  | fuel + 1, battery_level =>
    if battery_level < 100 then
      charge_loop_fuel fuel (charge_tick battery_level)
    else
      some battery_level

/-- Source: the loading branch (lines 139–162) of drone `i` for its task. -/
def load_phase (s : Simulation) (i : Nat) (task : TaskPtr) : Option Simulation :=
  if (s.drones i).state = DRONE_IDLE ∨ (s.drones i).state = DRONE_LOADING then
    if s.loading_bays = 0 then
      none
    else
      let s := { s with loading_bays := s.loading_bays - 1 }
      let s := { s with stats := { s.stats with
                  loading_bay_uses := s.stats.loading_bay_uses + 1 } }
      let s := { s with drones :=
                  Function.update s.drones i { s.drones i with state := DRONE_LOADING } }
      let s := { s with loading_bays := s.loading_bays + 1 }
      let s := { s with drones :=
                  Function.update s.drones i { s.drones i with state := DRONE_DELIVERING } }
      some { s with mem := Function.update s.mem task
                      { s.mem task with state := TASK_IN_PROGRESS } }
  else
    some s

/-- Source: the delivery branch (lines 164–196) of drone `i` for its task. -/
def deliver_phase (s : Simulation) (i : Nat) (task : TaskPtr) : Option Simulation :=
  if (s.drones i).state = DRONE_DELIVERING ∧
      (s.drones i).battery_level > BATTERY_LOW_THRESHOLD then
    if (s.drones i).speed = 0 then
      none
    else
      let time := delivery_time (s.mem task).estimated_time (s.drones i).speed
      let d := (deliver_loop time.toNat (s.drones i) 0).1
      if d.state = DRONE_DELIVERING then
        some { s with
          mem := Function.update s.mem task { s.mem task with state := TASK_COMPLETED },
          stats := { s.stats with completed_tasks := s.stats.completed_tasks + 1 },
          drones := Function.update s.drones i
            ({ d with tasks_completed := d.tasks_completed + 1, current_task := none,
                      state := DRONE_IDLE }) }
      else
        some { s with drones := Function.update s.drones i d }
  else
    some s

/-- Source: the demotion of the held task on low battery (lines 200–206). -/
def demote (s : Simulation) (i : Nat) : Simulation :=
  match (s.drones i).current_task with
  | some t =>
    if (s.drones i).state ≠ DRONE_PREEMPTED then
      let mem := Function.update s.mem t { s.mem t with state := TASK_PENDING }
      { s with mem := mem, task_queue := pq_push mem s.task_queue t,
               drones := Function.update s.drones i { s.drones i with current_task := none } }
    else s
  | none => s

/-- Source: the low-battery branch (lines 199–229) of drone `i`. -/
def low_battery_phase (s : Simulation) (i : Nat) : Option Simulation :=
  if (s.drones i).battery_level ≤ BATTERY_LOW_THRESHOLD ∧
      (s.drones i).state ≠ DRONE_CHARGING then
    let s := demote s i
    if s.charging_stations = 0 then
      none
    else
      let s := { s with charging_stations := s.charging_stations - 1 }
      let s := { s with stats := { s.stats with
                  charging_station_uses := s.stats.charging_station_uses + 1 } }
      let s := { s with drones :=
                  Function.update s.drones i { s.drones i with state := DRONE_CHARGING } }
      match charge_loop_fuel ((100 - (s.drones i).battery_level).toNat + 1)
          (s.drones i).battery_level with
      | none => none
      | some battery_level =>
        let s := { s with charging_stations := s.charging_stations + 1 }
        let d := { s.drones i with battery_level := battery_level, state := DRONE_IDLE }
        some { s with drones := Function.update s.drones i d }
  else
    some s

/-- Source: the task branch (lines 136–197) of drone `i`. -/
def task_phase (s : Simulation) (i : Nat) : Option Simulation :=
  match (s.drones i).current_task with
  | some task =>
    if (s.drones i).state ≠ DRONE_PREEMPTED then
      (load_phase s i task).bind (fun s => deliver_phase s i task)
    else
      some s
  | none => some s

/-- Source: the body of the `while (sim->simulation_running && drone->active)`
loop of `drone_thread_func` for the drone at index `i` (lines 136–233), that is
one worker cycle; the closing `sleep(1)` changes nothing. -/
def worker_cycle (s : Simulation) (i : Nat) : Option Simulation :=
  (task_phase s i).bind (fun s => low_battery_phase s i)

/-! ## Set-up (`init_simulation`, `add_drone`, `add_task`) -/

/-- Source: the call `sem_init(&sem, 0, value)` with an `int` argument, on a
semaphore whose memory holds `old`.  The parameter is an `unsigned int`: a
negative `value` converts to a number above `SEM_VALUE_MAX`, the call fails with
`EINVAL` and writes nothing, so the semaphore stays as the memory had it. -/
def sem_init (old : Nat) (value : Int) : Nat :=
  if value < 0 then old else value.toNat

/-- Source: `init_simulation` (lines 317–343); the results of the two `sem_init`
calls are not checked. -/
def init_simulation (s : Simulation) (num_charging num_loading : Int) : Simulation :=
  { s with
    num_drones := 0,
    simulation_running := false,
    num_charging_stations := num_charging,
    num_loading_bays := num_loading,
    task_queue := pq_init s.task_queue,
    stats := { total_tasks := 0, completed_tasks := 0, total_preemptions := 0,
               charging_station_uses := 0, loading_bay_uses := 0 },
    charging_stations := sem_init s.charging_stations num_charging,
    loading_bays := sem_init s.loading_bays num_loading }

/-- Source: `add_drone`. -/
def add_drone (s : Simulation) (speed battery : Int) : Simulation :=
  if s.num_drones ≥ MAX_DRONES then
    s
  else
    let drone : Drone :=
      { drone_id := (s.num_drones : Int) + 1, state := DRONE_IDLE, battery_level := battery,
        speed := speed, current_task := none, active := true, tasks_completed := 0,
        preempted_count := 0 }
    { s with drones := Function.update s.drones s.num_drones drone,
             num_drones := s.num_drones + 1 }

/-- Source: `add_task`; `malloc` hands out the address `next_free`. -/
def add_task (s : Simulation) (priority est_time : Int) : Simulation :=
  let task : Task :=
    { task_id := s.stats.total_tasks + 1, priority := priority, estimated_time := est_time,
      state := TASK_PENDING, assigned_drone := -1 }
  let mem := Function.update s.mem s.next_free task
  { s with mem := mem, next_free := s.next_free + 1,
           task_queue := pq_push mem s.task_queue s.next_free,
           stats := { s.stats with total_tasks := s.stats.total_tasks + 1 } }

/-- Among the drones below index `n`, drone `b` is eligible, no eligible drone
has a higher battery, and every eligible drone before `b` has a strictly lower
battery. -/
def best_candidate_upto (s : Simulation) (n b : Nat) : Prop :=
  b < n ∧ eligible s b ∧
    (∀ j, j < n → eligible s j → (s.drones j).battery_level ≤ (s.drones b).battery_level) ∧
    (∀ j, j < b → eligible s j → (s.drones j).battery_level < (s.drones b).battery_level)

/-- The candidate of the scheduler: the eligible drone with the highest battery,
the lowest-indexed one among equal batteries. -/
def best_candidate (s : Simulation) (b : Nat) : Prop :=
  best_candidate_upto s s.num_drones b

/-- Loop invariant of the first scan. -/
def BestUpTo (s : Simulation) (i : Nat) : Option Nat → Prop
  | none => ∀ j, j < i → ¬ eligible s j
  | some b => best_candidate_upto s i b


/-! ## Example states, built with the set-up functions -/

/-- The memory and record before `init_simulation` has run. -/
def blankSim : Simulation :=
  { drones := fun _ =>
      { drone_id := 0, state := DRONE_IDLE, battery_level := 0, speed := 0,
        current_task := none, active := false, tasks_completed := 0, preempted_count := 0 },
    num_drones := 0,
    task_queue := { tasks := fun _ => 0, size := 0 },
    stats := { total_tasks := 0, completed_tasks := 0, total_preemptions := 0,
               charging_station_uses := 0, loading_bay_uses := 0 },
    charging_stations := 0, loading_bays := 0, simulation_running := false,
    num_charging_stations := 0, num_loading_bays := 0,
    mem := fun _ =>
      { task_id := 0, priority := 0, estimated_time := 0, state := TASK_PENDING,
        assigned_drone := -1 },
    next_free := 0 }

/-- Two idle drones (batteries 80 and 100) and one queued task of priority 3. -/
def exTwoIdle : Simulation :=
  add_task (add_drone (add_drone (init_simulation blankSim 1 2) 1 80) 2 100) 3 10

/-- Two drones with battery 100; a priority-3 task was assigned to the first
one by a scheduler cycle, then a priority-1 task was added. -/
def exUrgent : Simulation :=
  add_task (scheduler_cycle
    (add_task (add_drone (add_drone (init_simulation blankSim 1 2) 1 100) 2 100) 3 10)) 1 4

/-- One drone with speed 1 and the given battery, `bays` loading bays and one
charging station; a task of priority 3 and estimated time 10 was assigned to
the drone by a scheduler cycle. -/
def exAssigned (battery bays : Int) : Simulation :=
  scheduler_cycle (add_task (add_drone (init_simulation blankSim 1 bays) 1 battery) 3 10)

/-- The end-to-end scenario: 1 charging station, 2 loading bays, a drone with
speed 1 and battery 100, a drone with speed 2 and battery 100, then task A
(priority 3, estimated time 10, address 0) and task B (priority 1, estimated
time 4, address 1). -/
def exScenario : Simulation :=
  add_task (add_task (add_drone (add_drone (init_simulation blankSim 1 2) 1 100) 2 100) 3 10) 1 4

/-- One drone registered with speed 1 and battery 20, one loading bay and the
given number of charging stations. -/
def exLowBattery (stations : Int) : Simulation :=
  add_drone (init_simulation blankSim stations 1) 1 20

/-- One drone in state `DRONE_PREEMPTED` with the given battery and no task; one
charging station and one loading bay. -/
def exPreempted (battery : Int) : Simulation :=
  { init_simulation blankSim 1 1 with
    num_drones := 1,
    drones := fun _ =>
      { drone_id := 1, state := DRONE_PREEMPTED, battery_level := battery, speed := 1,
        current_task := none, active := true, tasks_completed := 0, preempted_count := 1 } }

/-! ## Runs from `init_simulation` -/

/-- The operations a run is made of: the two set-up calls, one scheduler cycle,
one worker cycle of the drone at index `i`; each runs on its own, one at a time. -/
inductive Event where
  | add_drone (speed battery : Int)
  | add_task (priority est_time : Int)
  | scheduler
  | worker (i : Nat)
  deriving DecidableEq, Repr

/-- One operation; `none` when it cannot be completed: a worker cycle of an
index that is not a registered drone, or one that never ends. -/
def step (s : Simulation) : Event → Option Simulation
  | Event.add_drone speed battery => some (add_drone s speed battery)
  | Event.add_task priority est_time => some (add_task s priority est_time)
  | Event.scheduler => some (scheduler_cycle s)
  | Event.worker i => if i < s.num_drones then worker_cycle s i else none

/-- The state after the operations of the list, in order. -/
def run (s : Simulation) : List Event → Option Simulation
  | [] => some s
  | e :: es => (step s e).bind (fun s' => run s' es)

/-- The number of `add_task` calls in a list of operations. -/
def num_add_task : List Event → Nat
  | [] => 0
  | Event.add_task _ _ :: es => num_add_task es + 1
  | _ :: es => num_add_task es

/-- Whether every operation of the run starts with fewer than `MAX_TASKS` tasks
in the queue, so that no `pq_push` of the run is dropped. -/
def has_room (s : Simulation) : List Event → Bool
  | [] => true
  | e :: es =>
    decide (s.task_queue.size < MAX_TASKS) &&
      (match step s e with
       | some s' => has_room s' es
       | none => true)

/-- The number of tasks at the addresses `base ≤ p < top` whose state is
`TASK_COMPLETED`. -/
def completed_count (mem : TaskMem) (base top : Nat) : Nat :=
  ((Finset.Ico base top).filter (fun p : Nat => (mem p).state = TASK_COMPLETED)).card

/-- Invariant of the runs whose first task is allocated at address `base`:
the queue holds no task twice; queued and held tasks were created by `add_task`
and are not completed; a held task is not queued and is held by one drone;
`completed_tasks` is the number of completed tasks and `total_tasks` the number
of created ones. -/
structure Inv (base : Nat) (s : Simulation) : Prop where
  base_le : base ≤ s.next_free
  nodup : (pq_contents s.task_queue).Nodup
  queue_ok : ∀ p : Nat, p ∈ pq_contents s.task_queue →
    base ≤ p ∧ p < s.next_free ∧ (s.mem p).state ≠ TASK_COMPLETED
  held_ok : ∀ (i p : Nat), i < s.num_drones → (s.drones i).current_task = some p →
    base ≤ p ∧ p < s.next_free ∧ (s.mem p).state ≠ TASK_COMPLETED ∧
      p ∉ pq_contents s.task_queue
  held_inj : ∀ (i j p : Nat), i < s.num_drones → j < s.num_drones →
    (s.drones i).current_task = some p → (s.drones j).current_task = some p → i = j
  completed_eq : s.stats.completed_tasks = (completed_count s.mem base s.next_free : Nat)
  total_eq : s.stats.total_tasks + (base : Int) = (s.next_free : Nat)

/-- Every task created since address `base` that is not completed is in the
queue or is the `current_task` of a registered drone. -/
def Conserved (base : Nat) (s : Simulation) : Prop :=
  ∀ p : Nat, base ≤ p → p < s.next_free → (s.mem p).state ≠ TASK_COMPLETED →
    p ∈ pq_contents s.task_queue ∨
      ∃ i, i < s.num_drones ∧ (s.drones i).current_task = some p

/-- A short run: one drone, a priority-3 task, a scheduler cycle, a priority-1
task, a scheduler cycle (which preempts), a worker cycle (which delivers the
priority-1 task), a scheduler cycle. -/
def exEvents : List Event :=
  [Event.add_drone 1 100, Event.add_task 3 10, Event.scheduler, Event.add_task 1 4,
   Event.scheduler, Event.worker 0, Event.scheduler]

/-! ## The set-up part of `main` (`main.c`) -/

/-- A command-line argument as the loop of `main` sees it: an option together
with its value, already converted by `atoi`; `config is_stdin` is `--config`
with a value that is or is not the word `stdin`; `other` is anything else. -/
inductive Arg where
  | drones (n : Int)
  | charging (n : Int)
  | loading (n : Int)
  | duration (n : Int)
  | config (is_stdin : Bool)
  | help
  | other
  deriving DecidableEq, Repr

/-- The local variables the argument loop sets. -/
structure Options where
  num_drones : Int
  num_charging : Int
  num_loading : Int
  duration : Int
  use_stdin_config : Bool
  use_legacy_mode : Bool
  deriving DecidableEq, Repr

/-- Source: the initial values of the locals of `main` (lines 19–24). -/
def default_options : Options :=
  { num_drones := 0, num_charging := 3, num_loading := 5, duration := 30,
    use_stdin_config := false, use_legacy_mode := false }

/-- Source: the argument loop of `main` (lines 26–49); `Except.error status` is
an early `return status`. -/
def parse_args : List Arg → Options → Except Int Options
  | [], o => Except.ok o
  | Arg.drones n :: rest, o =>
    if n < 1 ∨ n > (MAX_DRONES : Int) then
      Except.error 1
    else
      parse_args rest { o with num_drones := n, use_legacy_mode := true }
  | Arg.charging n :: rest, o => parse_args rest { o with num_charging := n }
  | Arg.loading n :: rest, o => parse_args rest { o with num_loading := n }
  | Arg.duration n :: rest, o => parse_args rest { o with duration := n }
  | Arg.config is_stdin :: rest, o =>
    parse_args rest (if is_stdin then { o with use_stdin_config := true } else o)
  | Arg.help :: _, _ => Except.error 0
  | Arg.other :: rest, o => parse_args rest o

/-- A line of the configuration stream as `main` sees it: a `DRONE` line that
`sscanf` read, a `TASK` line with at least four tokens, a `START` line, or a line
that is skipped (empty, comment, malformed, unknown). -/
inductive ConfigLine where
  | drone (speed battery : Int)
  | task (priority est_time : Int)
  | start
  | skip
  deriving DecidableEq, Repr

/-- Source: the `fgets` loop of `main` (lines 57–120). -/
def read_config (s : Simulation) : List ConfigLine → Simulation
  | [] => s
  | ConfigLine.drone speed battery :: rest =>
    if speed ≥ 1 ∧ speed ≤ 3 ∧ battery ≥ 20 ∧ battery ≤ 100 then
      read_config (add_drone s speed battery) rest
    else
      read_config s rest
  | ConfigLine.task priority est_time :: rest =>
    if priority ≥ 1 ∧ priority ≤ 3 ∧ est_time ≥ 1 ∧ est_time ≤ 100 then
      read_config (add_task s priority est_time) rest
    else
      read_config s rest
  | ConfigLine.start :: _ => s
  | ConfigLine.skip :: rest => read_config s rest

/-- Source: `for (i = 0; i < num_drones && i < 5; i++)` over the two tables
`drone_speeds` and `drone_batteries` (lines 122–127), with `k` rounds left. -/
def legacy_first_loop (num_drones : Int) : Nat → Nat → Simulation → Simulation
  | 0, _, s => s
  | k + 1, i, s =>
    if (i : Int) < num_drones ∧ i < 5 then
      legacy_first_loop num_drones k (i + 1)
        (add_drone s ([1, 2, 1, 2, 1].getD i 0) ([100, 80, 90, 100, 75].getD i 0))
    else
      s

/-- Source: `for (i = 5; i < num_drones; i++)` (lines 128–130), with `k` rounds left. -/
def legacy_second_loop (num_drones : Int) : Nat → Nat → Simulation → Simulation
  | 0, _, s => s
  | k + 1, i, s =>
    if (i : Int) < num_drones then
      legacy_second_loop num_drones k (i + 1)
        (add_drone s (1 + ((i % 2 : Nat) : Int)) (80 + ((i % 21 : Nat) : Int)))
    else
      s

/-- Source: the legacy branch of `main` (lines 121–136). -/
def legacy_setup (s : Simulation) (num_drones : Int) : Simulation :=
  let s := legacy_first_loop num_drones 5 0 s
  let s := legacy_second_loop num_drones (num_drones - 5).toNat 5 s
  let s := add_task s 2 10
  let s := add_task s 3 8
  let s := add_task s 1 12
  let s := add_task s 2 15
  add_task s 3 7

/-- What `main` does before the simulation runs: it returns `status` without
calling `start_simulation`, or it calls `start_simulation` on `sim`. -/
inductive Outcome where
  | exit (status : Int)
  | start (sim : Simulation)

/-- The exit status when `main` returns before `start_simulation`. -/
def Outcome.exit_status : Outcome → Option Int
  | Outcome.exit status => some status
  | Outcome.start _ => none

/-- The simulation handed to `start_simulation`, if it is called. -/
def Outcome.started : Outcome → Option Simulation
  | Outcome.exit _ => none
  | Outcome.start sim => some sim

/-- Source: the mode dispatch of `main` (lines 54–141); `none` is the
`return 1` of the last branch. -/
def configure (o : Options) (sim : Simulation) (lines : List ConfigLine) : Option Simulation :=
  if o.use_stdin_config = true then
    some (read_config sim lines)
  else if o.use_legacy_mode = true then
    some (legacy_setup sim o.num_drones)
  else
    none

/-- Source: the two checks before `start_simulation` (lines 143–157), after the
`return 1` of the mode dispatch (`none`). -/
def start_or_exit : Option Simulation → Outcome
  | none => Outcome.exit 1
  | some sim =>
    if sim.num_drones = 0 then
      Outcome.exit 1
    else if sim.task_queue.size = 0 then
      Outcome.exit 1
    else
      Outcome.start sim

/-- Source: `main` up to the call of `start_simulation` (lines 18–157); `s0` is
the uninitialised local `sim`. -/
def main (s0 : Simulation) (args : List Arg) (lines : List ConfigLine) : Outcome :=
  match parse_args args default_options with
  | Except.error status => Outcome.exit status
  | Except.ok o =>
    start_or_exit (configure o (init_simulation s0 o.num_charging o.num_loading) lines)

/-- The same argument with the pool counts replaced by `c` and `l`. -/
def set_pools (c l : Int) : Arg → Arg
  | Arg.charging _ => Arg.charging c
  | Arg.loading _ => Arg.loading l
  | a => a

/-- The options without the two pool counts. -/
def Options.without_pools (o : Options) : Options :=
  { o with num_charging := 0, num_loading := 0 }

/-- The simulation state without the two pools. -/
def Simulation.without_pools (s : Simulation) : Simulation :=
  { s with charging_stations := 0, loading_bays := 0, num_charging_stations := 0,
           num_loading_bays := 0 }

/-! ## The run behind `exUrgent` -/

/-- The operations that lead to `exUrgent`: two drones with battery 100, a
priority-3 task, the scheduler cycle that assigns it to the first drone, then
a priority-1 task; no worker cycle has run. -/
def exUrgentEvents : List Event :=
  [Event.add_drone 1 100, Event.add_drone 2 100, Event.add_task 3 10, Event.scheduler,
   Event.add_task 1 4]

/-- The state `s` with the `state` field of the drone at index `i` overwritten
by `st`. -/
def with_drone_state (s : Simulation) (i : Nat) (st : DroneState) : Simulation :=
  { s with drones := Function.update s.drones i { s.drones i with state := st } }

/-! # Theorems -/

/-! ## Lemmas on the array exchange -/

theorem swap_apply (tasks : Nat → TaskPtr) (i j k : Nat) :
    swap tasks i j k = if k = j then tasks i else if k = i then tasks j else tasks k := by
  unfold swap
  simp only [Function.update_apply]

theorem prio_swap (mem : TaskMem) (tasks : Nat → TaskPtr) (i j k : Nat) :
    prio mem (swap tasks i j) k =
      if k = j then prio mem tasks i else if k = i then prio mem tasks j else prio mem tasks k := by
  unfold prio
  rw [swap_apply]
  split_ifs <;> rfl

theorem prio_update_ne (mem : TaskMem) (tasks : Nat → TaskPtr) (i k : Nat) (v : TaskPtr)
    (h : k ≠ i) : prio mem (Function.update tasks i v) k = prio mem tasks k := by
  unfold prio
  rw [Function.update_noteq h]

/-! ## Sift-up restores the heap property -/

theorem sift_up_fuel_heap (mem : TaskMem) (n : Nat) :
    ∀ (fuel : Nat) (tasks : Nat → TaskPtr) (i : Nat), i < fuel → i < n →
      UpInv mem tasks n i →
      ∃ t, sift_up_fuel mem fuel tasks i = some t ∧ HeapOk mem t n := by
  intro fuel
  induction fuel with
  | zero => intro tasks i h; omega
  | succ fuel ih =>
    intro tasks i hfuel hin hinv
    obtain ⟨h1, h2⟩ := hinv
    unfold sift_up_fuel
    by_cases hi : i > 0
    · simp only [hi, if_true]
      by_cases hlt : prio mem tasks i < prio mem tasks ((i - 1) / 2)
      · simp only [hlt, if_true]
        have hp : (i - 1) / 2 < i := by omega
        apply ih _ _ (by omega) (by omega)
        constructor
        · intro j hj0 hjn hjp
          rw [prio_swap, prio_swap]
          by_cases hji : j = i
          · subst hji
            have e1 : ¬ (j - 1) / 2 = j := by omega
            rw [if_pos rfl, if_neg hjp, if_pos rfl]
            omega
          · have hjj : (j - 1) / 2 < j := by omega
            rw [if_neg hjp, if_neg hji]
            have hj1 := h1 j hj0 hjn hji
            by_cases hq : (j - 1) / 2 = (i - 1) / 2
            · rw [if_pos hq]
              rw [hq] at hj1
              omega
            · rw [if_neg hq]
              by_cases hq2 : (j - 1) / 2 = i
              · rw [if_pos hq2]
                exact h2 j hj0 hjn hq2 hi
              · rw [if_neg hq2]
                exact hj1
        · intro j hj0 hjn hjp hp0
          have hpp := h1 ((i - 1) / 2) hp0 (by omega) (by omega)
          rw [prio_swap, prio_swap]
          have e1 : ¬ ((i - 1) / 2 - 1) / 2 = (i - 1) / 2 := by omega
          have e2 : ¬ ((i - 1) / 2 - 1) / 2 = i := by omega
          have e3 : ¬ j = (i - 1) / 2 := by omega
          rw [if_neg e1, if_neg e2, if_neg e3]
          by_cases hji : j = i
          · rw [if_pos hji]
            exact hpp
          · rw [if_neg hji]
            have := h1 j hj0 hjn hji
            rw [hjp] at this
            omega
      · simp only [hlt, if_false]
        refine ⟨tasks, rfl, ?_⟩
        intro j hj0 hjn
        by_cases hji : j = i
        · subst hji; omega
        · exact h1 j hj0 hjn hji
    · simp only [hi, if_false]
      refine ⟨tasks, rfl, ?_⟩
      intro j hj0 hjn
      exact h1 j hj0 hjn (by omega)

/-! ## Sift-down restores the heap property -/

theorem smallest_of_spec (mem : TaskMem) (tasks : Nat → TaskPtr) (n i : Nat) :
    (smallest_of mem tasks n i = i ∨
      (smallest_of mem tasks n i = 2 * i + 1 ∧ 2 * i + 1 < n) ∨
      (smallest_of mem tasks n i = 2 * i + 2 ∧ 2 * i + 2 < n)) ∧
    (smallest_of mem tasks n i ≠ i →
      prio mem tasks (smallest_of mem tasks n i) < prio mem tasks i) ∧
    (2 * i + 1 < n →
      prio mem tasks (smallest_of mem tasks n i) ≤ prio mem tasks (2 * i + 1)) ∧
    (2 * i + 2 < n →
      prio mem tasks (smallest_of mem tasks n i) ≤ prio mem tasks (2 * i + 2)) ∧
    prio mem tasks (smallest_of mem tasks n i) ≤ prio mem tasks i := by
  unfold smallest_of
  simp only []
  split_ifs with h1 h2 h3
  · refine ⟨Or.inr (Or.inr ⟨rfl, h2.1⟩), fun _ => ?_, fun _ => ?_, fun _ => ?_, ?_⟩ <;> omega
  · refine ⟨Or.inr (Or.inl ⟨rfl, h1.1⟩), fun _ => ?_, fun _ => ?_, fun h => ?_, ?_⟩
    · omega
    · omega
    · have := not_and.mp h2 h; omega
    · omega
  · refine ⟨Or.inr (Or.inr ⟨rfl, h3.1⟩), fun _ => ?_, fun h => ?_, fun _ => ?_, ?_⟩
    · omega
    · have := not_and.mp h1 h; omega
    · omega
    · omega
  · refine ⟨Or.inl rfl, fun h => absurd rfl h, fun h => ?_, fun h => ?_, le_refl _⟩
    · have := not_and.mp h1 h; omega
    · have := not_and.mp h3 h; omega

theorem downInv_swap (mem : TaskMem) (tasks : Nat → TaskPtr) (n i s : Nat)
    (hinv : DownInv mem tasks n i) (hsp : (s - 1) / 2 = i) (hs0 : 0 < s) (hsn : s < n)
    (hlt : prio mem tasks s < prio mem tasks i)
    (hmin : ∀ j, 0 < j → j < n → (j - 1) / 2 = i → prio mem tasks s ≤ prio mem tasks j) :
    DownInv mem (swap tasks i s) n s := by
  obtain ⟨h1, h2⟩ := hinv
  constructor
  · intro j hj0 hjn hjp
    rw [prio_swap, prio_swap, if_neg hjp]
    by_cases hpi : (j - 1) / 2 = i
    · rw [if_pos hpi]
      have hji : ¬ j = i := by omega
      by_cases hjs : j = s
      · rw [if_pos hjs]; omega
      · rw [if_neg hjs, if_neg hji]
        exact hmin j hj0 hjn hpi
    · rw [if_neg hpi]
      have hjs : ¬ j = s := by
        intro h; rw [h] at hpi; exact hpi hsp
      rw [if_neg hjs]
      by_cases hji : j = i
      · rw [if_pos hji]
        have := h2 s hs0 hsn hsp (by omega)
        rw [hji]
        exact this
      · rw [if_neg hji]
        exact h1 j hj0 hjn hpi
  · intro j hj0 hjn hjp _
    rw [prio_swap, prio_swap]
    have e1 : ¬ (s - 1) / 2 = s := by omega
    have e2 : ¬ j = s := by omega
    have e3 : ¬ j = i := by omega
    rw [if_neg e1, if_pos hsp, if_neg e2, if_neg e3]
    have := h1 j hj0 hjn (by omega)
    rw [hjp] at this
    exact this

theorem sift_down_fuel_heap (mem : TaskMem) (n : Nat) :
    ∀ (fuel : Nat) (tasks : Nat → TaskPtr) (i : Nat), i < n → n < fuel + i →
      DownInv mem tasks n i →
      ∃ t, sift_down_fuel mem n fuel tasks i = some t ∧ HeapOk mem t n := by
  intro fuel
  induction fuel with
  | zero => intro tasks i h1 h2; omega
  | succ fuel ih =>
    intro tasks i hin hfuel hinv
    obtain ⟨hshape, hlt, hl, hr, _⟩ := smallest_of_spec mem tasks n i
    unfold sift_down_fuel
    simp only []
    by_cases hs : smallest_of mem tasks n i = i
    · rw [if_neg (not_not.mpr hs)]
      refine ⟨tasks, rfl, ?_⟩
      rw [hs] at hl hr
      intro j hj0 hjn
      by_cases hpi : (j - 1) / 2 = i
      · rw [hpi]
        have : j = 2 * i + 1 ∨ j = 2 * i + 2 := by omega
        rcases this with h | h
        · rw [h]; exact hl (by omega)
        · rw [h]; exact hr (by omega)
      · exact hinv.1 j hj0 hjn hpi
    · rw [if_pos hs]
      have hsn : smallest_of mem tasks n i < n := by
        rcases hshape with h | h | h
        · exact absurd h hs
        · omega
        · omega
      have hsp : (smallest_of mem tasks n i - 1) / 2 = i := by
        rcases hshape with h | h | h
        · exact absurd h hs
        · omega
        · omega
      have hs0 : 0 < smallest_of mem tasks n i := by
        rcases hshape with h | h | h
        · exact absurd h hs
        · omega
        · omega
      apply ih _ _ hsn (by omega)
      apply downInv_swap mem tasks n i _ hinv hsp hs0 hsn (hlt hs)
      intro j hj0 hjn hpi
      have : j = 2 * i + 1 ∨ j = 2 * i + 2 := by omega
      rcases this with h | h
      · rw [h]; exact hl (by omega)
      · rw [h]; exact hr (by omega)

/-! ## The queue operations keep the heap property -/

theorem heapOk_update_last (mem : TaskMem) (tasks : Nat → TaskPtr) (n : Nat) (v : TaskPtr)
    (h : HeapOk mem tasks n) : UpInv mem (Function.update tasks n v) (n + 1) n := by
  constructor
  · intro j hj0 hjn hji
    rw [prio_update_ne _ _ _ _ _ hji, prio_update_ne _ _ _ _ _ (by omega)]
    exact h j hj0 (by omega)
  · intro j hj0 hjn hjp _
    omega

theorem heapOk_update_root (mem : TaskMem) (tasks : Nat → TaskPtr) (n m : Nat) (v : TaskPtr)
    (hm : m ≤ n) (h : HeapOk mem tasks n) : DownInv mem (Function.update tasks 0 v) m 0 := by
  constructor
  · intro j hj0 hjn hjp
    rw [prio_update_ne _ _ _ _ _ hjp, prio_update_ne _ _ _ _ _ (by omega)]
    exact h j hj0 (by omega)
  · intro j _ _ _ h0
    omega

theorem sift_up_heap (mem : TaskMem) (tasks : Nat → TaskPtr) (n i : Nat) (hin : i < n)
    (hinv : UpInv mem tasks n i) : HeapOk mem (sift_up mem tasks i) n := by
  obtain ⟨t, ht, hok⟩ := sift_up_fuel_heap mem n (i + 1) tasks i (by omega) hin hinv
  unfold sift_up
  rw [ht]
  exact hok

theorem sift_down_heap (mem : TaskMem) (tasks : Nat → TaskPtr) (n i : Nat) (hin : i < n)
    (hinv : DownInv mem tasks n i) : HeapOk mem (sift_down mem n tasks i) n := by
  obtain ⟨t, ht, hok⟩ := sift_down_fuel_heap mem n (n + 1) tasks i hin (by omega) hinv
  unfold sift_down
  rw [ht]
  exact hok

theorem pq_push_heap (mem : TaskMem) (pq : PriorityQueue) (task : TaskPtr)
    (h : heap_property mem pq) : heap_property mem (pq_push mem pq task) := by
  unfold pq_push
  split_ifs with hfull
  · exact h
  · exact sift_up_heap mem _ (pq.size + 1) pq.size (by omega)
      (heapOk_update_last mem pq.tasks pq.size task h)

theorem pq_pop_empty (mem : TaskMem) (pq : PriorityQueue) (h : pq.size = 0) :
    pq_pop mem pq = (none, pq) := by
  unfold pq_pop
  rw [if_pos h]

theorem pq_pop_single (mem : TaskMem) (pq : PriorityQueue) (h : pq.size = 1) :
    pq_pop mem pq = (some (pq.tasks 0), { pq with size := 0 }) := by
  unfold pq_pop
  simp [h]

theorem pq_pop_many (mem : TaskMem) (pq : PriorityQueue) (h : 1 < pq.size) :
    pq_pop mem pq = (some (pq.tasks 0),
      { tasks := sift_down mem (pq.size - 1)
          (Function.update pq.tasks 0 (pq.tasks (pq.size - 1))) 0,
        size := pq.size - 1 }) := by
  unfold pq_pop
  have h1 : ¬ pq.size = 0 := by omega
  have h2 : pq.size - 1 > 0 := by omega
  simp only [h1, h2, if_false, if_true]

theorem pq_pop_heap (mem : TaskMem) (pq : PriorityQueue)
    (h : heap_property mem pq) : heap_property mem (pq_pop mem pq).2 := by
  rcases Nat.lt_trichotomy pq.size 1 with h0 | h1 | h2
  · rw [pq_pop_empty mem pq (by omega)]
    exact h
  · rw [pq_pop_single mem pq h1]
    intro j hj0 hjn
    simp only at hjn
    omega
  · rw [pq_pop_many mem pq h2]
    exact sift_down_heap mem _ (pq.size - 1) 0 (by omega)
      (heapOk_update_root mem pq.tasks pq.size (pq.size - 1) _ (by omega) h)
/-! ## The queue operations neither lose nor duplicate tasks -/

theorem mem_contents (tasks : Nat → TaskPtr) (n : Nat) (t : TaskPtr) :
    t ∈ contents tasks n ↔ ∃ k, k < n ∧ tasks k = t := by
  simp [contents]

theorem contents_succ (tasks : Nat → TaskPtr) (n : Nat) :
    contents tasks (n + 1) = tasks n ::ₘ contents tasks n := by
  simp [contents, Multiset.range_succ]

theorem contents_congr (t1 t2 : Nat → TaskPtr) (n : Nat) (h : ∀ k, k < n → t1 k = t2 k) :
    contents t1 n = contents t2 n := by
  unfold contents
  apply Multiset.map_congr rfl
  intro k hk
  exact h k (Multiset.mem_range.mp hk)

theorem contents_swap (tasks : Nat → TaskPtr) (n i j : Nat) (hi : i < n) (hj : j < n) :
    contents (swap tasks i j) n = contents tasks n := by
  have hfun : swap tasks i j = tasks ∘ (Equiv.swap i j) := by
    funext k
    rw [swap_apply]
    simp only [Function.comp, Equiv.swap_apply_def]
    by_cases h2 : k = i
    · subst h2
      by_cases h1 : k = j
      · subst h1; simp
      · simp [h1]
    · by_cases h1 : k = j
      · subst h1; simp [h2]
      · simp [h1, h2]
  have hperm : (Multiset.range n).map (Equiv.swap i j) = Multiset.range n := by
    have hsub : { a | (Equiv.swap i j) a ≠ a } ⊆ ((Finset.range n : Finset Nat) : Set Nat) := by
      intro a ha
      simp only [Set.mem_setOf_eq, Equiv.swap_apply_def] at ha
      simp only [Finset.coe_range, Set.mem_Iio]
      by_cases h1 : a = i
      · omega
      · by_cases h2 : a = j
        · omega
        · simp [h1, h2] at ha
    have := congrArg Finset.val (Finset.map_perm hsub)
    simpa using this
  unfold contents
  rw [hfun, ← Multiset.map_map, hperm]

theorem sift_up_fuel_contents (mem : TaskMem) (n : Nat) :
    ∀ (fuel : Nat) (tasks : Nat → TaskPtr) (i : Nat) (t : Nat → TaskPtr), i < n →
      sift_up_fuel mem fuel tasks i = some t → contents t n = contents tasks n := by
  intro fuel
  induction fuel with
  | zero => intro tasks i t _ h; simp [sift_up_fuel] at h
  | succ fuel ih =>
    intro tasks i t hin h
    unfold sift_up_fuel at h
    by_cases hi : i > 0
    · simp only [hi, if_true] at h
      by_cases hlt : prio mem tasks i < prio mem tasks ((i - 1) / 2)
      · simp only [hlt, if_true] at h
        rw [ih _ _ t (by omega) h]
        exact contents_swap tasks n i _ hin (by omega)
      · simp only [hlt, if_false, Option.some.injEq] at h
        rw [h]
    · simp only [hi, if_false, Option.some.injEq] at h
      rw [h]

theorem sift_down_fuel_contents (mem : TaskMem) (n : Nat) :
    ∀ (fuel : Nat) (tasks : Nat → TaskPtr) (i : Nat) (t : Nat → TaskPtr), i < n →
      sift_down_fuel mem n fuel tasks i = some t → contents t n = contents tasks n := by
  intro fuel
  induction fuel with
  | zero => intro tasks i t _ h; simp [sift_down_fuel] at h
  | succ fuel ih =>
    intro tasks i t hin h
    obtain ⟨hshape, -⟩ := smallest_of_spec mem tasks n i
    unfold sift_down_fuel at h
    simp only [] at h
    by_cases hs : smallest_of mem tasks n i = i
    · rw [if_neg (not_not.mpr hs)] at h
      simp only [Option.some.injEq] at h
      rw [h]
    · rw [if_pos hs] at h
      have hsn : smallest_of mem tasks n i < n := by
        rcases hshape with h | h | h
        · exact absurd h hs
        · omega
        · omega
      rw [ih _ _ t hsn h]
      exact contents_swap tasks n i _ hin hsn

theorem sift_up_contents (mem : TaskMem) (tasks : Nat → TaskPtr) (n i : Nat) (hin : i < n) :
    contents (sift_up mem tasks i) n = contents tasks n := by
  unfold sift_up
  cases h : sift_up_fuel mem (i + 1) tasks i with
  | none => rfl
  | some t => exact sift_up_fuel_contents mem n _ _ _ t hin h

theorem sift_down_contents (mem : TaskMem) (tasks : Nat → TaskPtr) (n i : Nat) (hin : i < n) :
    contents (sift_down mem n tasks i) n = contents tasks n := by
  unfold sift_down
  cases h : sift_down_fuel mem n (n + 1) tasks i with
  | none => rfl
  | some t => exact sift_down_fuel_contents mem n _ _ _ t hin h

theorem pq_push_contents (mem : TaskMem) (pq : PriorityQueue) (task : TaskPtr)
    (h : pq.size < MAX_TASKS) :
    pq_contents (pq_push mem pq task) = task ::ₘ pq_contents pq ∧
      (pq_push mem pq task).size = pq.size + 1 := by
  unfold pq_push
  rw [if_neg (by omega)]
  refine ⟨?_, rfl⟩
  show contents (sift_up mem (Function.update pq.tasks pq.size task) pq.size) (pq.size + 1) = _
  rw [sift_up_contents mem _ (pq.size + 1) pq.size (by omega), contents_succ,
    Function.update_same]
  congr 1
  apply contents_congr
  intro k hk
  rw [Function.update_noteq (by omega)]

theorem contents_update_root (tasks : Nat → TaskPtr) (m : Nat) (hm : 0 < m) :
    contents tasks (m + 1) = tasks 0 ::ₘ contents (Function.update tasks 0 (tasks m)) m := by
  have e : contents (Function.update tasks 0 (tasks m)) m = contents (swap tasks 0 m) m := by
    apply contents_congr
    intro k hk
    rw [swap_apply, if_neg (by omega)]
    by_cases hk0 : k = 0
    · rw [if_pos hk0, hk0, Function.update_same]
    · rw [if_neg hk0, Function.update_noteq hk0]
  rw [e, ← contents_swap tasks (m + 1) 0 m (by omega) (by omega), contents_succ, swap_apply,
    if_pos rfl]

theorem pq_pop_contents (mem : TaskMem) (pq : PriorityQueue) (h : 0 < pq.size) :
    (pq_pop mem pq).1 = some (pq.tasks 0) ∧
      pq_contents pq = pq.tasks 0 ::ₘ pq_contents (pq_pop mem pq).2 ∧
      (pq_pop mem pq).2.size = pq.size - 1 := by
  rcases Nat.lt_or_ge 1 pq.size with h2 | h1
  · rw [pq_pop_many mem pq h2]
    refine ⟨rfl, ?_, rfl⟩
    show contents pq.tasks pq.size = pq.tasks 0 ::ₘ contents (sift_down mem (pq.size - 1)
      (Function.update pq.tasks 0 (pq.tasks (pq.size - 1))) 0) (pq.size - 1)
    rw [sift_down_contents mem _ (pq.size - 1) 0 (by omega)]
    have e3 : pq.size = (pq.size - 1) + 1 := by omega
    conv_lhs => rw [e3]
    exact contents_update_root pq.tasks (pq.size - 1) (by omega)
  · have h1 : pq.size = 1 := by omega
    rw [pq_pop_single mem pq h1]
    refine ⟨rfl, ?_, by simp [h1]⟩
    simp [pq_contents, contents, h1]

/-! ## The root of a heap is a minimum -/

theorem heapOk_root_le (mem : TaskMem) (tasks : Nat → TaskPtr) (n : Nat)
    (h : HeapOk mem tasks n) : ∀ k, k < n → prio mem tasks 0 ≤ prio mem tasks k := by
  intro k
  induction k using Nat.strong_induction_on with
  | _ k ih =>
    intro hk
    by_cases h0 : k = 0
    · rw [h0]
    · have hp := h k (by omega) hk
      have := ih ((k - 1) / 2) (by omega) (by omega)
      omega
/-! ## The fuel handed to the two sift loops always suffices -/

theorem sift_up_fuel_isSome (mem : TaskMem) :
    ∀ (fuel : Nat) (tasks : Nat → TaskPtr) (i : Nat), i < fuel →
      (sift_up_fuel mem fuel tasks i).isSome = true := by
  intro fuel
  induction fuel with
  | zero => intro tasks i h; omega
  | succ fuel ih =>
    intro tasks i h
    unfold sift_up_fuel
    by_cases hi : i > 0
    · simp only [hi, if_true]
      split_ifs
      · exact ih _ _ (by omega)
      · rfl
    · simp only [hi, if_false]
      rfl

theorem sift_down_fuel_isSome (mem : TaskMem) (n : Nat) :
    ∀ (fuel : Nat) (tasks : Nat → TaskPtr) (i : Nat), 0 < fuel → n < fuel + i →
      (sift_down_fuel mem n fuel tasks i).isSome = true := by
  intro fuel
  induction fuel with
  | zero => intro tasks i h; omega
  | succ fuel ih =>
    intro tasks i _ h
    obtain ⟨hshape, -⟩ := smallest_of_spec mem tasks n i
    unfold sift_down_fuel
    simp only []
    by_cases hs : smallest_of mem tasks n i = i
    · rw [if_neg (not_not.mpr hs)]
      rfl
    · rw [if_pos hs]
      rcases hshape with h' | h' | h'
      · exact absurd h' hs
      · exact ih _ _ (by omega) (by omega)
      · exact ih _ _ (by omega) (by omega)

theorem sift_up_total (mem : TaskMem) (tasks : Nat → TaskPtr) (i : Nat) :
    sift_up_fuel mem (i + 1) tasks i = some (sift_up mem tasks i) := by
  have h := sift_up_fuel_isSome mem (i + 1) tasks i (by omega)
  unfold sift_up
  cases hr : sift_up_fuel mem (i + 1) tasks i with
  | none => rw [hr] at h; cases h
  | some t => rfl

theorem sift_down_total (mem : TaskMem) (size : Nat) (tasks : Nat → TaskPtr) (i : Nat) :
    sift_down_fuel mem size (size + 1) tasks i = some (sift_down mem size tasks i) := by
  have h := sift_down_fuel_isSome mem size (size + 1) tasks i (by omega) (by omega)
  unfold sift_down
  cases hr : sift_down_fuel mem size (size + 1) tasks i with
  | none => rw [hr] at h; cases h
  | some t => rfl

theorem charge_tick_bounds (b : Int) (h : b < 100) :
    b < charge_tick b ∧ charge_tick b ≤ 100 := by
  unfold charge_tick BATTERY_CHARGE_RATE
  simp only []
  split_ifs <;> omega

theorem charge_loop_fuel_spec :
    ∀ (fuel : Nat) (b : Int), (100 - b).toNat < fuel →
      charge_loop_fuel fuel b = some (max b 100) := by
  intro fuel
  induction fuel with
  | zero => intro b h; omega
  | succ fuel ih =>
    intro b h
    unfold charge_loop_fuel
    by_cases hb : b < 100
    · rw [if_pos hb]
      obtain ⟨h1, h2⟩ := charge_tick_bounds b hb
      rw [ih (charge_tick b) (by omega), max_eq_right h2, max_eq_right (by omega)]
    · rw [if_neg hb, max_eq_left (by omega)]

/-! ## Draining a heap -/

theorem reach_heap (mem : TaskMem) (pq : PriorityQueue) (h : Reach mem pq) :
    heap_property mem pq := by
  induction h with
  | init pq => intro i h0 hi; simp only [pq_init] at hi; omega
  | push pq task _ ih => exact pq_push_heap mem pq task ih
  | pop pq _ ih => exact pq_pop_heap mem pq ih

theorem reach_size (mem : TaskMem) (pq : PriorityQueue) (h : Reach mem pq) :
    pq.size ≤ MAX_TASKS := by
  induction h with
  | init pq => simp [pq_init]
  | push pq task _ ih =>
    unfold pq_push
    split_ifs with hfull
    · exact ih
    · simp only; omega
  | pop pq _ ih =>
    rcases Nat.eq_zero_or_pos pq.size with h0 | h0
    · rw [pq_pop_empty mem pq h0]; exact ih
    · rw [(pq_pop_contents mem pq h0).2.2]; omega

theorem heap_root_min (mem : TaskMem) (pq : PriorityQueue) (h : heap_property mem pq) :
    ∀ u ∈ pq_contents pq, (mem (pq.tasks 0)).priority ≤ (mem u).priority := by
  intro u hu
  obtain ⟨k, hk, rfl⟩ := (mem_contents pq.tasks pq.size u).mp hu
  exact heapOk_root_le mem pq.tasks pq.size h k hk

theorem pop_all_heap (mem : TaskMem) :
    ∀ (n : Nat) (pq : PriorityQueue), pq.size = n → heap_property mem pq →
      ∃ l, pop_all mem (n + 1) pq = some l ∧ l.length = n ∧
        (∀ t ∈ l, t ∈ pq_contents pq) ∧
        (l.map (fun t => (mem t).priority)).Sorted (· ≤ ·) := by
  intro n
  induction n with
  | zero =>
    intro pq hn _
    refine ⟨[], ?_, rfl, by simp, by simp⟩
    unfold pop_all
    rw [pq_pop_empty mem pq hn]
  | succ n ih =>
    intro pq hn hheap
    obtain ⟨h1, h2, h3⟩ := pq_pop_contents mem pq (by omega)
    obtain ⟨l, hl, hlen, hsub, hsorted⟩ :=
      ih (pq_pop mem pq).2 (by omega) (pq_pop_heap mem pq hheap)
    refine ⟨pq.tasks 0 :: l, ?_, by simp [hlen], ?_, ?_⟩
    · rw [pop_all]
      have e : pq_pop mem pq = (some (pq.tasks 0), (pq_pop mem pq).2) := by
        rw [← h1]
      rw [e]
      simp only [hl, Option.map_some']
    · intro t ht
      rw [h2]
      rcases List.mem_cons.mp ht with h | h
      · rw [h]; exact Multiset.mem_cons_self _ _
      · exact Multiset.mem_cons_of_mem (hsub t h)
    · rw [List.map_cons, List.sorted_cons]
      refine ⟨?_, hsorted⟩
      intro b hb
      obtain ⟨t, ht, rfl⟩ := List.mem_map.mp hb
      apply heap_root_min mem pq hheap
      rw [h2]
      exact Multiset.mem_cons_of_mem (hsub t ht)

/-! ## Claims on the priority queue -/

/-- C1: the min-heap property is preserved by the queue operations: the queue
left by `pq_init` has it, and whenever a queue has it, so have the queue after
`pq_push` of any task and the queue after `pq_pop`. -/
theorem heap_property_preserved (mem : TaskMem) :
    (∀ pq : PriorityQueue, heap_property mem (pq_init pq)) ∧
    (∀ (pq : PriorityQueue) (task : TaskPtr), heap_property mem pq →
      heap_property mem (pq_push mem pq task) ∧ heap_property mem (pq_pop mem pq).2) :=
  ⟨fun pq => reach_heap mem _ (Reach.init pq),
   fun pq task h => ⟨pq_push_heap mem pq task h, pq_pop_heap mem pq h⟩⟩

/-- Witness for C1 on the three-element queue `exQueue` with priorities 3, 1, 2. -/
theorem heap_property_preserved_witness :
    heap_property (memOfPrios [3, 1, 2]) exQueue ∧
    heap_property (memOfPrios [3, 1, 2]) (pq_push (memOfPrios [3, 1, 2]) exQueue 3) ∧
    heap_property (memOfPrios [3, 1, 2]) (pq_pop (memOfPrios [3, 1, 2]) exQueue).2 :=
  ⟨by decide, (heap_property_preserved (memOfPrios [3, 1, 2])).2 exQueue 3 (by decide)⟩

/-- C2: on every queue built from `pq_init` by `pq_push` and `pq_pop` calls,
popping until `pq_pop` returns `NULL` returns exactly `size` tasks (the call
number `size + 1` is the first to return `NULL`), in non-decreasing order of
priority number. -/
theorem pop_all_sorted (mem : TaskMem) (pq : PriorityQueue) (h : Reach mem pq) :
    ∃ l, pop_all mem (pq.size + 1) pq = some l ∧ l.length = pq.size ∧
      (l.map (fun t => (mem t).priority)).Sorted (· ≤ ·) := by
  obtain ⟨l, h1, h2, _, h4⟩ := pop_all_heap mem pq.size pq rfl (reach_heap mem pq h)
  exact ⟨l, h1, h2, h4⟩

/-- Witness for C2: the queue obtained by pushing the tasks at addresses 0, 1, 2
(priorities 3, 1, 2) onto an initialised queue. -/
theorem pop_all_sorted_witness :
    Reach (memOfPrios [3, 1, 2])
      (pq_push (memOfPrios [3, 1, 2]) (pq_push (memOfPrios [3, 1, 2])
        (pq_push (memOfPrios [3, 1, 2]) (pq_init exQueue) 0) 1) 2) ∧
    ∃ l, pop_all (memOfPrios [3, 1, 2])
        ((pq_push (memOfPrios [3, 1, 2]) (pq_push (memOfPrios [3, 1, 2])
          (pq_push (memOfPrios [3, 1, 2]) (pq_init exQueue) 0) 1) 2).size + 1)
        (pq_push (memOfPrios [3, 1, 2]) (pq_push (memOfPrios [3, 1, 2])
          (pq_push (memOfPrios [3, 1, 2]) (pq_init exQueue) 0) 1) 2) = some l ∧
      l.length = (pq_push (memOfPrios [3, 1, 2]) (pq_push (memOfPrios [3, 1, 2])
          (pq_push (memOfPrios [3, 1, 2]) (pq_init exQueue) 0) 1) 2).size ∧
      (l.map (fun t => ((memOfPrios [3, 1, 2]) t).priority)).Sorted (· ≤ ·) :=
  ⟨Reach.push _ _ (Reach.push _ _ (Reach.push _ _ (Reach.init _))),
   pop_all_sorted _ _ (Reach.push _ _ (Reach.push _ _ (Reach.push _ _ (Reach.init _))))⟩

/-- C3: `pq_pop` returns `NULL` exactly when the queue is empty, and then
leaves the queue as it was; on a non-empty queue it returns a task of the
queue and `size` goes down by exactly 1, and if the queue has the min-heap
property the returned task's priority number is at most that of every task
that was in the queue. -/
theorem pq_pop_spec (mem : TaskMem) (pq : PriorityQueue) :
    ((pq_pop mem pq).1 = none ↔ pq.size = 0) ∧
    (pq.size = 0 → (pq_pop mem pq).2 = pq) ∧
    (0 < pq.size →
      ∃ t, (pq_pop mem pq).1 = some t ∧ t ∈ pq_contents pq ∧
        (pq_pop mem pq).2.size + 1 = pq.size ∧
        (heap_property mem pq →
          ∀ u ∈ pq_contents pq, (mem t).priority ≤ (mem u).priority)) := by
  refine ⟨⟨fun h => ?_, fun h => ?_⟩, fun h => ?_, fun h => ?_⟩
  · by_contra h0
    rw [(pq_pop_contents mem pq (by omega)).1] at h
    exact Option.noConfusion h
  · rw [pq_pop_empty mem pq h]
  · rw [pq_pop_empty mem pq h]
  · obtain ⟨h1, h2, h3⟩ := pq_pop_contents mem pq h
    refine ⟨pq.tasks 0, h1, ?_, by omega, heap_root_min mem pq⟩
    rw [h2]
    exact Multiset.mem_cons_self _ _

/-- Witness for C3 on the three-element heap `exQueue`. -/
theorem pq_pop_spec_witness :
    0 < exQueue.size ∧ heap_property (memOfPrios [3, 1, 2]) exQueue ∧
    ∃ t, (pq_pop (memOfPrios [3, 1, 2]) exQueue).1 = some t ∧ t ∈ pq_contents exQueue ∧
      (pq_pop (memOfPrios [3, 1, 2]) exQueue).2.size + 1 = exQueue.size ∧
      ∀ u ∈ pq_contents exQueue,
        ((memOfPrios [3, 1, 2]) t).priority ≤ ((memOfPrios [3, 1, 2]) u).priority := by
  have h0 : 0 < exQueue.size := by decide
  have hh : heap_property (memOfPrios [3, 1, 2]) exQueue := by decide
  obtain ⟨t, h1, h2, h3, h4⟩ := (pq_pop_spec (memOfPrios [3, 1, 2]) exQueue).2.2 h0
  exact ⟨h0, hh, t, h1, h2, h3, h4 hh⟩

/-- C4: `pq_peek` returns `NULL` exactly when the queue is empty (`pq_is_empty`);
it never changes the array or `size`; on a non-empty queue it returns the task
that the next `pq_pop` returns, and if the queue has the min-heap property this
task has the least priority number in the queue. -/
theorem pq_peek_spec (mem : TaskMem) (pq : PriorityQueue) :
    ((pq_peek pq).1 = none ↔ pq_is_empty pq = true) ∧
    ((pq_peek pq).2.tasks = pq.tasks ∧ (pq_peek pq).2.size = pq.size) ∧
    (pq_is_empty pq = false →
      ∃ t, (pq_peek pq).1 = some t ∧ t ∈ pq_contents pq ∧
        (pq_pop mem (pq_peek pq).2).1 = some t ∧
        (heap_property mem pq →
          ∀ u ∈ pq_contents pq, (mem t).priority ≤ (mem u).priority)) := by
  refine ⟨?_, ⟨rfl, rfl⟩, fun h => ?_⟩
  · unfold pq_peek pq_is_empty
    by_cases h : pq.size = 0
    · simp [h]
    · have : pq.size > 0 := by omega
      simp [h, this]
  · have hpos : 0 < pq.size := by
      unfold pq_is_empty at h
      simp only [beq_eq_false_iff_ne, ne_eq] at h
      omega
    obtain ⟨h1, h2, h3⟩ := pq_pop_contents mem pq hpos
    refine ⟨pq.tasks 0, ?_, ?_, h1, heap_root_min mem pq⟩
    · unfold pq_peek
      simp [hpos]
    · rw [h2]
      exact Multiset.mem_cons_self _ _

/-- Witness for C4 on the three-element heap `exQueue`. -/
theorem pq_peek_spec_witness :
    pq_is_empty exQueue = false ∧ heap_property (memOfPrios [3, 1, 2]) exQueue ∧
    ∃ t, (pq_peek exQueue).1 = some t ∧ t ∈ pq_contents exQueue ∧
      (pq_pop (memOfPrios [3, 1, 2]) (pq_peek exQueue).2).1 = some t ∧
      ∀ u ∈ pq_contents exQueue,
        ((memOfPrios [3, 1, 2]) t).priority ≤ ((memOfPrios [3, 1, 2]) u).priority := by
  have h0 : pq_is_empty exQueue = false := by decide
  have hh : heap_property (memOfPrios [3, 1, 2]) exQueue := by decide
  obtain ⟨t, h1, h2, h3, h4⟩ := (pq_peek_spec (memOfPrios [3, 1, 2]) exQueue).2.2 h0
  exact ⟨h0, hh, t, h1, h2, h3, h4 hh⟩

/-- C5: `MAX_TASKS` is 200; on a queue holding `MAX_TASKS` tasks (or more)
`pq_push` of any task returns the queue as it was, array and size, so any number
of later pops returns what it would have returned without the push; and every
queue built from `pq_init` by `pq_push` and `pq_pop` has `size` at most 200. -/
theorem pq_push_full (mem : TaskMem) :
    MAX_TASKS = 200 ∧
    (∀ (pq : PriorityQueue) (task : TaskPtr), MAX_TASKS ≤ pq.size →
      pq_push mem pq task = pq ∧
      (∀ k, pop_results mem k (pq_push mem pq task) = pop_results mem k pq) ∧
      (∀ fuel, pop_all mem fuel (pq_push mem pq task) = pop_all mem fuel pq)) ∧
    (∀ pq : PriorityQueue, Reach mem pq → 0 ≤ pq.size ∧ pq.size ≤ 200) := by
  refine ⟨rfl, fun pq task h => ?_, fun pq h => ⟨Nat.zero_le _, reach_size mem pq h⟩⟩
  have e : pq_push mem pq task = pq := by
    unfold pq_push
    rw [if_pos h]
  rw [e]
  exact ⟨rfl, fun _ => rfl, fun _ => rfl⟩

/-- Witness for C5: the full queue `exFullQueue`, and the queue reached by one push. -/
theorem pq_push_full_witness :
    (MAX_TASKS ≤ exFullQueue.size ∧ pq_push (memOfPrios []) exFullQueue 7 = exFullQueue) ∧
    (Reach (memOfPrios []) (pq_push (memOfPrios []) (pq_init exQueue) 7) ∧
      (pq_push (memOfPrios []) (pq_init exQueue) 7).size ≤ 200) :=
  ⟨⟨by decide, ((pq_push_full (memOfPrios [])).2.1 exFullQueue 7 (by decide)).1⟩,
   ⟨Reach.push _ _ (Reach.init _),
    ((pq_push_full (memOfPrios [])).2.2 _ (Reach.push _ _ (Reach.init _))).2⟩⟩

/-! ## The two scans of the scheduler -/

theorem bestUpTo_skip (s : Simulation) (i : Nat) (best : Option Nat)
    (h : BestUpTo s i best) (hel : ¬ eligible s i) : BestUpTo s (i + 1) best := by
  cases best with
  | none =>
    intro j hj
    rcases Nat.lt_succ_iff_lt_or_eq.mp hj with hlt | heq
    · exact h j hlt
    · rw [heq]; exact hel
  | some b =>
    obtain ⟨hb, hbe, hmax, hfirst⟩ := h
    refine ⟨by omega, hbe, ?_, hfirst⟩
    intro j hj hje
    rcases Nat.lt_succ_iff_lt_or_eq.mp hj with hlt | heq
    · exact hmax j hlt hje
    · rw [heq] at hje; exact absurd hje hel

theorem bestUpTo_take (s : Simulation) (i : Nat) (hel : eligible s i) :
    ∀ best : Option Nat, BestUpTo s i best →
      BestUpTo s (i + 1)
        (match best with
          | none => some i
          | some b =>
            if (s.drones i).battery_level > (s.drones b).battery_level then some i
            else best) := by
  intro best h
  cases best with
  | none =>
    refine ⟨by omega, hel, ?_, ?_⟩
    · intro j hj hje
      rcases Nat.lt_succ_iff_lt_or_eq.mp hj with hlt | heq
      · exact absurd hje (h j hlt)
      · rw [heq]
    · intro j hj hje
      exact absurd hje (h j hj)
  | some b =>
    obtain ⟨hb, hbe, hmax, hfirst⟩ := h
    by_cases hgt : (s.drones i).battery_level > (s.drones b).battery_level
    · simp only [hgt, if_true]
      refine ⟨by omega, hel, ?_, ?_⟩
      · intro j hj hje
        rcases Nat.lt_succ_iff_lt_or_eq.mp hj with hlt | heq
        · have := hmax j hlt hje; omega
        · rw [heq]
      · intro j hj hje
        have := hmax j hj hje; omega
    · simp only [hgt, if_false]
      refine ⟨by omega, hbe, ?_, hfirst⟩
      intro j hj hje
      rcases Nat.lt_succ_iff_lt_or_eq.mp hj with hlt | heq
      · exact hmax j hlt hje
      · rw [heq]; omega

theorem find_best_inv (s : Simulation) :
    ∀ (k i : Nat) (best : Option Nat), BestUpTo s i best →
      BestUpTo s (i + k) (find_best s k i best) := by
  intro k
  induction k with
  | zero => intro i best h; exact h
  | succ k ih =>
    intro i best h
    unfold find_best
    have e : i + (k + 1) = (i + 1) + k := by omega
    rw [e]
    apply ih
    by_cases h1 : (s.drones i).active = true ∧
        (s.drones i).battery_level > BATTERY_LOW_THRESHOLD
    · by_cases h2 : (s.drones i).state = DRONE_IDLE ∧ (s.drones i).current_task = none
      · rw [if_pos h1, if_pos h2]
        exact bestUpTo_take s i ⟨h1.1, h1.2, h2.1, h2.2⟩ best h
      · rw [if_pos h1, if_neg h2]
        exact bestUpTo_skip s i best h (fun hel => h2 hel.2.2)
    · rw [if_neg h1]
      exact bestUpTo_skip s i best h (fun hel => h1 ⟨hel.1, hel.2.1⟩)

theorem find_best_spec (s : Simulation) (hex : ∃ j, j < s.num_drones ∧ eligible s j) :
    ∃ b, find_best s s.num_drones 0 none = some b ∧ best_candidate s b := by
  have h := find_best_inv s s.num_drones 0 none (by intro j hj; omega)
  rw [Nat.zero_add] at h
  cases hfb : find_best s s.num_drones 0 none with
  | none =>
    rw [hfb] at h
    obtain ⟨j, hj, hje⟩ := hex
    exact absurd hje (h j hj)
  | some b =>
    rw [hfb] at h
    exact ⟨b, rfl, h⟩

theorem preemptable_iff (s : Simulation) (j : Nat) (t : TaskPtr)
    (ht : (s.drones j).current_task = some t) :
    preemptable s j ↔ ((s.drones j).active = true ∧ (s.mem t).priority > 1 ∧
          (s.drones j).battery_level > BATTERY_LOW_THRESHOLD) := by
  unfold preemptable
  constructor
  · rintro ⟨h1, ⟨t', ht', hp⟩, h3⟩
    rw [ht] at ht'
    cases ht'
    exact ⟨h1, hp, h3⟩
  · rintro ⟨h1, hp, h3⟩
    exact ⟨h1, ⟨t, ht, hp⟩, h3⟩

theorem not_preemptable_of_none (s : Simulation) (j : Nat)
    (ht : (s.drones j).current_task = none) : ¬ preemptable s j := by
  rintro ⟨_, ⟨t, ht', _⟩, _⟩
  rw [ht] at ht'
  cases ht'

theorem preempt_scan_none (s : Simulation) (best : Option Nat) :
    ∀ (k i : Nat), (∀ j, i ≤ j → j < i + k → ¬ preemptable s j) →
      preempt_scan k i s best = (s, best) := by
  intro k
  induction k with
  | zero => intro i _; rfl
  | succ k ih =>
    intro i h
    have hi := h i (le_refl _) (by omega)
    have hrec := ih (i + 1) (fun j h1 h2 => h j (by omega) (by omega))
    unfold preempt_scan
    cases ht : (s.drones i).current_task with
    | none => exact hrec
    | some t =>
      simp only []
      rw [if_neg (fun hc => hi ((preemptable_iff s i t ht).mpr hc))]
      exact hrec

theorem preempt_scan_first (s : Simulation) (best : Option Nat) (i0 : Nat) (t : TaskPtr)
    (ht : (s.drones i0).current_task = some t) (hp : preemptable s i0) :
    ∀ (k i : Nat), i ≤ i0 → i0 < i + k → (∀ j, i ≤ j → j < i0 → ¬ preemptable s j) →
      preempt_scan k i s best = (preempt s i0 t, some i0) := by
  intro k
  induction k with
  | zero => intro i h1 h2; omega
  | succ k ih =>
    intro i h1 h2 h
    unfold preempt_scan
    by_cases hi : i = i0
    · subst hi
      rw [ht]
      simp only []
      rw [if_pos ((preemptable_iff s i t ht).mp hp)]
    · have hni := h i (le_refl _) (by omega)
      have hrec := ih (i + 1) (by omega) (by omega) (fun j h1 h2 => h j (by omega) h2)
      cases ht' : (s.drones i).current_task with
      | none => exact hrec
      | some t' =>
        simp only []
        rw [if_neg (fun hc => hni ((preemptable_iff s i t' ht').mpr hc))]
        exact hrec

theorem exists_first (P : Nat → Prop) (n : Nat) (h : ∃ j, j < n ∧ P j) :
    ∃ i, i < n ∧ P i ∧ ∀ j, j < i → ¬ P j := by
  classical
  have h' : ∃ j, P j := by obtain ⟨j, _, hj⟩ := h; exact ⟨j, hj⟩
  refine ⟨Nat.find h', ?_, Nat.find_spec h', fun j hj => Nat.find_min h' hj⟩
  obtain ⟨j, hjn, hj⟩ := h
  exact lt_of_le_of_lt (Nat.find_min' h' hj) hjn

theorem sift_up_fuel_root (mem : TaskMem) :
    ∀ (fuel : Nat) (tasks : Nat → TaskPtr) (i : Nat) (t : Nat → TaskPtr),
      (0 < i → ¬ prio mem tasks i < prio mem tasks 0) →
      sift_up_fuel mem fuel tasks i = some t → t 0 = tasks 0 := by
  intro fuel
  induction fuel with
  | zero => intro tasks i t _ h; simp [sift_up_fuel] at h
  | succ fuel ih =>
    intro tasks i t hroot h
    unfold sift_up_fuel at h
    by_cases hi : i > 0
    · simp only [hi, if_true] at h
      by_cases hlt : prio mem tasks i < prio mem tasks ((i - 1) / 2)
      · simp only [hlt, if_true] at h
        by_cases hp : (i - 1) / 2 = 0
        · rw [hp] at hlt
          exact absurd hlt (hroot hi)
        · have h0p : ¬ 0 = (i - 1) / 2 := fun e => hp e.symm
          have h0i : ¬ 0 = i := by omega
          have := ih _ _ t (fun _ => by
            rw [prio_swap, prio_swap, if_pos rfl, if_neg h0p, if_neg h0i]
            exact hroot hi) h
          rw [this, swap_apply, if_neg h0p, if_neg h0i]
      · simp only [hlt, if_false, Option.some.injEq] at h
        rw [← h]
    · simp only [hi, if_false, Option.some.injEq] at h
      rw [← h]

theorem pq_push_root (mem : TaskMem) (pq : PriorityQueue) (task : TaskPtr)
    (hq : 0 < pq.size) (hp : ¬ (mem task).priority < (mem (pq.tasks 0)).priority) :
    (pq_push mem pq task).tasks 0 = pq.tasks 0 ∧ 0 < (pq_push mem pq task).size := by
  unfold pq_push
  split_ifs with hfull
  · exact ⟨rfl, hq⟩
  · refine ⟨?_, by simp⟩
    show sift_up mem (Function.update pq.tasks pq.size task) pq.size 0 = pq.tasks 0
    unfold sift_up
    cases h : sift_up_fuel mem (pq.size + 1) (Function.update pq.tasks pq.size task) pq.size with
    | none =>
      have := sift_up_fuel_isSome mem (pq.size + 1) (Function.update pq.tasks pq.size task)
        pq.size (by omega)
      rw [h] at this
      exact absurd this (by simp)
    | some t =>
      have h0 : (0 : Nat) ≠ pq.size := by omega
      rw [Option.getD_some, sift_up_fuel_root mem _ _ _ t ?_ h, Function.update_noteq h0]
      intro _
      unfold prio
      rw [Function.update_same, Function.update_noteq h0]
      exact hp

theorem assign_some (s : Simulation) (b : Nat) (task : TaskPtr)
    (h : (pq_pop s.mem s.task_queue).1 = some task) :
    assign s (some b) =
      { s with
        task_queue := (pq_pop s.mem s.task_queue).2,
        mem := Function.update s.mem task
          { s.mem task with state := TASK_ASSIGNED, assigned_drone := (s.drones b).drone_id },
        drones := Function.update s.drones b
          { s.drones b with current_task := some task, state := DRONE_IDLE } } := by
  unfold assign
  rcases hr : pq_pop s.mem s.task_queue with ⟨o, q⟩
  rw [hr] at h
  simp only at h
  subst h
  rfl

theorem scheduler_cycle_nonempty (s : Simulation) (hq : 0 < s.task_queue.size) :
    scheduler_cycle s =
      assign
        (if (s.mem (s.task_queue.tasks 0)).priority = 1 then
          preempt_scan s.num_drones 0 s (find_best s s.num_drones 0 none)
        else (s, find_best s s.num_drones 0 none)).1
        (if (s.mem (s.task_queue.tasks 0)).priority = 1 then
          preempt_scan s.num_drones 0 s (find_best s s.num_drones 0 none)
        else (s, find_best s s.num_drones 0 none)).2 := by
  unfold scheduler_cycle pq_is_empty pq_peek
  have h1 : (s.task_queue.size == 0) = false := by
    simp only [beq_eq_false_iff_ne, ne_eq]; omega
  simp only [h1, if_true, hq, gt_iff_lt]

/-- C6: when the queue is not empty, no preemption applies (the head's priority
is not 1, or no drone below `num_drones` is active with battery above 20 and
holds a task of priority above 1) and some drone below `num_drones` is
eligible (active, battery above 20, idle, no task), one scheduler cycle pops
the queue head and gives it to the candidate `b`: the eligible drone with the
highest battery, the lowest-indexed among equals.  Afterwards the head task is
`TASK_ASSIGNED` with `assigned_drone` the id of `b`, drone `b` holds it and is
`DRONE_IDLE` (its other fields as before), and every other drone is unchanged. -/
theorem scheduler_assigns_best (s : Simulation)
    (hq : 0 < s.task_queue.size)
    (hnp : (s.mem (s.task_queue.tasks 0)).priority ≠ 1 ∨
      ∀ j, j < s.num_drones → ¬ preemptable s j)
    (hex : ∃ j, j < s.num_drones ∧ eligible s j) :
    ∃ b, best_candidate s b ∧
      (pq_pop s.mem s.task_queue).1 = some (s.task_queue.tasks 0) ∧
      (scheduler_cycle s).task_queue = (pq_pop s.mem s.task_queue).2 ∧
      ((scheduler_cycle s).mem (s.task_queue.tasks 0)).state = TASK_ASSIGNED ∧
      ((scheduler_cycle s).mem (s.task_queue.tasks 0)).assigned_drone = (s.drones b).drone_id ∧
      ((scheduler_cycle s).drones b).current_task = some (s.task_queue.tasks 0) ∧
      ((scheduler_cycle s).drones b).state = DRONE_IDLE ∧
      (scheduler_cycle s).drones b =
        { s.drones b with current_task := some (s.task_queue.tasks 0), state := DRONE_IDLE } ∧
      (∀ j, j ≠ b → (scheduler_cycle s).drones j = s.drones j) := by
  obtain ⟨b, hfb, hbest⟩ := find_best_spec s hex
  have hpop := (pq_pop_contents s.mem s.task_queue hq).1
  have hr : (if (s.mem (s.task_queue.tasks 0)).priority = 1 then
          preempt_scan s.num_drones 0 s (find_best s s.num_drones 0 none)
        else (s, find_best s s.num_drones 0 none)) = (s, some b) := by
    rw [hfb]
    rcases hnp with h | h
    · rw [if_neg h]
    · rw [preempt_scan_none s (some b) s.num_drones 0 (fun j _ hj => h j (by omega))]
      simp
  have hcycle : scheduler_cycle s = assign s (some b) := by
    rw [scheduler_cycle_nonempty s hq, hr]
  rw [hcycle, assign_some s b _ hpop]
  refine ⟨b, hbest, hpop, rfl, ?_, ?_, ?_, ?_, ?_, ?_⟩
  · simp only [Function.update_same]
  · simp only [Function.update_same]
  · simp only [Function.update_same]
  · simp only [Function.update_same]
  · simp only [Function.update_same]
  · intro j hj
    simp only [Function.update_noteq hj]

theorem scheduler_cycle_urgent (s : Simulation)
    (hq : 0 < s.task_queue.size)
    (hhead : (s.mem (s.task_queue.tasks 0)).priority = 1)
    (hex : ∃ j, j < s.num_drones ∧ preemptable s j) :
    ∃ i t, i < s.num_drones ∧ preemptable s i ∧ (∀ j, j < i → ¬ preemptable s j) ∧
      (s.drones i).current_task = some t ∧ t ≠ s.task_queue.tasks 0 ∧
      (pq_pop (preempt s i t).mem (preempt s i t).task_queue).1 = some (s.task_queue.tasks 0) ∧
      scheduler_cycle s = assign (preempt s i t) (some i) := by
  obtain ⟨i, hin, hpi, hfirst⟩ := exists_first (preemptable s) s.num_drones hex
  obtain ⟨hact, ⟨t, ht, hprio⟩, hbat⟩ := hpi
  have hpi : preemptable s i := ⟨hact, ⟨t, ht, hprio⟩, hbat⟩
  have hne : t ≠ s.task_queue.tasks 0 := by
    intro e
    rw [e, hhead] at hprio
    exact absurd hprio (by decide)
  refine ⟨i, t, hin, hpi, hfirst, ht, hne, ?_, ?_⟩
  · have hmem : ∀ p, ((Function.update s.mem t
        { s.mem t with state := TASK_PREEMPTED }) p).priority = (s.mem p).priority := by
      intro p
      by_cases hp : p = t
      · rw [hp, Function.update_same]
      · rw [Function.update_noteq hp]
    have hroot := pq_push_root (Function.update s.mem t { s.mem t with state := TASK_PREEMPTED })
      s.task_queue t hq (by rw [hmem, hmem, hhead]; omega)
    have := (pq_pop_contents (preempt s i t).mem (preempt s i t).task_queue hroot.2).1
    rw [this]
    exact congrArg some hroot.1
  · rw [scheduler_cycle_nonempty s hq, if_pos hhead,
      preempt_scan_first s _ i t ht hpi s.num_drones 0 (Nat.zero_le _) (by omega)
        (fun j _ hj => hfirst j hj)]

/-- C7: when the queue head has priority 1 and some drone below `num_drones` is
active with battery above 20 and holds a task of priority above 1, one
scheduler cycle preempts exactly one drone, the lowest-indexed such drone `i`
with its task `t`: the cycle is the preemption of `i` followed by the
assignment to `i`.  By the preemption `t` gets state `TASK_PREEMPTED`, the
`preempted_count` of `i` and `stats.total_preemptions` go up by exactly 1, every
other drone record (so its `current_task` and `preempted_count`) and every task
other than `t` is left as it was; and at the end of the cycle `t` is still
`TASK_PREEMPTED`, both counters are up by exactly 1, every other drone record is
unchanged, and the only other task written is the head that was assigned. -/
theorem scheduler_preempts_first (s : Simulation)
    (hq : 0 < s.task_queue.size)
    (hhead : (s.mem (s.task_queue.tasks 0)).priority = 1)
    (hex : ∃ j, j < s.num_drones ∧ preemptable s j) :
    ∃ i t, i < s.num_drones ∧ preemptable s i ∧ (∀ j, j < i → ¬ preemptable s j) ∧
      (s.drones i).current_task = some t ∧
      scheduler_cycle s = assign (preempt s i t) (some i) ∧
      ((preempt s i t).mem t).state = TASK_PREEMPTED ∧
      ((preempt s i t).drones i).preempted_count = (s.drones i).preempted_count + 1 ∧
      (preempt s i t).stats.total_preemptions = s.stats.total_preemptions + 1 ∧
      (∀ j, j ≠ i → (preempt s i t).drones j = s.drones j) ∧
      (∀ p, p ≠ t → (preempt s i t).mem p = s.mem p) ∧
      ((scheduler_cycle s).mem t).state = TASK_PREEMPTED ∧
      ((scheduler_cycle s).drones i).preempted_count = (s.drones i).preempted_count + 1 ∧
      (scheduler_cycle s).stats.total_preemptions = s.stats.total_preemptions + 1 ∧
      (∀ j, j ≠ i → (scheduler_cycle s).drones j = s.drones j) ∧
      (∀ p, p ≠ t → p ≠ s.task_queue.tasks 0 → (scheduler_cycle s).mem p = s.mem p) := by
  obtain ⟨i, t, hin, hpi, hfirst, ht, hne, hpop, hcycle⟩ := scheduler_cycle_urgent s hq hhead hex
  refine ⟨i, t, hin, hpi, hfirst, ht, hcycle, ?_, ?_, rfl, ?_, ?_, ?_, ?_, ?_, ?_, ?_⟩
  · simp only [preempt, Function.update_same]
  · simp only [preempt, Function.update_same]
  · intro j hj
    simp only [preempt, Function.update_noteq hj]
  · intro p hp
    simp only [preempt, Function.update_noteq hp]
  · rw [hcycle, assign_some _ i _ hpop]
    simp only [Function.update_noteq hne]
    simp only [preempt, Function.update_same]
  · rw [hcycle, assign_some _ i _ hpop]
    simp only [preempt, Function.update_same]
  · rw [hcycle, assign_some _ i _ hpop]
    rfl
  · intro j hj
    rw [hcycle, assign_some _ i _ hpop]
    simp only [preempt, Function.update_noteq hj]
  · intro p hp hp0
    rw [hcycle, assign_some _ i _ hpop]
    simp only [preempt, Function.update_noteq hp0, Function.update_noteq hp]

/-- C8: when the queue head has priority 1 and some drone below `num_drones` is
active with battery above 20 and holds a task of priority above 1 (whether or
not the queue is heap-valid), after one scheduler cycle the task that was at
the queue head before the cycle, which is not the task `t` taken from the
preempted drone `i`, is the `current_task` of `i`, with state `TASK_ASSIGNED`
and `assigned_drone` the id of `i`, and `i` is `DRONE_IDLE`; every other drone,
in particular every idle eligible one, is left unchanged. -/
theorem scheduler_gives_urgent_to_preempted (s : Simulation)
    (hq : 0 < s.task_queue.size)
    (hhead : (s.mem (s.task_queue.tasks 0)).priority = 1)
    (hex : ∃ j, j < s.num_drones ∧ preemptable s j) :
    ∃ i t, i < s.num_drones ∧ preemptable s i ∧ (∀ j, j < i → ¬ preemptable s j) ∧
      (s.drones i).current_task = some t ∧ t ≠ s.task_queue.tasks 0 ∧
      ((scheduler_cycle s).drones i).current_task = some (s.task_queue.tasks 0) ∧
      ((scheduler_cycle s).mem (s.task_queue.tasks 0)).state = TASK_ASSIGNED ∧
      ((scheduler_cycle s).mem (s.task_queue.tasks 0)).assigned_drone = (s.drones i).drone_id ∧
      ((scheduler_cycle s).drones i).drone_id = (s.drones i).drone_id ∧
      ((scheduler_cycle s).drones i).state = DRONE_IDLE ∧
      (∀ j, j ≠ i → (scheduler_cycle s).drones j = s.drones j) ∧
      (∀ j, eligible s j → (scheduler_cycle s).drones j = s.drones j) := by
  obtain ⟨i, t, hin, hpi, hfirst, ht, hne, hpop, hcycle⟩ := scheduler_cycle_urgent s hq hhead hex
  have hothers : ∀ j, j ≠ i → (scheduler_cycle s).drones j = s.drones j := by
    intro j hj
    rw [hcycle, assign_some _ i _ hpop]
    simp only [preempt, Function.update_noteq hj]
  refine ⟨i, t, hin, hpi, hfirst, ht, hne, ?_, ?_, ?_, ?_, ?_, hothers, ?_⟩
  · rw [hcycle, assign_some _ i _ hpop]
    simp only [Function.update_same]
  · rw [hcycle, assign_some _ i _ hpop]
    simp only [Function.update_same]
  · rw [hcycle, assign_some _ i _ hpop]
    simp only [preempt, Function.update_same]
  · rw [hcycle, assign_some _ i _ hpop]
    simp only [preempt, Function.update_same]
  · rw [hcycle, assign_some _ i _ hpop]
    simp only [Function.update_same]
  · intro j hj
    apply hothers
    intro e
    have hnone := hj.2.2.2
    rw [e, ht] at hnone
    cases hnone

/-! ## The delivery of the worker -/

theorem deliver_loop_full :
    ∀ (k : Nat) (d : Drone) (ticks : Nat), d.state = DRONE_DELIVERING →
      d.battery_level - 5 * (k : Int) > 20 →
      deliver_loop k d ticks =
        ({ d with battery_level := d.battery_level - 5 * (k : Int) }, ticks + k) := by
  intro k
  induction k with
  | zero =>
    intro d ticks _ _
    cases d
    simp [deliver_loop]
  | succ k ih =>
    intro d ticks hs hb
    obtain ⟨id, st, b, sp, ct, ac, tc, pc⟩ := d
    simp only at hs hb
    subst hs
    push_cast at hb
    have hnot : ¬ b - 5 ≤ (20 : Int) := by omega
    unfold deliver_loop
    simp only [deliver_tick, BATTERY_DRAIN_RATE, BATTERY_LOW_THRESHOLD, if_true, hnot, if_false]
    rw [ih _ (ticks + 1) rfl (by simp only; omega)]
    simp only [Prod.mk.injEq, Drone.mk.injEq, true_and, and_true]
    constructor
    · push_cast; ring
    · omega

theorem delivery_time_eq_max (e sp : Int) : delivery_time e sp = max 1 (Int.tdiv e sp) := by
  unfold delivery_time
  simp only []
  split_ifs with h
  · rw [max_eq_left (by omega)]
  · rw [max_eq_right (by omega)]

theorem load_phase_spec (s : Simulation) (i : Nat) (t : TaskPtr)
    (hstate : (s.drones i).state = DRONE_IDLE ∨ (s.drones i).state = DRONE_LOADING)
    (hbay : 0 < s.loading_bays) :
    ∃ s1, load_phase s i t = some s1 ∧
      s1.drones i = { s.drones i with state := DRONE_DELIVERING } ∧
      (∀ j, j ≠ i → s1.drones j = s.drones j) ∧
      s1.mem = Function.update s.mem t { s.mem t with state := TASK_IN_PROGRESS } ∧
      s1.stats = { s.stats with loading_bay_uses := s.stats.loading_bay_uses + 1 } ∧
      s1.task_queue = s.task_queue ∧ s1.loading_bays = s.loading_bays ∧
      s1.charging_stations = s.charging_stations ∧ s1.num_drones = s.num_drones := by
  unfold load_phase
  rw [if_pos hstate, if_neg (by omega)]
  refine ⟨_, rfl, ?_, ?_, rfl, rfl, rfl, ?_, rfl, rfl⟩
  · simp only [Function.update_same]
  · intro j hj
    simp only [Function.update_noteq hj]
  · simp only
    omega

theorem deliver_phase_spec (s : Simulation) (i : Nat) (t : TaskPtr) (D : Int)
    (hstate : (s.drones i).state = DRONE_DELIVERING)
    (hspeed : (s.drones i).speed ≠ 0)
    (hD : delivery_time (s.mem t).estimated_time (s.drones i).speed = D)
    (hbat : (s.drones i).battery_level - 5 * D > 20) :
    ∃ s2, deliver_phase s i t = some s2 ∧
      s2.drones i =
        { s.drones i with battery_level := (s.drones i).battery_level - 5 * D,
                          tasks_completed := (s.drones i).tasks_completed + 1,
                          current_task := none, state := DRONE_IDLE } ∧
      (∀ j, j ≠ i → s2.drones j = s.drones j) ∧
      s2.mem = Function.update s.mem t { s.mem t with state := TASK_COMPLETED } ∧
      s2.stats = { s.stats with completed_tasks := s.stats.completed_tasks + 1 } ∧
      s2.task_queue = s.task_queue ∧ s2.loading_bays = s.loading_bays ∧
      s2.charging_stations = s.charging_stations ∧ s2.num_drones = s.num_drones ∧
      deliver_loop D.toNat (s.drones i) 0 =
        ({ s.drones i with battery_level := (s.drones i).battery_level - 5 * D }, D.toNat) := by
  have hD1 : 1 ≤ D := by
    rw [← hD, delivery_time_eq_max]; exact le_max_left _ _
  have hcast : ((D.toNat : Nat) : Int) = D := Int.toNat_of_nonneg (by omega)
  have hloop := deliver_loop_full D.toNat (s.drones i) 0 hstate (by rw [hcast]; exact hbat)
  rw [hcast, Nat.zero_add] at hloop
  have hc : (s.drones i).state = DRONE_DELIVERING ∧
      (s.drones i).battery_level > BATTERY_LOW_THRESHOLD := by
    refine ⟨hstate, ?_⟩
    show (s.drones i).battery_level > 20
    omega
  unfold deliver_phase
  rw [if_pos hc, if_neg hspeed]
  simp only [hD, hloop, hstate, if_true]
  refine ⟨_, rfl, ?_, ?_, rfl, rfl, rfl, rfl, rfl, rfl, trivial⟩
  · simp only [Function.update_same]
  · intro j hj
    simp only [Function.update_noteq hj]

/-- C10 (amended): for a drone in state idle or loading that holds task `t`,
with speed at least 1 and `d = max(1, e / s)` by truncating division, if
`b - 5 * d > 20` and a loading bay is free (the semaphore `loading_bays` is above
0), one worker cycle comes to an end, its delivery loop runs for exactly `d`
ticks, and it ends with battery `b - 5 * d`, the task `TASK_COMPLETED`,
`tasks_completed`, `stats.completed_tasks` and `stats.loading_bay_uses` each up
by 1, `current_task` cleared and the drone `DRONE_IDLE`. -/
theorem worker_cycle_delivers (s : Simulation) (i : Nat) (t : TaskPtr)
    (hstate : (s.drones i).state = DRONE_IDLE ∨ (s.drones i).state = DRONE_LOADING)
    (htask : (s.drones i).current_task = some t)
    (hspeed : 1 ≤ (s.drones i).speed)
    (hbat : (s.drones i).battery_level -
      5 * max 1 (Int.tdiv (s.mem t).estimated_time (s.drones i).speed) > 20)
    (hbay : 0 < s.loading_bays) :
    ∃ s' ticks, worker_cycle s i = some s' ∧
      (deliver_loop (delivery_time (s.mem t).estimated_time (s.drones i).speed).toNat
        { s.drones i with state := DRONE_DELIVERING } 0).2 = ticks ∧
      (ticks : Int) = max 1 (Int.tdiv (s.mem t).estimated_time (s.drones i).speed) ∧
      (s'.drones i).battery_level = (s.drones i).battery_level -
        5 * max 1 (Int.tdiv (s.mem t).estimated_time (s.drones i).speed) ∧
      (s'.mem t).state = TASK_COMPLETED ∧
      (s'.drones i).tasks_completed = (s.drones i).tasks_completed + 1 ∧
      s'.stats.completed_tasks = s.stats.completed_tasks + 1 ∧
      s'.stats.loading_bay_uses = s.stats.loading_bay_uses + 1 ∧
      (s'.drones i).current_task = none ∧
      (s'.drones i).state = DRONE_IDLE := by
  obtain ⟨s1, hload, hd1, -, hm1, hst1, -, -, -, -⟩ := load_phase_spec s i t hstate hbay
  have hD := delivery_time_eq_max (s.mem t).estimated_time (s.drones i).speed
  generalize hDdef : max 1 (Int.tdiv (s.mem t).estimated_time (s.drones i).speed) = D at hbat hD ⊢
  have hD1 : 1 ≤ D := by rw [← hDdef]; exact le_max_left _ _
  have hcast : ((D.toNat : Nat) : Int) = D := Int.toNat_of_nonneg (by omega)
  have hne : (s.drones i).state ≠ DRONE_PREEMPTED := by
    rcases hstate with h | h <;> rw [h] <;> decide
  have het : (s1.mem t).estimated_time = (s.mem t).estimated_time := by
    rw [hm1, Function.update_same]
  have hsp2 : (s1.drones i).speed = (s.drones i).speed := by rw [hd1]
  have hb2 : (s1.drones i).battery_level = (s.drones i).battery_level := by rw [hd1]
  have htc2 : (s1.drones i).tasks_completed = (s.drones i).tasks_completed := by rw [hd1]
  obtain ⟨s2, hdel, hd2, -, hm2, hst2, -, -, -, -, hloop⟩ :=
    deliver_phase_spec s1 i t D (by rw [hd1]) (by rw [hsp2]; omega) (by rw [het, hsp2]; exact hD)
      (by rw [hb2]; exact hbat)
  refine ⟨s2, D.toNat, ?_, ?_, hcast, ?_, ?_, ?_, ?_, ?_, ?_, ?_⟩
  · unfold worker_cycle task_phase
    rw [htask]
    simp only [hne, ne_eq, not_false_eq_true, if_true, hload, Option.some_bind, hdel]
    unfold low_battery_phase
    rw [if_neg]
    rw [hd2]
    simp only [BATTERY_LOW_THRESHOLD, hb2]
    intro h
    omega
  · rw [hD, ← hd1, hloop]
  · rw [hd2]; simp only [hb2]
  · rw [hm2, Function.update_same]
  · rw [hd2]; simp only [htc2]
  · rw [hst2, hst1]
  · rw [hst2, hst1]
  · rw [hd2]
  · rw [hd2]

/-! ## Claims on the scheduler and the worker: instances -/

theorem option_map_some {α β : Type} (o : Option α) (f : α → β) (v : β)
    (h : o.map f = some v) : ∃ a, o = some a ∧ f a = v := by
  cases o with
  | none => cases h
  | some a => exact ⟨a, rfl, Option.some.inj h⟩

/-- Witness for C6 on `exTwoIdle`: the task goes to the drone at index 1, whose
battery (100) is the higher one. -/
theorem scheduler_assigns_best_witness :
    (0 < exTwoIdle.task_queue.size ∧
      (exTwoIdle.mem (exTwoIdle.task_queue.tasks 0)).priority ≠ 1 ∧
      eligible exTwoIdle 0 ∧ eligible exTwoIdle 1) ∧
    ∃ b, best_candidate exTwoIdle b ∧
      ((scheduler_cycle exTwoIdle).mem (exTwoIdle.task_queue.tasks 0)).state = TASK_ASSIGNED ∧
      ((scheduler_cycle exTwoIdle).drones b).current_task =
        some (exTwoIdle.task_queue.tasks 0) ∧
      ((scheduler_cycle exTwoIdle).drones b).state = DRONE_IDLE ∧
      (∀ j, j ≠ b → (scheduler_cycle exTwoIdle).drones j = exTwoIdle.drones j) := by
  obtain ⟨b, h1, _, _, h4, _, h6, h7, _, h9⟩ :=
    scheduler_assigns_best exTwoIdle (by decide) (Or.inl (by decide)) ⟨1, by decide, by decide⟩
  exact ⟨⟨by decide, by decide, by decide, by decide⟩, b, h1, h4, h6, h7, h9⟩

/-- Witness for C7 on `exUrgent`: the drone at index 0 is preempted. -/
theorem scheduler_preempts_first_witness :
    (0 < exUrgent.task_queue.size ∧
      (exUrgent.mem (exUrgent.task_queue.tasks 0)).priority = 1 ∧ preemptable exUrgent 0) ∧
    ∃ i t, (exUrgent.drones i).current_task = some t ∧
      ((scheduler_cycle exUrgent).mem t).state = TASK_PREEMPTED ∧
      ((scheduler_cycle exUrgent).drones i).preempted_count =
        (exUrgent.drones i).preempted_count + 1 ∧
      (scheduler_cycle exUrgent).stats.total_preemptions =
        exUrgent.stats.total_preemptions + 1 ∧
      (∀ j, j ≠ i → (scheduler_cycle exUrgent).drones j = exUrgent.drones j) := by
  have hp : preemptable exUrgent 0 := ⟨by decide, ⟨0, by decide, by decide⟩, by decide⟩
  obtain ⟨i, t, _, _, _, h4, _, _, _, _, _, _, h11, h12, h13, h14, _⟩ :=
    scheduler_preempts_first exUrgent (by decide) (by decide) ⟨0, by decide, hp⟩
  exact ⟨⟨by decide, by decide, hp⟩, i, t, h4, h11, h12, h13, h14⟩

/-- Witness for C8 on `exUrgent`, where the drone at index 1 is idle and
eligible: the urgent task still goes to the preempted drone. -/
theorem scheduler_gives_urgent_to_preempted_witness :
    (0 < exUrgent.task_queue.size ∧
      (exUrgent.mem (exUrgent.task_queue.tasks 0)).priority = 1 ∧ preemptable exUrgent 0 ∧
      eligible exUrgent 1) ∧
    ∃ i, ((scheduler_cycle exUrgent).drones i).current_task =
        some (exUrgent.task_queue.tasks 0) ∧
      ((scheduler_cycle exUrgent).mem (exUrgent.task_queue.tasks 0)).state = TASK_ASSIGNED ∧
      ((scheduler_cycle exUrgent).mem (exUrgent.task_queue.tasks 0)).assigned_drone =
        (exUrgent.drones i).drone_id ∧
      ((scheduler_cycle exUrgent).drones i).state = DRONE_IDLE ∧
      (scheduler_cycle exUrgent).drones 1 = exUrgent.drones 1 := by
  have hp : preemptable exUrgent 0 := ⟨by decide, ⟨0, by decide, by decide⟩, by decide⟩
  obtain ⟨i, t, _, _, _, _, _, h6, h7, h8, _, h10, _, h12⟩ :=
    scheduler_gives_urgent_to_preempted exUrgent (by decide) (by decide) ⟨0, by decide, hp⟩
  exact ⟨⟨by decide, by decide, hp, by decide⟩, i, h6, h7, h8, h10, h12 1 (by decide)⟩

/-- C9: the code at the claim's own example.  A drone with battery 25 and speed 1
is assigned a task of estimated time 10; one loading bay and one charging
station are free.  In its worker cycle the delivery loop stops after the first
tick (battery 20), yet the cycle marks the task `TASK_COMPLETED`, counts it in
`tasks_completed` and `stats.completed_tasks`, and leaves the queue empty: the
task is neither `TASK_PENDING` nor back in the queue. -/
theorem worker_completes_after_battery_break :
    (((exAssigned 25 1).drones 0).battery_level = 25 ∧
      ((exAssigned 25 1).drones 0).speed = 1 ∧
      ((exAssigned 25 1).drones 0).current_task = some 0 ∧
      ((exAssigned 25 1).mem 0).estimated_time = 10 ∧
      ((exAssigned 25 1).drones 0).tasks_completed = 0 ∧
      (exAssigned 25 1).stats.completed_tasks = 0 ∧
      (deliver_loop 10 { (exAssigned 25 1).drones 0 with state := DRONE_DELIVERING } 0).2 = 1) ∧
    ∃ s', worker_cycle (exAssigned 25 1) 0 = some s' ∧
      (s'.mem 0).state = TASK_COMPLETED ∧
      (s'.drones 0).tasks_completed = 1 ∧
      s'.stats.completed_tasks = 1 ∧
      s'.task_queue.size = 0 ∧
      (s'.drones 0).current_task = none := by
  refine ⟨by decide, ?_⟩
  obtain ⟨s', h1, h2⟩ := option_map_some (worker_cycle (exAssigned 25 1) 0)
    (fun s => decide ((s.mem 0).state = TASK_COMPLETED ∧ (s.drones 0).tasks_completed = 1 ∧
      s.stats.completed_tasks = 1 ∧ s.task_queue.size = 0 ∧ (s.drones 0).current_task = none))
    true (by decide)
  exact ⟨s', h1, of_decide_eq_true h2⟩

/-- C10 as stated fails: with no loading bay (`init_simulation` called with 0
bays) a drone with battery 100 and speed 1 holding a task of estimated time 10
meets every condition of the claim, but its worker cycle never gets past
`sem_wait` and so never comes to an end. -/
theorem worker_cycle_blocks_without_bay :
    (((exAssigned 100 0).drones 0).state = DRONE_IDLE ∨
      ((exAssigned 100 0).drones 0).state = DRONE_LOADING) ∧
    ((exAssigned 100 0).drones 0).current_task = some 0 ∧
    1 ≤ ((exAssigned 100 0).drones 0).speed ∧
    ((exAssigned 100 0).drones 0).battery_level -
      5 * max 1 (Int.tdiv ((exAssigned 100 0).mem 0).estimated_time
        ((exAssigned 100 0).drones 0).speed) > 20 ∧
    worker_cycle (exAssigned 100 0) 0 = none :=
  ⟨by decide, by decide, by decide, by decide, Option.isNone_iff_eq_none.mp (by decide)⟩

/-- Witness for C10 (amended): battery 100, speed 1, estimated time 10 and one
free loading bay; the cycle ends with the task completed. -/
theorem worker_cycle_delivers_witness :
    (0 < (exAssigned 100 1).loading_bays ∧
      ((exAssigned 100 1).drones 0).current_task = some 0) ∧
    ∃ s' ticks, worker_cycle (exAssigned 100 1) 0 = some s' ∧
      (ticks : Int) = max 1 (Int.tdiv ((exAssigned 100 1).mem 0).estimated_time
        ((exAssigned 100 1).drones 0).speed) ∧
      (s'.drones 0).battery_level = ((exAssigned 100 1).drones 0).battery_level -
        5 * max 1 (Int.tdiv ((exAssigned 100 1).mem 0).estimated_time
          ((exAssigned 100 1).drones 0).speed) ∧
      (s'.mem 0).state = TASK_COMPLETED := by
  obtain ⟨s', ticks, h1, _, h3, h4, h5, _⟩ :=
    worker_cycle_delivers (exAssigned 100 1) 0 0 (Or.inl (by decide)) (by decide) (by decide)
      (by decide) (by decide)
  exact ⟨⟨by decide, by decide⟩, s', ticks, h1, h3, h4, h5⟩

/-! ## Further claims on single cycles and the set-up -/

theorem find_best_none (s : Simulation) (h : ∀ j, j < s.num_drones → ¬ eligible s j) :
    find_best s s.num_drones 0 none = none := by
  have hinv := find_best_inv s s.num_drones 0 none (by intro j hj; omega)
  rw [Nat.zero_add] at hinv
  cases hfb : find_best s s.num_drones 0 none with
  | none => rfl
  | some b =>
    rw [hfb] at hinv
    exact absurd hinv.2.1 (h b hinv.1)

/-- C14: when the queue is empty, or when no drone below `num_drones` is
eligible and no preemption applies (the head's priority is not 1, or no drone
below `num_drones` is active with battery above 20 and holds a task of priority
above 1), one scheduler cycle returns the state as it was: queue, tasks,
drones and statistics are all unchanged. -/
theorem scheduler_cycle_idle (s : Simulation)
    (h : s.task_queue.size = 0 ∨
      ((∀ j, j < s.num_drones → ¬ eligible s j) ∧
        ((s.mem (s.task_queue.tasks 0)).priority ≠ 1 ∨
          ∀ j, j < s.num_drones → ¬ preemptable s j))) :
    scheduler_cycle s = s := by
  by_cases hq : s.task_queue.size = 0
  · unfold scheduler_cycle pq_is_empty
    simp [hq]
  · rcases h with h | ⟨hel, hnp⟩
    · exact absurd h hq
    · rw [scheduler_cycle_nonempty s (by omega), find_best_none s hel]
      rcases hnp with h1 | h2
      · rw [if_neg h1]; rfl
      · rw [preempt_scan_none s none s.num_drones 0 (fun j _ hj => h2 j (by omega))]
        simp only [ite_self]
        rfl

/-- C15: `MAX_DRONES` is 50; with `num_drones < MAX_DRONES`, `add_drone` writes
at index `num_drones` a drone with `drone_id = num_drones + 1`, state idle, the
given speed and battery, no task, `active` set and both counters 0, raises
`num_drones` by 1 and leaves every existing drone unchanged; with
`num_drones = MAX_DRONES` it returns the state as it was. -/
theorem add_drone_spec (s : Simulation) (speed battery : Int) :
    MAX_DRONES = 50 ∧
    (s.num_drones < MAX_DRONES →
      (add_drone s speed battery).drones s.num_drones =
        { drone_id := (s.num_drones : Int) + 1, state := DRONE_IDLE, battery_level := battery,
          speed := speed, current_task := none, active := true, tasks_completed := 0,
          preempted_count := 0 } ∧
      (add_drone s speed battery).num_drones = s.num_drones + 1 ∧
      (∀ j, j < s.num_drones → (add_drone s speed battery).drones j = s.drones j)) ∧
    (s.num_drones = MAX_DRONES →
      add_drone s speed battery = s ∧
      (add_drone s speed battery).drones = s.drones ∧
      (add_drone s speed battery).num_drones = s.num_drones) := by
  refine ⟨rfl, fun h => ?_, fun h => ?_⟩
  · unfold add_drone
    rw [if_neg (by omega)]
    refine ⟨?_, rfl, ?_⟩
    · simp only [Function.update_same]
    · intro j hj
      simp only [Function.update_noteq (Nat.ne_of_lt hj)]
  · have e : add_drone s speed battery = s := by
      unfold add_drone
      rw [if_pos (by omega)]
    rw [e]
    exact ⟨rfl, rfl, rfl⟩

/-- C17: in the end-to-end scenario the first scheduler cycle assigns task B
(address 1, priority 1) to the drone with id 1, and task A (address 0,
priority 3) is still pending and alone in the queue after that cycle. -/
theorem scenario_urgent_first :
    (exScenario.mem 0).priority = 3 ∧ (exScenario.mem 0).estimated_time = 10 ∧
    (exScenario.mem 1).priority = 1 ∧ (exScenario.mem 1).estimated_time = 4 ∧
    ((scheduler_cycle exScenario).mem 1).state = TASK_ASSIGNED ∧
    ((scheduler_cycle exScenario).mem 1).assigned_drone = 1 ∧
    ((scheduler_cycle exScenario).drones 0).current_task = some 1 ∧
    ((scheduler_cycle exScenario).drones 1).current_task = none ∧
    ((scheduler_cycle exScenario).mem 0).state = TASK_PENDING ∧
    (scheduler_cycle exScenario).task_queue.size = 1 ∧
    (scheduler_cycle exScenario).task_queue.tasks 0 = 0 := by
  decide

theorem demote_drone (s : Simulation) (i : Nat) :
    ((demote s i).drones i).battery_level = (s.drones i).battery_level ∧
    ((demote s i).drones i).state = (s.drones i).state ∧
    (demote s i).stats = s.stats ∧
    (demote s i).charging_stations = s.charging_stations := by
  unfold demote
  cases h : (s.drones i).current_task with
  | none => exact ⟨rfl, rfl, rfl, rfl⟩
  | some t =>
    simp only []
    split_ifs
    · simp only [Function.update_same, and_self]
    · exact ⟨rfl, rfl, rfl, rfl⟩

/-- The state the low-battery branch leaves when a station is free. -/
theorem low_battery_phase_some (s : Simulation) (i : Nat)
    (hlow : (s.drones i).battery_level ≤ BATTERY_LOW_THRESHOLD ∧
      (s.drones i).state ≠ DRONE_CHARGING)
    (hst : 0 < s.charging_stations) :
    low_battery_phase s i = some
      { demote s i with
        charging_stations := (demote s i).charging_stations - 1 + 1,
        stats := { (demote s i).stats with
          charging_station_uses := (demote s i).stats.charging_station_uses + 1 },
        drones := Function.update (Function.update (demote s i).drones i
            { (demote s i).drones i with state := DRONE_CHARGING }) i
          { (demote s i).drones i with battery_level := 100, state := DRONE_IDLE } } := by
  obtain ⟨hb, hs, hstats, hcs⟩ := demote_drone s i
  have hb20 : (s.drones i).battery_level ≤ 20 := hlow.1
  unfold low_battery_phase
  rw [if_pos hlow]
  simp only []
  rw [if_neg (by rw [hcs]; omega)]
  simp only [Function.update_same]
  rw [charge_loop_fuel_spec _ _ (by omega), max_eq_right (by rw [hb]; omega)]

/-- C11 (amended): for a drone with battery at most 20 and state other than
charging, if a charging station is free (the semaphore `charging_stations` is
above 0) the low-battery branch comes to an end and leaves the drone with
battery exactly 100 and state idle, `stats.charging_station_uses` up by exactly
1 and the station given back; and every tick of the charging loop, which runs
only below 100, strictly increases the battery, to `min (b + 10) 100`, which
is never above 100. -/
theorem low_battery_phase_charges (s : Simulation) (i : Nat)
    (hb : (s.drones i).battery_level ≤ 20)
    (hs : (s.drones i).state ≠ DRONE_CHARGING)
    (hst : 0 < s.charging_stations) :
    (∃ s', low_battery_phase s i = some s' ∧
      (s'.drones i).battery_level = 100 ∧
      (s'.drones i).state = DRONE_IDLE ∧
      s'.stats.charging_station_uses = s.stats.charging_station_uses + 1 ∧
      s'.charging_stations = s.charging_stations) ∧
    (∀ b : Int, b < 100 →
      b < charge_tick b ∧ charge_tick b = min (b + 10) 100 ∧ charge_tick b ≤ 100) := by
  obtain ⟨_, _, hstats, hcs⟩ := demote_drone s i
  refine ⟨⟨_, low_battery_phase_some s i ⟨hb, hs⟩ hst, ?_, ?_, ?_, ?_⟩, ?_⟩
  · simp only [Function.update_same]
  · simp only [Function.update_same]
  · simp only [hstats]
  · simp only [hcs]; omega
  · intro b hb100
    refine ⟨(charge_tick_bounds b hb100).1, ?_, (charge_tick_bounds b hb100).2⟩
    unfold charge_tick BATTERY_CHARGE_RATE
    simp only []
    split_ifs with h
    · rw [min_eq_right (by omega)]
    · rw [min_eq_left (by omega)]

/-- C11 as stated fails: with no charging station (`init_simulation` called with
0 stations) a drone registered with battery 20 meets the conditions of the
claim, but the low-battery branch never gets past `sem_wait`. -/
theorem low_battery_phase_blocks_without_station :
    ((exLowBattery 0).drones 0).battery_level ≤ 20 ∧
    ((exLowBattery 0).drones 0).state ≠ DRONE_CHARGING ∧
    low_battery_phase (exLowBattery 0) 0 = none ∧
    worker_cycle (exLowBattery 0) 0 = none :=
  ⟨by decide, by decide, Option.isNone_iff_eq_none.mp (by decide),
    Option.isNone_iff_eq_none.mp (by decide)⟩

/-- Witness for C11 (amended): a drone registered with battery 20 and one free
charging station. -/
theorem low_battery_phase_charges_witness :
    (((exLowBattery 1).drones 0).battery_level ≤ 20 ∧ 0 < (exLowBattery 1).charging_stations) ∧
    ∃ s', low_battery_phase (exLowBattery 1) 0 = some s' ∧
      (s'.drones 0).battery_level = 100 ∧ (s'.drones 0).state = DRONE_IDLE ∧
      s'.stats.charging_station_uses = (exLowBattery 1).stats.charging_station_uses + 1 := by
  obtain ⟨⟨s', h1, h2, h3, h4, _⟩, _⟩ :=
    low_battery_phase_charges (exLowBattery 1) 0 (by decide) (by decide) (by decide)
  exact ⟨⟨by decide, by decide⟩, s', h1, h2, h3, h4⟩

/-- C20 (amended): for a drone in state `DRONE_PREEMPTED`, a worker cycle with
battery above 20 returns the state as it was; with battery at most 20 and a
free charging station it does no task-related work (queue, tasks, the drone's
`current_task`, `loading_bay_uses` and `completed_tasks` are unchanged) but it
does charge: battery 100, state idle, `charging_station_uses` up by 1. -/
theorem worker_cycle_preempted (s : Simulation) (i : Nat)
    (hp : (s.drones i).state = DRONE_PREEMPTED) :
    ((s.drones i).battery_level > 20 → worker_cycle s i = some s) ∧
    ((s.drones i).battery_level ≤ 20 → 0 < s.charging_stations →
      ∃ s', worker_cycle s i = some s' ∧
        s'.task_queue = s.task_queue ∧ s'.mem = s.mem ∧
        (s'.drones i).current_task = (s.drones i).current_task ∧
        s'.stats.loading_bay_uses = s.stats.loading_bay_uses ∧
        s'.stats.completed_tasks = s.stats.completed_tasks ∧
        (s'.drones i).battery_level = 100 ∧
        (s'.drones i).state = DRONE_IDLE ∧
        s'.stats.charging_station_uses = s.stats.charging_station_uses + 1) := by
  have htask : task_phase s i = some s := by
    unfold task_phase
    cases (s.drones i).current_task with
    | none => rfl
    | some t => simp [hp]
  have hdem : demote s i = s := by
    unfold demote
    cases (s.drones i).current_task with
    | none => rfl
    | some t => simp [hp]
  constructor
  · intro hb
    unfold worker_cycle
    rw [htask, Option.some_bind]
    unfold low_battery_phase
    rw [if_neg]
    intro h
    have := h.1
    unfold BATTERY_LOW_THRESHOLD at this
    omega
  · intro hb hst
    have hne : (s.drones i).state ≠ DRONE_CHARGING := by rw [hp]; decide
    have hw : worker_cycle s i = low_battery_phase s i := by
      unfold worker_cycle
      rw [htask, Option.some_bind]
    rw [hw, low_battery_phase_some s i ⟨hb, hne⟩ hst, hdem]
    refine ⟨_, rfl, ?_⟩
    simp only [Function.update_same, and_self]

/-- C20 as stated fails: a preempted drone with battery 15 is charged by its
worker cycle, which changes its battery to 100, its state to idle and
`stats.charging_station_uses` to 1. -/
theorem worker_cycle_preempted_charges :
    ((exPreempted 15).drones 0).state = DRONE_PREEMPTED ∧
    ((exPreempted 15).drones 0).battery_level = 15 ∧
    (exPreempted 15).stats.charging_station_uses = 0 ∧
    ∃ s', worker_cycle (exPreempted 15) 0 = some s' ∧
      (s'.drones 0).battery_level = 100 ∧
      (s'.drones 0).state = DRONE_IDLE ∧
      s'.stats.charging_station_uses = 1 := by
  refine ⟨by decide, by decide, by decide, ?_⟩
  obtain ⟨s', h1, h2⟩ := option_map_some (worker_cycle (exPreempted 15) 0)
    (fun s => decide ((s.drones 0).battery_level = 100 ∧ (s.drones 0).state = DRONE_IDLE ∧
      s.stats.charging_station_uses = 1)) true (by decide)
  exact ⟨s', h1, of_decide_eq_true h2⟩

/-- Witness for C14 on a state with an empty queue. -/
theorem scheduler_cycle_idle_witness :
    (exLowBattery 1).task_queue.size = 0 ∧
    scheduler_cycle (exLowBattery 1) = exLowBattery 1 :=
  ⟨by decide, scheduler_cycle_idle (exLowBattery 1) (Or.inl (by decide))⟩

/-- Witness for C15: a second drone added to a roster of one. -/
theorem add_drone_spec_witness :
    (exLowBattery 1).num_drones < MAX_DRONES ∧
    ((add_drone (exLowBattery 1) 2 90).drones 1).drone_id = 2 ∧
    (add_drone (exLowBattery 1) 2 90).num_drones = 2 ∧
    (add_drone (exLowBattery 1) 2 90).drones 0 = (exLowBattery 1).drones 0 := by
  obtain ⟨h1, h2, h3⟩ := (add_drone_spec (exLowBattery 1) 2 90).2.1 (by decide)
  exact ⟨by decide, by rw [show (1 : Nat) = (exLowBattery 1).num_drones by decide, h1]; decide,
    h2, h3 0 (by decide)⟩

/-- Witness for C20 (amended): a preempted drone with battery 50. -/
theorem worker_cycle_preempted_witness :
    ((exPreempted 50).drones 0).state = DRONE_PREEMPTED ∧
    ((exPreempted 50).drones 0).battery_level > 20 ∧
    worker_cycle (exPreempted 50) 0 = some (exPreempted 50) :=
  ⟨by decide, by decide, (worker_cycle_preempted (exPreempted 50) 0 (by decide)).1 (by decide)⟩

/-! ## Counting completed tasks -/

theorem completed_count_congr (mem mem' : TaskMem) (base top : Nat)
    (h : ∀ p : Nat, base ≤ p → p < top →
      ((mem' p).state = TASK_COMPLETED ↔ (mem p).state = TASK_COMPLETED)) :
    completed_count mem' base top = completed_count mem base top := by
  unfold completed_count
  congr 1
  apply Finset.filter_congr
  intro p hp
  rw [Finset.mem_Ico] at hp
  exact h p hp.1 hp.2

theorem completed_count_complete (mem mem' : TaskMem) (base top t : Nat)
    (hb : base ≤ t) (ht : t < top)
    (h0 : (mem t).state ≠ TASK_COMPLETED) (h1 : (mem' t).state = TASK_COMPLETED)
    (h : ∀ p : Nat, p ≠ t → ((mem' p).state = TASK_COMPLETED ↔ (mem p).state = TASK_COMPLETED)) :
    completed_count mem' base top = completed_count mem base top + 1 := by
  unfold completed_count
  have e : (Finset.Ico base top).filter (fun p : Nat => (mem' p).state = TASK_COMPLETED) =
      insert t ((Finset.Ico base top).filter (fun p : Nat => (mem p).state = TASK_COMPLETED)) := by
    ext p
    simp only [Finset.mem_filter, Finset.mem_Ico, Finset.mem_insert]
    constructor
    · rintro ⟨hp, hs⟩
      by_cases hpt : p = t
      · exact Or.inl hpt
      · exact Or.inr ⟨hp, (h p hpt).mp hs⟩
    · rintro (hpt | ⟨hp, hs⟩)
      · rw [hpt]; exact ⟨⟨hb, ht⟩, h1⟩
      · have hpt : p ≠ t := by
          intro e; rw [e] at hs; exact h0 hs
        exact ⟨hp, (h p hpt).mpr hs⟩
  rw [e, Finset.card_insert_of_not_mem]
  simp only [Finset.mem_filter, not_and]
  intro _
  exact h0

theorem completed_count_extend (mem : TaskMem) (base top : Nat)
    (h : (mem top).state ≠ TASK_COMPLETED) :
    completed_count mem base (top + 1) = completed_count mem base top := by
  unfold completed_count
  have e : (Finset.Ico base (top + 1)).filter (fun p : Nat => (mem p).state = TASK_COMPLETED) =
      (Finset.Ico base top).filter (fun p : Nat => (mem p).state = TASK_COMPLETED) := by
    ext p
    simp only [Finset.mem_filter, Finset.mem_Ico]
    constructor
    · rintro ⟨⟨h1, h2⟩, hs⟩
      have hne : p ≠ top := by intro e; rw [e] at hs; exact h hs
      exact ⟨⟨h1, by omega⟩, hs⟩
    · rintro ⟨⟨h1, h2⟩, hs⟩
      exact ⟨⟨h1, by omega⟩, hs⟩
  rw [e]

theorem completed_count_le (mem : TaskMem) (base top : Nat) :
    completed_count mem base top ≤ top - base := by
  unfold completed_count
  calc ((Finset.Ico base top).filter (fun p : Nat => (mem p).state = TASK_COMPLETED)).card
      ≤ (Finset.Ico base top).card := Finset.card_filter_le _ _
    _ = top - base := Nat.card_Ico base top

/-! ## How the invariants move with the ownership of tasks -/

/-- A change that moves no task: same queue contents, same holders. -/
theorem inv_frame (base : Nat) (s s' : Simulation) (h : Inv base s)
    (hq : pq_contents s'.task_queue = pq_contents s.task_queue)
    (hn : s'.num_drones = s.num_drones) (hf : s'.next_free = s.next_free)
    (hct : ∀ j, (s'.drones j).current_task = (s.drones j).current_task)
    (hc : s'.stats.completed_tasks = s.stats.completed_tasks)
    (ht : s'.stats.total_tasks = s.stats.total_tasks)
    (hm : ∀ p : Nat, ((s'.mem p).state = TASK_COMPLETED ↔ (s.mem p).state = TASK_COMPLETED)) :
    Inv base s' ∧ (Conserved base s → Conserved base s') := by
  have hm' : ∀ p : Nat, (s.mem p).state ≠ TASK_COMPLETED → (s'.mem p).state ≠ TASK_COMPLETED :=
    fun p hp hp' => hp ((hm p).mp hp')
  constructor
  · constructor
    · rw [hf]; exact h.base_le
    · rw [hq]; exact h.nodup
    · intro p hp
      rw [hq] at hp
      obtain ⟨h1, h2, h3⟩ := h.queue_ok p hp
      exact ⟨h1, by rw [hf]; exact h2, hm' p h3⟩
    · intro i p hi hp
      rw [hn] at hi
      rw [hct] at hp
      obtain ⟨h1, h2, h3, h4⟩ := h.held_ok i p hi hp
      exact ⟨h1, by rw [hf]; exact h2, hm' p h3, by rw [hq]; exact h4⟩
    · intro i j p hi hj hpi hpj
      rw [hn] at hi hj
      rw [hct] at hpi hpj
      exact h.held_inj i j p hi hj hpi hpj
    · rw [hc, hf, h.completed_eq, completed_count_congr _ _ _ _ (fun p _ _ => hm p)]
    · rw [ht, hf]; exact h.total_eq
  · intro hcons p hb hp hst
    rw [hf] at hp
    rcases hcons p hb hp (fun e => hst ((hm p).mpr e)) with hin | ⟨i, hi, hpi⟩
    · exact Or.inl (by rw [hq]; exact hin)
    · exact Or.inr ⟨i, by rw [hn]; exact hi, by rw [hct]; exact hpi⟩

/-- Drone `i` lets go of its task `t`, which is pushed onto the queue or dropped. -/
theorem inv_release (base : Nat) (s s' : Simulation) (i : Nat) (t : TaskPtr) (h : Inv base s)
    (hi : i < s.num_drones) (hti : (s.drones i).current_task = some t)
    (hq : pq_contents s'.task_queue = t ::ₘ pq_contents s.task_queue ∨
      pq_contents s'.task_queue = pq_contents s.task_queue)
    (hn : s'.num_drones = s.num_drones) (hf : s'.next_free = s.next_free)
    (hct : ∀ j, (s'.drones j).current_task =
      if j = i then none else (s.drones j).current_task)
    (hc : s'.stats.completed_tasks = s.stats.completed_tasks)
    (ht : s'.stats.total_tasks = s.stats.total_tasks)
    (hm : ∀ p : Nat, ((s'.mem p).state = TASK_COMPLETED ↔ (s.mem p).state = TASK_COMPLETED)) :
    Inv base s' ∧
      (pq_contents s'.task_queue = t ::ₘ pq_contents s.task_queue →
        Conserved base s → Conserved base s') := by
  have hm' : ∀ p : Nat, (s.mem p).state ≠ TASK_COMPLETED → (s'.mem p).state ≠ TASK_COMPLETED :=
    fun p hp hp' => hp ((hm p).mp hp')
  obtain ⟨ht1, ht2, ht3, ht4⟩ := h.held_ok i t hi hti
  have hsub : ∀ p : Nat, p ∈ pq_contents s'.task_queue →
      p = t ∨ p ∈ pq_contents s.task_queue := by
    intro p hp
    rcases hq with e | e
    · rw [e] at hp; exact Multiset.mem_cons.mp hp
    · rw [e] at hp; exact Or.inr hp
  have hheld : ∀ j (p : Nat), (s'.drones j).current_task = some p →
      j ≠ i ∧ (s.drones j).current_task = some p := by
    intro j p hp
    rw [hct] at hp
    by_cases hji : j = i
    · rw [if_pos hji] at hp; cases hp
    · rw [if_neg hji] at hp; exact ⟨hji, hp⟩
  constructor
  · constructor
    · rw [hf]; exact h.base_le
    · rcases hq with e | e
      · rw [e]; exact Multiset.nodup_cons.mpr ⟨ht4, h.nodup⟩
      · rw [e]; exact h.nodup
    · intro p hp
      rcases hsub p hp with e | hin
      · rw [e]; exact ⟨ht1, by rw [hf]; exact ht2, hm' t ht3⟩
      · obtain ⟨h1, h2, h3⟩ := h.queue_ok p hin
        exact ⟨h1, by rw [hf]; exact h2, hm' p h3⟩
    · intro j p hj hp
      rw [hn] at hj
      obtain ⟨hji, hp⟩ := hheld j p hp
      obtain ⟨h1, h2, h3, h4⟩ := h.held_ok j p hj hp
      refine ⟨h1, by rw [hf]; exact h2, hm' p h3, ?_⟩
      intro hin
      rcases hsub p hin with e | hin'
      · rw [e] at hp; exact hji (h.held_inj j i t hj hi hp hti)
      · exact h4 hin'
    · intro j k p hj hk hpj hpk
      rw [hn] at hj hk
      exact h.held_inj j k p hj hk (hheld j p hpj).2 (hheld k p hpk).2
    · rw [hc, hf, h.completed_eq, completed_count_congr _ _ _ _ (fun p _ _ => hm p)]
    · rw [ht, hf]; exact h.total_eq
  · intro hpush hcons p hb hp hst
    rw [hf] at hp
    rcases hcons p hb hp (fun e => hst ((hm p).mpr e)) with hin | ⟨j, hj, hpj⟩
    · exact Or.inl (by rw [hpush]; exact Multiset.mem_cons_of_mem hin)
    · by_cases hji : j = i
      · rw [hji, hti] at hpj
        cases hpj
        exact Or.inl (by rw [hpush]; exact Multiset.mem_cons_self _ _)
      · exact Or.inr ⟨j, by rw [hn]; exact hj, by rw [hct, if_neg hji]; exact hpj⟩

/-- Drone `b`, which holds no task, takes the task `t` out of the queue. -/
theorem inv_acquire (base : Nat) (s s' : Simulation) (b : Nat) (t : TaskPtr) (h : Inv base s)
    (hb : b < s.num_drones) (htb : (s.drones b).current_task = none)
    (hq : pq_contents s.task_queue = t ::ₘ pq_contents s'.task_queue)
    (hn : s'.num_drones = s.num_drones) (hf : s'.next_free = s.next_free)
    (hct : ∀ j, (s'.drones j).current_task =
      if j = b then some t else (s.drones j).current_task)
    (hc : s'.stats.completed_tasks = s.stats.completed_tasks)
    (ht : s'.stats.total_tasks = s.stats.total_tasks)
    (hm : ∀ p : Nat, ((s'.mem p).state = TASK_COMPLETED ↔ (s.mem p).state = TASK_COMPLETED)) :
    Inv base s' ∧ (Conserved base s → Conserved base s') := by
  have hm' : ∀ p : Nat, (s.mem p).state ≠ TASK_COMPLETED → (s'.mem p).state ≠ TASK_COMPLETED :=
    fun p hp hp' => hp ((hm p).mp hp')
  have hnd : t ∉ pq_contents s'.task_queue ∧ (pq_contents s'.task_queue).Nodup := by
    have := h.nodup
    rw [hq] at this
    exact Multiset.nodup_cons.mp this
  have hsub : ∀ p : Nat, p ∈ pq_contents s'.task_queue → p ∈ pq_contents s.task_queue := by
    intro p hp; rw [hq]; exact Multiset.mem_cons_of_mem hp
  have htin : t ∈ pq_contents s.task_queue := by rw [hq]; exact Multiset.mem_cons_self _ _
  constructor
  · constructor
    · rw [hf]; exact h.base_le
    · exact hnd.2
    · intro p hp
      obtain ⟨h1, h2, h3⟩ := h.queue_ok p (hsub p hp)
      exact ⟨h1, by rw [hf]; exact h2, hm' p h3⟩
    · intro j p hj hp
      rw [hn] at hj
      rw [hct] at hp
      by_cases hjb : j = b
      · rw [if_pos hjb] at hp
        cases hp
        obtain ⟨h1, h2, h3⟩ := h.queue_ok t htin
        exact ⟨h1, by rw [hf]; exact h2, hm' t h3, hnd.1⟩
      · rw [if_neg hjb] at hp
        obtain ⟨h1, h2, h3, h4⟩ := h.held_ok j p hj hp
        exact ⟨h1, by rw [hf]; exact h2, hm' p h3, fun hin => h4 (hsub p hin)⟩
    · intro j k p hj hk hpj hpk
      rw [hn] at hj hk
      rw [hct] at hpj hpk
      by_cases hjb : j = b
      · by_cases hkb : k = b
        · rw [hjb, hkb]
        · rw [if_pos hjb] at hpj
          rw [if_neg hkb] at hpk
          cases hpj
          exact absurd htin (h.held_ok k t hk hpk).2.2.2
      · by_cases hkb : k = b
        · rw [if_neg hjb] at hpj
          rw [if_pos hkb] at hpk
          cases hpk
          exact absurd htin (h.held_ok j t hj hpj).2.2.2
        · rw [if_neg hjb] at hpj
          rw [if_neg hkb] at hpk
          exact h.held_inj j k p hj hk hpj hpk
    · rw [hc, hf, h.completed_eq, completed_count_congr _ _ _ _ (fun p _ _ => hm p)]
    · rw [ht, hf]; exact h.total_eq
  · intro hcons p hb' hp hst
    rw [hf] at hp
    rcases hcons p hb' hp (fun e => hst ((hm p).mpr e)) with hin | ⟨j, hj, hpj⟩
    · rw [hq] at hin
      rcases Multiset.mem_cons.mp hin with e | hin'
      · exact Or.inr ⟨b, by rw [hn]; exact hb, by rw [hct, if_pos rfl, e]⟩
      · exact Or.inl hin'
    · have hjb : j ≠ b := by
        intro e; rw [e, htb] at hpj; cases hpj
      exact Or.inr ⟨j, by rw [hn]; exact hj, by rw [hct, if_neg hjb]; exact hpj⟩

/-- Drone `i` completes its task `t`. -/
theorem inv_complete (base : Nat) (s s' : Simulation) (i : Nat) (t : TaskPtr) (h : Inv base s)
    (hi : i < s.num_drones) (hti : (s.drones i).current_task = some t)
    (hq : pq_contents s'.task_queue = pq_contents s.task_queue)
    (hn : s'.num_drones = s.num_drones) (hf : s'.next_free = s.next_free)
    (hct : ∀ j, (s'.drones j).current_task =
      if j = i then none else (s.drones j).current_task)
    (hc : s'.stats.completed_tasks = s.stats.completed_tasks + 1)
    (ht : s'.stats.total_tasks = s.stats.total_tasks)
    (hmt : (s'.mem t).state = TASK_COMPLETED)
    (hm : ∀ p : Nat, p ≠ t →
      ((s'.mem p).state = TASK_COMPLETED ↔ (s.mem p).state = TASK_COMPLETED)) :
    Inv base s' ∧ (Conserved base s → Conserved base s') := by
  obtain ⟨ht1, ht2, ht3, ht4⟩ := h.held_ok i t hi hti
  have hheld : ∀ j (p : Nat), (s'.drones j).current_task = some p →
      j ≠ i ∧ (s.drones j).current_task = some p := by
    intro j p hp
    rw [hct] at hp
    by_cases hji : j = i
    · rw [if_pos hji] at hp; cases hp
    · rw [if_neg hji] at hp; exact ⟨hji, hp⟩
  constructor
  · constructor
    · rw [hf]; exact h.base_le
    · rw [hq]; exact h.nodup
    · intro p hp
      rw [hq] at hp
      obtain ⟨h1, h2, h3⟩ := h.queue_ok p hp
      have hpt : p ≠ t := by intro e; rw [e] at hp; exact ht4 hp
      exact ⟨h1, by rw [hf]; exact h2, fun e => h3 ((hm p hpt).mp e)⟩
    · intro j p hj hp
      rw [hn] at hj
      obtain ⟨hji, hp⟩ := hheld j p hp
      obtain ⟨h1, h2, h3, h4⟩ := h.held_ok j p hj hp
      have hpt : p ≠ t := by
        intro e; rw [e] at hp; exact hji (h.held_inj j i t hj hi hp hti)
      exact ⟨h1, by rw [hf]; exact h2, fun e => h3 ((hm p hpt).mp e), by rw [hq]; exact h4⟩
    · intro j k p hj hk hpj hpk
      rw [hn] at hj hk
      exact h.held_inj j k p hj hk (hheld j p hpj).2 (hheld k p hpk).2
    · rw [hc, hf, h.completed_eq,
        completed_count_complete s.mem s'.mem base s.next_free t ht1 ht2 ht3 hmt hm]
      push_cast
      rfl
    · rw [ht, hf]; exact h.total_eq
  · intro hcons p hb hp hst
    rw [hf] at hp
    have hpt : p ≠ t := by intro e; rw [e] at hst; exact hst hmt
    rcases hcons p hb hp (fun e => hst ((hm p hpt).mpr e)) with hin | ⟨j, hj, hpj⟩
    · exact Or.inl (by rw [hq]; exact hin)
    · have hji : j ≠ i := by
        intro e; rw [e, hti] at hpj; cases hpj; exact hpt rfl
      exact Or.inr ⟨j, by rw [hn]; exact hj, by rw [hct, if_neg hji]; exact hpj⟩

/-! ## The invariants through one scheduler cycle -/

theorem pq_push_contents_cases (mem : TaskMem) (pq : PriorityQueue) (task : TaskPtr) :
    (pq.size < MAX_TASKS ∧ pq_contents (pq_push mem pq task) = task ::ₘ pq_contents pq) ∨
    (MAX_TASKS ≤ pq.size ∧ pq_push mem pq task = pq) := by
  by_cases h : pq.size < MAX_TASKS
  · exact Or.inl ⟨h, (pq_push_contents mem pq task h).1⟩
  · refine Or.inr ⟨by omega, ?_⟩
    unfold pq_push
    rw [if_pos (by omega)]

theorem pq_push_size_le (mem : TaskMem) (pq : PriorityQueue) (task : TaskPtr) :
    pq.size ≤ (pq_push mem pq task).size := by
  rcases pq_push_contents_cases mem pq task with ⟨h, _⟩ | ⟨_, h⟩
  · rw [(pq_push_contents mem pq task h).2]; omega
  · rw [h]

theorem update_state_completed (mem : TaskMem) (t : TaskPtr) (v : Task)
    (h0 : (mem t).state ≠ TASK_COMPLETED) (h1 : v.state ≠ TASK_COMPLETED) (p : Nat) :
    ((Function.update mem t v) p).state = TASK_COMPLETED ↔ (mem p).state = TASK_COMPLETED := by
  by_cases hp : p = t
  · rw [hp, Function.update_same]
    exact ⟨fun e => absurd e h1, fun e => absurd e h0⟩
  · rw [Function.update_noteq hp]

theorem update_current_task (drones : Nat → Drone) (i : Nat) (d : Drone) (j : Nat) :
    ((Function.update drones i d) j).current_task =
      if j = i then d.current_task else (drones j).current_task := by
  by_cases h : j = i
  · rw [if_pos h, h, Function.update_same]
  · rw [if_neg h, Function.update_noteq h]

theorem preempt_inv (base : Nat) (s : Simulation) (i : Nat) (t : TaskPtr) (h : Inv base s)
    (hi : i < s.num_drones) (hti : (s.drones i).current_task = some t) :
    Inv base (preempt s i t) ∧
      (s.task_queue.size < MAX_TASKS → Conserved base s → Conserved base (preempt s i t)) := by
  have hq := pq_push_contents_cases
    (Function.update s.mem t { s.mem t with state := TASK_PREEMPTED }) s.task_queue t
  obtain ⟨hinv, hcons⟩ := inv_release base s (preempt s i t) i t h hi hti
    (by
      rcases hq with ⟨_, e⟩ | ⟨_, e⟩
      · exact Or.inl e
      · exact Or.inr (by show pq_contents (pq_push _ _ _) = _; rw [e]))
    rfl rfl
    (fun j => by
      show ((Function.update s.drones i _) j).current_task = _
      rw [update_current_task])
    rfl rfl
    (fun p => update_state_completed s.mem t _ (h.held_ok i t hi hti).2.2.1
      (fun e => TaskState.noConfusion e) p)
  refine ⟨hinv, fun hroom => hcons ?_⟩
  rcases hq with ⟨_, e⟩ | ⟨hfull, _⟩
  · exact e
  · omega

theorem preempt_fields (s : Simulation) (i : Nat) (t : TaskPtr) :
    (preempt s i t).num_drones = s.num_drones ∧
    ((preempt s i t).drones i).current_task = none ∧
    s.task_queue.size ≤ (preempt s i t).task_queue.size ∧
    (preempt s i t).stats.total_tasks = s.stats.total_tasks ∧
    (preempt s i t).next_free = s.next_free := by
  refine ⟨rfl, ?_, pq_push_size_le _ _ _, rfl, rfl⟩
  show ((Function.update s.drones i _) i).current_task = none
  rw [Function.update_same]

theorem assign_inv (base : Nat) (s : Simulation) (b : Nat) (h : Inv base s)
    (hb : b < s.num_drones) (htb : (s.drones b).current_task = none)
    (hq : 0 < s.task_queue.size) :
    Inv base (assign s (some b)) ∧ (Conserved base s → Conserved base (assign s (some b))) := by
  obtain ⟨hpop, hcont, _⟩ := pq_pop_contents s.mem s.task_queue hq
  have hin : s.task_queue.tasks 0 ∈ pq_contents s.task_queue := by
    rw [hcont]; exact Multiset.mem_cons_self _ _
  rw [assign_some s b _ hpop]
  exact inv_acquire base s _ b (s.task_queue.tasks 0) h hb htb hcont rfl rfl
    (fun j => by
      show ((Function.update s.drones b _) j).current_task = _
      rw [update_current_task])
    rfl rfl
    (fun p => update_state_completed s.mem _ _ (h.queue_ok _ hin).2.2
      (fun e => TaskState.noConfusion e) p)

theorem assign_fields (s : Simulation) (best : Option Nat) :
    (assign s best).num_drones = s.num_drones ∧
    (assign s best).stats = s.stats ∧
    (assign s best).next_free = s.next_free := by
  unfold assign
  cases best with
  | none => exact ⟨rfl, rfl, rfl⟩
  | some b =>
    simp only []
    rcases pq_pop s.mem s.task_queue with ⟨o, q⟩
    cases o with
    | none => exact ⟨rfl, rfl, rfl⟩
    | some t => exact ⟨rfl, rfl, rfl⟩

theorem scheduler_cycle_empty (s : Simulation) (hq : s.task_queue.size = 0) :
    scheduler_cycle s = s := by
  unfold scheduler_cycle pq_is_empty
  simp [hq]

theorem scheduler_cycle_no_preempt (s : Simulation) (hq : 0 < s.task_queue.size)
    (hnp : (s.mem (s.task_queue.tasks 0)).priority ≠ 1 ∨
      ∀ j, j < s.num_drones → ¬ preemptable s j) :
    scheduler_cycle s = assign s (find_best s s.num_drones 0 none) := by
  rw [scheduler_cycle_nonempty s hq]
  rcases hnp with h | h
  · rw [if_neg h]
  · rw [preempt_scan_none s _ s.num_drones 0 (fun j _ hj => h j (by omega))]
    simp only [ite_self]

/-- The three ways a scheduler cycle can go. -/
theorem scheduler_cycle_cases (s : Simulation) :
    scheduler_cycle s = s ∨
    (∃ b, b < s.num_drones ∧ eligible s b ∧ 0 < s.task_queue.size ∧
      scheduler_cycle s = assign s (some b)) ∨
    (∃ i t, i < s.num_drones ∧ (s.drones i).current_task = some t ∧ preemptable s i ∧
      0 < s.task_queue.size ∧ (s.mem (s.task_queue.tasks 0)).priority = 1 ∧
      scheduler_cycle s = assign (preempt s i t) (some i)) := by
  by_cases hq : s.task_queue.size = 0
  · exact Or.inl (scheduler_cycle_empty s hq)
  · have hq' : 0 < s.task_queue.size := by omega
    by_cases hp : (s.mem (s.task_queue.tasks 0)).priority = 1 ∧
        ∃ j, j < s.num_drones ∧ preemptable s j
    · obtain ⟨i, t, hin, hpi, _, ht, _, _, hcycle⟩ := scheduler_cycle_urgent s hq' hp.1 hp.2
      exact Or.inr (Or.inr ⟨i, t, hin, ht, hpi, hq', hp.1, hcycle⟩)
    · have hnp : (s.mem (s.task_queue.tasks 0)).priority ≠ 1 ∨
          ∀ j, j < s.num_drones → ¬ preemptable s j := by
        by_cases h1 : (s.mem (s.task_queue.tasks 0)).priority = 1
        · exact Or.inr (fun j hj hpj => hp ⟨h1, j, hj, hpj⟩)
        · exact Or.inl h1
      have hcycle := scheduler_cycle_no_preempt s hq' hnp
      by_cases hel : ∃ j, j < s.num_drones ∧ eligible s j
      · obtain ⟨b, hfb, hbest⟩ := find_best_spec s hel
        rw [hfb] at hcycle
        exact Or.inr (Or.inl ⟨b, hbest.1, hbest.2.1, hq', hcycle⟩)
      · rw [find_best_none s (fun j hj hje => hel ⟨j, hj, hje⟩)] at hcycle
        exact Or.inl hcycle

theorem scheduler_cycle_inv (base : Nat) (s : Simulation) (h : Inv base s) :
    Inv base (scheduler_cycle s) ∧
      (s.task_queue.size < MAX_TASKS → Conserved base s → Conserved base (scheduler_cycle s)) := by
  rcases scheduler_cycle_cases s with e | ⟨b, hb, hel, hq, e⟩ | ⟨i, t, hi, hti, _, hq, _, e⟩
  · rw [e]; exact ⟨h, fun _ hc => hc⟩
  · rw [e]
    obtain ⟨h1, h2⟩ := assign_inv base s b h hb hel.2.2.2 hq
    exact ⟨h1, fun _ hc => h2 hc⟩
  · rw [e]
    obtain ⟨h1, h2⟩ := preempt_inv base s i t h hi hti
    obtain ⟨f1, f2, f3, _, _⟩ := preempt_fields s i t
    obtain ⟨h3, h4⟩ := assign_inv base (preempt s i t) i h1 (by rw [f1]; exact hi) f2
      (by omega)
    exact ⟨h3, fun hroom hc => h4 (h2 hroom hc)⟩

theorem scheduler_cycle_fields (s : Simulation) :
    (scheduler_cycle s).num_drones = s.num_drones ∧
    (scheduler_cycle s).stats.total_tasks = s.stats.total_tasks ∧
    (scheduler_cycle s).next_free = s.next_free := by
  rcases scheduler_cycle_cases s with e | ⟨b, _, _, _, e⟩ | ⟨i, t, _, _, _, _, _, e⟩
  · rw [e]; exact ⟨rfl, rfl, rfl⟩
  · rw [e]
    obtain ⟨h1, h2, h3⟩ := assign_fields s (some b)
    exact ⟨h1, by rw [h2], h3⟩
  · rw [e]
    obtain ⟨h1, h2, h3⟩ := assign_fields (preempt s i t) (some i)
    obtain ⟨f1, _, _, f4, f5⟩ := preempt_fields s i t
    exact ⟨by rw [h1, f1], by rw [h2, f4], by rw [h3, f5]⟩

/-! ## The invariants through one worker cycle -/

theorem load_phase_frame (s : Simulation) (i : Nat) (t : TaskPtr) (s1 : Simulation)
    (h : load_phase s i t = some s1) :
    s1.task_queue = s.task_queue ∧ s1.num_drones = s.num_drones ∧
    s1.next_free = s.next_free ∧
    (∀ j, (s1.drones j).current_task = (s.drones j).current_task) ∧
    s1.stats.completed_tasks = s.stats.completed_tasks ∧
    s1.stats.total_tasks = s.stats.total_tasks ∧
    (s1.mem = s.mem ∨
      s1.mem = Function.update s.mem t { s.mem t with state := TASK_IN_PROGRESS }) := by
  unfold load_phase at h
  by_cases h1 : (s.drones i).state = DRONE_IDLE ∨ (s.drones i).state = DRONE_LOADING
  · rw [if_pos h1] at h
    by_cases h2 : s.loading_bays = 0
    · rw [if_pos h2] at h; cases h
    · rw [if_neg h2] at h
      simp only [Option.some.injEq] at h
      subst h
      refine ⟨rfl, rfl, rfl, ?_, rfl, rfl, Or.inr rfl⟩
      intro j
      by_cases hj : j = i
      · subst hj; simp only [Function.update_same]
      · simp only [Function.update_noteq hj]
  · rw [if_neg h1] at h
    simp only [Option.some.injEq] at h
    subst h
    exact ⟨rfl, rfl, rfl, fun _ => rfl, rfl, rfl, Or.inl rfl⟩

theorem deliver_loop_fields :
    ∀ (k : Nat) (d : Drone) (ticks : Nat),
      ∃ b, (deliver_loop k d ticks).1 = { d with battery_level := b } := by
  intro k
  induction k with
  | zero => intro d ticks; exact ⟨d.battery_level, rfl⟩
  | succ k ih =>
    intro d ticks
    unfold deliver_loop
    by_cases h1 : d.state = DRONE_DELIVERING
    · rw [if_pos h1]
      simp only []
      by_cases h2 : (deliver_tick d).battery_level ≤ BATTERY_LOW_THRESHOLD
      · rw [if_pos h2]
        exact ⟨d.battery_level - BATTERY_DRAIN_RATE, rfl⟩
      · rw [if_neg h2]
        obtain ⟨b, hb⟩ := ih (deliver_tick d) (ticks + 1)
        exact ⟨b, by rw [hb]; rfl⟩
    · rw [if_neg h1]
      exact ⟨d.battery_level, rfl⟩

theorem deliver_phase_frame (s : Simulation) (i : Nat) (t : TaskPtr) (s2 : Simulation)
    (h : deliver_phase s i t = some s2) :
    s2.task_queue = s.task_queue ∧ s2.num_drones = s.num_drones ∧
    s2.next_free = s.next_free ∧ s2.stats.total_tasks = s.stats.total_tasks ∧
    (((∀ j, (s2.drones j).current_task = (s.drones j).current_task) ∧
        s2.stats.completed_tasks = s.stats.completed_tasks ∧ s2.mem = s.mem) ∨
      ((∀ j, (s2.drones j).current_task =
          if j = i then none else (s.drones j).current_task) ∧
        s2.stats.completed_tasks = s.stats.completed_tasks + 1 ∧
        s2.mem = Function.update s.mem t { s.mem t with state := TASK_COMPLETED })) := by
  unfold deliver_phase at h
  by_cases h1 : (s.drones i).state = DRONE_DELIVERING ∧
      (s.drones i).battery_level > BATTERY_LOW_THRESHOLD
  · rw [if_pos h1] at h
    by_cases h2 : (s.drones i).speed = 0
    · rw [if_pos h2] at h; cases h
    · rw [if_neg h2] at h
      simp only [] at h
      obtain ⟨b, hb⟩ := deliver_loop_fields
        (delivery_time (s.mem t).estimated_time (s.drones i).speed).toNat (s.drones i) 0
      by_cases h3 : (deliver_loop
          (delivery_time (s.mem t).estimated_time (s.drones i).speed).toNat
          (s.drones i) 0).1.state = DRONE_DELIVERING
      · rw [if_pos h3] at h
        simp only [Option.some.injEq] at h
        subst h
        refine ⟨rfl, rfl, rfl, rfl, Or.inr ⟨?_, rfl, rfl⟩⟩
        intro j
        by_cases hj : j = i
        · subst hj; simp only [Function.update_same, if_true]
        · simp only [Function.update_noteq hj, if_neg hj]
      · rw [if_neg h3] at h
        simp only [Option.some.injEq] at h
        subst h
        refine ⟨rfl, rfl, rfl, rfl, Or.inl ⟨?_, rfl, rfl⟩⟩
        intro j
        by_cases hj : j = i
        · subst hj; simp only [Function.update_same, hb]
        · simp only [Function.update_noteq hj]
  · rw [if_neg h1] at h
    simp only [Option.some.injEq] at h
    subst h
    exact ⟨rfl, rfl, rfl, rfl, Or.inl ⟨fun _ => rfl, rfl, rfl⟩⟩

theorem task_phase_inv (base : Nat) (s : Simulation) (i : Nat) (s1 : Simulation)
    (h : Inv base s) (hi : i < s.num_drones) (hr : task_phase s i = some s1) :
    (Inv base s1 ∧ (Conserved base s → Conserved base s1)) ∧
    s1.task_queue = s.task_queue ∧ s1.num_drones = s.num_drones ∧
    s1.stats.total_tasks = s.stats.total_tasks := by
  unfold task_phase at hr
  cases hti : (s.drones i).current_task with
  | none =>
    rw [hti] at hr
    simp only [Option.some.injEq] at hr
    subst hr
    exact ⟨⟨h, fun hc => hc⟩, rfl, rfl, rfl⟩
  | some t =>
    rw [hti] at hr
    simp only [] at hr
    split_ifs at hr with hne
    · cases hl : load_phase s i t with
      | none => rw [hl] at hr; cases hr
      | some sl =>
        rw [hl, Option.some_bind] at hr
        obtain ⟨l1, l2, l3, l4, l5, l6, l7⟩ := load_phase_frame s i t sl hl
        obtain ⟨ht1, ht2, ht3, ht4⟩ := h.held_ok i t hi hti
        obtain ⟨hinvl, hconsl⟩ := inv_frame base s sl h (by rw [l1]) l2 l3 l4 l5 l6
          (fun p => by
            rcases l7 with e | e
            · rw [e]
            · rw [e]
              exact update_state_completed s.mem t _ ht3 (fun e => TaskState.noConfusion e) p)
        obtain ⟨d1, d2, d3, d4, d5⟩ := deliver_phase_frame sl i t s1 hr
        rcases d5 with ⟨c1, c2, c3⟩ | ⟨c1, c2, c3⟩
        · obtain ⟨hinv, hcons⟩ := inv_frame base sl s1 hinvl (by rw [d1]) d2 d3 c1 c2 d4
            (fun p => by rw [c3])
          exact ⟨⟨hinv, fun hc => hcons (hconsl hc)⟩, by rw [d1, l1], by rw [d2, l2],
            by rw [d4, l6]⟩
        · obtain ⟨hinv, hcons⟩ := inv_complete base sl s1 i t hinvl (by rw [l2]; exact hi)
            (by rw [l4]; exact hti) (by rw [d1]) d2 d3 c1 c2 d4
            (by rw [c3, Function.update_same])
            (fun p hp => by rw [c3, Function.update_noteq hp])
          exact ⟨⟨hinv, fun hc => hcons (hconsl hc)⟩, by rw [d1, l1], by rw [d2, l2],
            by rw [d4, l6]⟩
    · simp only [Option.some.injEq] at hr
      subst hr
      exact ⟨⟨h, fun hc => hc⟩, rfl, rfl, rfl⟩

theorem demote_inv (base : Nat) (s : Simulation) (i : Nat) (h : Inv base s)
    (hi : i < s.num_drones) :
    (Inv base (demote s i) ∧
      (s.task_queue.size < MAX_TASKS → Conserved base s → Conserved base (demote s i))) ∧
    (demote s i).num_drones = s.num_drones ∧
    (demote s i).stats.total_tasks = s.stats.total_tasks := by
  unfold demote
  cases hti : (s.drones i).current_task with
  | none => exact ⟨⟨h, fun _ hc => hc⟩, rfl, rfl⟩
  | some t =>
    simp only []
    split_ifs with hne
    · refine ⟨?_, rfl, rfl⟩
      have hq := pq_push_contents_cases
        (Function.update s.mem t { s.mem t with state := TASK_PENDING }) s.task_queue t
      obtain ⟨hinv, hcons⟩ := inv_release base s
        { s with
          mem := Function.update s.mem t { s.mem t with state := TASK_PENDING },
          task_queue := pq_push
            (Function.update s.mem t { s.mem t with state := TASK_PENDING }) s.task_queue t,
          drones := Function.update s.drones i { s.drones i with current_task := none } }
        i t h hi hti
        (by
          rcases hq with ⟨_, e⟩ | ⟨_, e⟩
          · exact Or.inl e
          · exact Or.inr (by show pq_contents (pq_push _ _ _) = _; rw [e]))
        rfl rfl
        (fun j => by
          show ((Function.update s.drones i _) j).current_task = _
          rw [update_current_task])
        rfl rfl
        (fun p => update_state_completed s.mem t _ (h.held_ok i t hi hti).2.2.1
          (fun e => TaskState.noConfusion e) p)
      refine ⟨hinv, fun hroom => hcons ?_⟩
      rcases hq with ⟨_, e⟩ | ⟨hfull, _⟩
      · exact e
      · omega
    · exact ⟨⟨h, fun _ hc => hc⟩, rfl, rfl⟩

theorem low_battery_phase_frame (s : Simulation) (i : Nat) (s' : Simulation)
    (h : low_battery_phase s i = some s') :
    s' = s ∨
    (s'.task_queue = (demote s i).task_queue ∧ s'.num_drones = (demote s i).num_drones ∧
      s'.next_free = (demote s i).next_free ∧
      (∀ j, (s'.drones j).current_task = ((demote s i).drones j).current_task) ∧
      s'.stats.completed_tasks = (demote s i).stats.completed_tasks ∧
      s'.stats.total_tasks = (demote s i).stats.total_tasks ∧
      s'.mem = (demote s i).mem) := by
  unfold low_battery_phase at h
  by_cases h1 : (s.drones i).battery_level ≤ BATTERY_LOW_THRESHOLD ∧
      (s.drones i).state ≠ DRONE_CHARGING
  · rw [if_pos h1] at h
    simp only [] at h
    by_cases h2 : (demote s i).charging_stations = 0
    · rw [if_pos h2] at h; cases h
    · rw [if_neg h2] at h
      simp only [Function.update_same] at h
      cases hc : charge_loop_fuel ((100 - ((demote s i).drones i).battery_level).toNat + 1)
          ((demote s i).drones i).battery_level with
      | none => rw [hc] at h; cases h
      | some b =>
        rw [hc] at h
        simp only [Option.some.injEq] at h
        subst h
        refine Or.inr ⟨rfl, rfl, rfl, ?_, rfl, rfl, rfl⟩
        intro j
        by_cases hj : j = i
        · subst hj; simp only [Function.update_same]
        · simp only [Function.update_noteq hj]
  · rw [if_neg h1] at h
    simp only [Option.some.injEq] at h
    exact Or.inl h.symm

theorem worker_cycle_inv (base : Nat) (s : Simulation) (i : Nat) (s' : Simulation)
    (h : Inv base s) (hi : i < s.num_drones) (hr : worker_cycle s i = some s') :
    (Inv base s' ∧ (s.task_queue.size < MAX_TASKS → Conserved base s → Conserved base s')) ∧
    s'.num_drones = s.num_drones ∧ s'.stats.total_tasks = s.stats.total_tasks := by
  unfold worker_cycle at hr
  cases ht : task_phase s i with
  | none => rw [ht] at hr; cases hr
  | some s1 =>
    rw [ht, Option.some_bind] at hr
    obtain ⟨⟨hinv1, hcons1⟩, hq1, hn1, ht1⟩ := task_phase_inv base s i s1 h hi ht
    rcases low_battery_phase_frame s1 i s' hr with e | ⟨f1, f2, f3, f4, f5, f6, f7⟩
    · rw [e]
      exact ⟨⟨hinv1, fun _ hc => hcons1 hc⟩, hn1, ht1⟩
    · obtain ⟨⟨hinvd, hconsd⟩, hnd, htd⟩ := demote_inv base s1 i hinv1 (by rw [hn1]; exact hi)
      obtain ⟨hinv, hcons⟩ := inv_frame base (demote s1 i) s' hinvd (by rw [f1]) f2 f3 f4 f5 f6
        (fun p => by rw [f7])
      exact ⟨⟨hinv, fun hroom hc => hcons (hconsd (by rw [hq1]; exact hroom) (hcons1 hc))⟩,
        by rw [f2, hnd, hn1], by rw [f6, htd, ht1]⟩

/-! ## The invariants through the set-up calls and along a run -/

theorem init_simulation_inv (s0 : Simulation) (num_charging num_loading : Int) :
    Inv s0.next_free (init_simulation s0 num_charging num_loading) ∧
    Conserved s0.next_free (init_simulation s0 num_charging num_loading) := by
  have hq : pq_contents (init_simulation s0 num_charging num_loading).task_queue = 0 := by
    simp [init_simulation, pq_init, pq_contents, contents]
  constructor
  · constructor
    · exact le_refl _
    · rw [hq]; exact Multiset.nodup_zero
    · intro p hp; rw [hq] at hp; exact absurd hp (Multiset.not_mem_zero p)
    · intro i p hi _
      exact absurd hi (Nat.not_lt_zero i)
    · intro i j p hi
      exact absurd hi (Nat.not_lt_zero i)
    · show (0 : Int) = ((completed_count _ s0.next_free s0.next_free : Nat) : Int)
      have := completed_count_le s0.mem s0.next_free s0.next_free
      have e : completed_count s0.mem s0.next_free s0.next_free = 0 := by omega
      show (0 : Int) = ((completed_count s0.mem s0.next_free s0.next_free : Nat) : Int)
      rw [e]
      rfl
    · show (0 : Int) + (s0.next_free : Int) = ((s0.next_free : Nat) : Int)
      omega
  · intro p hb hp
    change p < s0.next_free at hp
    omega

theorem add_drone_inv (base : Nat) (s : Simulation) (speed battery : Int) (h : Inv base s) :
    (Inv base (add_drone s speed battery) ∧
      (Conserved base s → Conserved base (add_drone s speed battery))) ∧
    (add_drone s speed battery).stats.total_tasks = s.stats.total_tasks := by
  unfold add_drone
  by_cases hfull : s.num_drones ≥ MAX_DRONES
  · rw [if_pos hfull]
    exact ⟨⟨h, fun hc => hc⟩, rfl⟩
  · rw [if_neg hfull]
    refine ⟨⟨?_, ?_⟩, rfl⟩
    · constructor
      · exact h.base_le
      · exact h.nodup
      · exact h.queue_ok
      · intro i p hi hp
        by_cases hin : i = s.num_drones
        · rw [hin] at hp
          simp only [Function.update_same] at hp
          cases hp
        · simp only [Function.update_noteq hin] at hp
          exact h.held_ok i p (by simp only at hi; omega) hp
      · intro i j p hi hj hpi hpj
        by_cases hin : i = s.num_drones
        · rw [hin] at hpi
          simp only [Function.update_same] at hpi
          cases hpi
        · by_cases hjn : j = s.num_drones
          · rw [hjn] at hpj
            simp only [Function.update_same] at hpj
            cases hpj
          · simp only [Function.update_noteq hin] at hpi
            simp only [Function.update_noteq hjn] at hpj
            exact h.held_inj i j p (by simp only at hi; omega) (by simp only at hj; omega)
              hpi hpj
      · exact h.completed_eq
      · exact h.total_eq
    · intro hc p hb hp hst
      rcases hc p hb hp hst with hin | ⟨i, hi, hpi⟩
      · exact Or.inl hin
      · refine Or.inr ⟨i, by simp only; omega, ?_⟩
        simp only [Function.update_noteq (Nat.ne_of_lt hi)]
        exact hpi

theorem add_task_inv (base : Nat) (s : Simulation) (priority est_time : Int)
    (h : Inv base s) :
    (Inv base (add_task s priority est_time) ∧
      (s.task_queue.size < MAX_TASKS → Conserved base s →
        Conserved base (add_task s priority est_time))) ∧
    (add_task s priority est_time).stats.total_tasks = s.stats.total_tasks + 1 := by
  have hfresh : s.next_free ∉ pq_contents s.task_queue := by
    intro hin
    have := (h.queue_ok _ hin).2.1
    omega
  have hmem : ∀ p : Nat, p ≠ s.next_free →
      ((add_task s priority est_time).mem p) = s.mem p := by
    intro p hp
    show (Function.update s.mem s.next_free _) p = _
    rw [Function.update_noteq hp]
  have hnew : ((add_task s priority est_time).mem s.next_free).state = TASK_PENDING := by
    show ((Function.update s.mem s.next_free _) s.next_free).state = _
    rw [Function.update_same]
  have hq := pq_push_contents_cases (add_task s priority est_time).mem s.task_queue s.next_free
  have hq' : ∀ p : Nat, p ∈ pq_contents (add_task s priority est_time).task_queue →
      p = s.next_free ∨ p ∈ pq_contents s.task_queue := by
    intro p hp
    have hp' : p ∈ pq_contents
        (pq_push (add_task s priority est_time).mem s.task_queue s.next_free) := hp
    rcases hq with ⟨_, e⟩ | ⟨_, e⟩
    · rw [e] at hp'; exact Multiset.mem_cons.mp hp'
    · rw [e] at hp'; exact Or.inr hp'
  have hnf : (add_task s priority est_time).next_free = s.next_free + 1 := rfl
  refine ⟨⟨?_, ?_⟩, rfl⟩
  · constructor
    · rw [hnf]; exact Nat.le_succ_of_le h.base_le
    · show (pq_contents (pq_push (add_task s priority est_time).mem s.task_queue
        s.next_free)).Nodup
      rcases hq with ⟨_, e⟩ | ⟨_, e⟩
      · rw [e]; exact Multiset.nodup_cons.mpr ⟨hfresh, h.nodup⟩
      · rw [e]; exact h.nodup
    · intro p hp
      rcases hq' p hp with e | hin
      · rw [e, hnf, hnew]
        exact ⟨h.base_le, Nat.lt_succ_self _, fun e => TaskState.noConfusion e⟩
      · obtain ⟨h1, h2, h3⟩ := h.queue_ok p hin
        rw [hnf, hmem p (by omega)]
        exact ⟨h1, by omega, h3⟩
    · intro i p hi hp
      obtain ⟨h1, h2, h3, h4⟩ := h.held_ok i p hi hp
      rw [hnf, hmem p (by omega)]
      refine ⟨h1, by omega, h3, ?_⟩
      intro hin
      rcases hq' p hin with e | hin'
      · omega
      · exact h4 hin'
    · exact h.held_inj
    · show s.stats.completed_tasks =
        ((completed_count (add_task s priority est_time).mem base (s.next_free + 1) : Nat) : Int)
      rw [completed_count_extend _ _ _ (by rw [hnew]; exact fun e => TaskState.noConfusion e),
        completed_count_congr s.mem (add_task s priority est_time).mem base s.next_free
          (fun p _ hp => by rw [hmem p (by omega)])]
      exact h.completed_eq
    · show (s.stats.total_tasks + 1) + (base : Int) = ((s.next_free + 1 : Nat) : Int)
      have := h.total_eq
      push_cast
      omega
  · intro hroom hc p hb hp hst
    rw [hnf] at hp
    have hpush : pq_contents (add_task s priority est_time).task_queue =
        s.next_free ::ₘ pq_contents s.task_queue := by
      rcases hq with ⟨_, e⟩ | ⟨hfull, _⟩
      · exact e
      · omega
    by_cases hpn : p = s.next_free
    · exact Or.inl (by rw [hpush, hpn]; exact Multiset.mem_cons_self _ _)
    · rw [hmem p hpn] at hst
      rcases hc p hb (by omega) hst with hin | hheld
      · exact Or.inl (by rw [hpush]; exact Multiset.mem_cons_of_mem hin)
      · exact Or.inr hheld

theorem step_inv (base : Nat) (s s' : Simulation) (e : Event) (h : Inv base s)
    (hr : step s e = some s') :
    (Inv base s' ∧ (s.task_queue.size < MAX_TASKS → Conserved base s → Conserved base s')) ∧
    s'.stats.total_tasks = s.stats.total_tasks + (num_add_task [e] : Nat) := by
  cases e with
  | add_drone speed battery =>
    simp only [step, Option.some.injEq] at hr
    subst hr
    obtain ⟨⟨h1, h2⟩, h3⟩ := add_drone_inv base s speed battery h
    exact ⟨⟨h1, fun _ hc => h2 hc⟩, by rw [h3]; simp [num_add_task]⟩
  | add_task priority est_time =>
    simp only [step, Option.some.injEq] at hr
    subst hr
    obtain ⟨h1, h3⟩ := add_task_inv base s priority est_time h
    exact ⟨h1, by rw [h3]; simp [num_add_task]⟩
  | scheduler =>
    simp only [step, Option.some.injEq] at hr
    subst hr
    exact ⟨scheduler_cycle_inv base s h, by
      rw [(scheduler_cycle_fields s).2.1]; simp [num_add_task]⟩
  | worker i =>
    simp only [step] at hr
    by_cases hi : i < s.num_drones
    · rw [if_pos hi] at hr
      obtain ⟨h1, _, h3⟩ := worker_cycle_inv base s i s' h hi hr
      exact ⟨h1, by rw [h3]; simp [num_add_task]⟩
    · rw [if_neg hi] at hr; cases hr

theorem num_add_task_cons (e : Event) (es : List Event) :
    num_add_task (e :: es) = num_add_task [e] + num_add_task es := by
  cases e <;> simp [num_add_task, Nat.add_comm]

theorem run_inv (base : Nat) :
    ∀ (evs : List Event) (s s' : Simulation), Inv base s → run s evs = some s' →
      Inv base s' ∧
      (has_room s evs = true → Conserved base s → Conserved base s') ∧
      s'.stats.total_tasks = s.stats.total_tasks + (num_add_task evs : Nat) := by
  intro evs
  induction evs with
  | nil =>
    intro s s' h hr
    simp only [run, Option.some.injEq] at hr
    subst hr
    exact ⟨h, fun _ hc => hc, by simp [num_add_task]⟩
  | cons e es ih =>
    intro s s' h hr
    simp only [run] at hr
    cases hs : step s e with
    | none => rw [hs] at hr; cases hr
    | some s1 =>
      rw [hs, Option.some_bind] at hr
      obtain ⟨⟨h1, h2⟩, h3⟩ := step_inv base s s1 e h hs
      obtain ⟨i1, i2, i3⟩ := ih s1 s' h1 hr
      refine ⟨i1, ?_, ?_⟩
      · intro hroom hc
        simp only [has_room, hs, Bool.and_eq_true, decide_eq_true_eq] at hroom
        exact i2 hroom.2 (h2 hroom.1 hc)
      · have := num_add_task_cons e es
        omega

/-! ## Claims on runs from `init_simulation` -/

/-- C12: in every state reached from `init_simulation` by `add_drone`, `add_task`,
scheduler cycles and worker cycles of registered drones, each run on its own,
no task that is the `current_task` of a registered drone is in the queue, no
task is in the queue more than once, and no task is the `current_task` of two
different registered drones. -/
theorem ownership_exclusive (s0 : Simulation) (num_charging num_loading : Int)
    (evs : List Event) (s : Simulation)
    (hrun : run (init_simulation s0 num_charging num_loading) evs = some s) :
    (∀ (i : Nat) (p : TaskPtr), i < s.num_drones → (s.drones i).current_task = some p →
      p ∉ pq_contents s.task_queue) ∧
    (∀ p : TaskPtr, (pq_contents s.task_queue).count p ≤ 1) ∧
    (∀ (i j : Nat) (p : TaskPtr), i < s.num_drones → j < s.num_drones →
      (s.drones i).current_task = some p → (s.drones j).current_task = some p → i = j) := by
  obtain ⟨hinv, _, _⟩ := run_inv s0.next_free evs _ s
    (init_simulation_inv s0 num_charging num_loading).1 hrun
  exact ⟨fun i p hi hp => (hinv.held_ok i p hi hp).2.2.2,
    fun p => Multiset.nodup_iff_count_le_one.mp hinv.nodup p, hinv.held_inj⟩

/-- Witness for C12 on the run `exEvents`. -/
theorem ownership_exclusive_witness :
    ∃ s, run (init_simulation blankSim 1 1) exEvents = some s ∧
      (s.drones 0).current_task = some 0 ∧
      (∀ (i : Nat) (p : TaskPtr), i < s.num_drones → (s.drones i).current_task = some p →
        p ∉ pq_contents s.task_queue) ∧
      (∀ p : TaskPtr, (pq_contents s.task_queue).count p ≤ 1) := by
  obtain ⟨s, h1, h2⟩ := option_map_some (run (init_simulation blankSim 1 1) exEvents)
    (fun s => decide ((s.drones 0).current_task = some 0)) true (by decide)
  obtain ⟨h3, h4, _⟩ := ownership_exclusive blankSim 1 1 exEvents s h1
  exact ⟨s, h1, of_decide_eq_true h2, h3, h4⟩

theorem num_add_task_replicate (priority est_time : Int) (n : Nat) :
    num_add_task (List.replicate n (Event.add_task priority est_time)) = n := by
  induction n with
  | zero => rfl
  | succ n ih =>
    rw [List.replicate_succ]
    show num_add_task _ + 1 = n + 1
    rw [ih]

/-- As long as the queue has room, `n` calls of `add_task` in a row make it `n`
tasks longer. -/
theorem run_add_tasks (priority est_time : Int) :
    ∀ (n : Nat) (s : Simulation), s.task_queue.size + n ≤ MAX_TASKS →
      ∃ s', run s (List.replicate n (Event.add_task priority est_time)) = some s' ∧
        s'.task_queue.size = s.task_queue.size + n := by
  intro n
  induction n with
  | zero => intro s _; exact ⟨s, rfl, rfl⟩
  | succ n ih =>
    intro s h
    have hsize : (add_task s priority est_time).task_queue.size = s.task_queue.size + 1 :=
      (pq_push_contents _ s.task_queue s.next_free (by omega)).2
    obtain ⟨s', h1, h2⟩ := ih (add_task s priority est_time) (by rw [hsize]; omega)
    refine ⟨s', ?_, by rw [h2, hsize]; omega⟩
    rw [List.replicate_succ]
    exact h1

/-- On a queue that holds `MAX_TASKS` tasks `add_task` leaves the queue as it is. -/
theorem add_task_full (s : Simulation) (priority est_time : Int)
    (h : MAX_TASKS ≤ s.task_queue.size) :
    (add_task s priority est_time).task_queue = s.task_queue := by
  show pq_push _ s.task_queue s.next_free = s.task_queue
  unfold pq_push
  rw [if_pos h]

/-- C16 (amended): after `init_simulation` and any run with `n - 1` calls of
`add_task`, the next call of `add_task` (the `n`-th) creates, at the address
`malloc` returns, a task with `task_id = n`, the given priority and estimated
time, state pending and `assigned_drone = -1`; every later call gets a larger
id; `total_tasks` goes up by exactly 1.  If the queue holds fewer than
`MAX_TASKS` tasks, the new task is added to the queue, where it then occurs
exactly once, and `size` goes up by exactly 1.  If the queue already holds
`MAX_TASKS` tasks, the task is created and counted all the same, but the queue
keeps its size and its tasks and the new task is not in it. -/
theorem add_task_spec (s0 : Simulation) (num_charging num_loading : Int)
    (evs : List Event) (s : Simulation)
    (hrun : run (init_simulation s0 num_charging num_loading) evs = some s)
    (priority est_time : Int) :
    (add_task s priority est_time).mem s.next_free =
      { task_id := (num_add_task evs : Int) + 1, priority := priority,
        estimated_time := est_time, state := TASK_PENDING, assigned_drone := -1 } ∧
    (∀ (evs' : List Event) (s' : Simulation) (priority' est_time' : Int),
      run (add_task s priority est_time) evs' = some s' →
      ((add_task s priority est_time).mem s.next_free).task_id <
        ((add_task s' priority' est_time').mem s'.next_free).task_id) ∧
    (add_task s priority est_time).stats.total_tasks = s.stats.total_tasks + 1 ∧
    (s.task_queue.size < MAX_TASKS →
      pq_contents (add_task s priority est_time).task_queue =
        s.next_free ::ₘ pq_contents s.task_queue ∧
      (pq_contents (add_task s priority est_time).task_queue).count s.next_free = 1 ∧
      (add_task s priority est_time).task_queue.size = s.task_queue.size + 1) ∧
    (MAX_TASKS ≤ s.task_queue.size →
      (add_task s priority est_time).task_queue.size = s.task_queue.size ∧
      pq_contents (add_task s priority est_time).task_queue = pq_contents s.task_queue ∧
      s.next_free ∉ pq_contents (add_task s priority est_time).task_queue) := by
  obtain ⟨hinv0, _⟩ := init_simulation_inv s0 num_charging num_loading
  obtain ⟨hinv, _, htot⟩ := run_inv s0.next_free evs _ s hinv0 hrun
  have htot' : s.stats.total_tasks = (num_add_task evs : Int) := by
    rw [htot]
    show (0 : Int) + _ = _
    omega
  have hid : ∀ (s1 : Simulation) (p e : Int),
      ((add_task s1 p e).mem s1.next_free).task_id = s1.stats.total_tasks + 1 := by
    intro s1 p e
    show ((Function.update s1.mem s1.next_free _) s1.next_free).task_id = _
    rw [Function.update_same]
  have hnew : s.next_free ∉ pq_contents s.task_queue := by
    intro hin
    have := (hinv.queue_ok s.next_free hin).2.1
    omega
  refine ⟨?_, ?_, rfl, ?_, ?_⟩
  · show (Function.update s.mem s.next_free _) s.next_free = _
    rw [Function.update_same, htot']
  · intro evs' s' priority' est_time' hrun'
    obtain ⟨⟨hinv1, _⟩, _⟩ := add_task_inv s0.next_free s priority est_time hinv
    obtain ⟨_, _, htot1⟩ := run_inv s0.next_free evs' _ s' hinv1 hrun'
    rw [hid, hid, htot1]
    show s.stats.total_tasks + 1 < s.stats.total_tasks + 1 + _ + 1
    omega
  · intro hroom
    have hpush := pq_push_contents (add_task s priority est_time).mem s.task_queue
      s.next_free hroom
    have hc : pq_contents (add_task s priority est_time).task_queue =
        s.next_free ::ₘ pq_contents s.task_queue := hpush.1
    refine ⟨hc, ?_, hpush.2⟩
    rw [hc, Multiset.count_cons_self, Multiset.count_eq_zero_of_not_mem hnew]
  · intro hfull
    rw [add_task_full s priority est_time hfull]
    exact ⟨rfl, rfl, hnew⟩

/-- Witness for C16 (amended): after the run `exEvents`, which calls `add_task`
twice and leaves room in the queue, the next call creates the task with id 3
and puts it in the queue. -/
theorem add_task_spec_witness :
    ∃ s, run (init_simulation blankSim 1 1) exEvents = some s ∧
      s.task_queue.size < MAX_TASKS ∧
      ((add_task s 2 7).mem s.next_free).task_id = 3 ∧
      ((add_task s 2 7).mem s.next_free).state = TASK_PENDING ∧
      (add_task s 2 7).stats.total_tasks = s.stats.total_tasks + 1 ∧
      s.next_free ∈ pq_contents (add_task s 2 7).task_queue ∧
      (add_task s 2 7).task_queue.size = s.task_queue.size + 1 := by
  obtain ⟨s, h1, h2⟩ := option_map_some (run (init_simulation blankSim 1 1) exEvents)
    (fun s => decide (s.task_queue.size < MAX_TASKS)) true (by decide)
  have hroom : s.task_queue.size < MAX_TASKS := of_decide_eq_true h2
  obtain ⟨a1, _, a3, a4, _⟩ := add_task_spec blankSim 1 1 exEvents s h1 2 7
  obtain ⟨b1, _, b3⟩ := a4 hroom
  exact ⟨s, h1, hroom, by rw [a1]; decide, by rw [a1], a3,
    by rw [b1]; exact Multiset.mem_cons_self _ _, b3⟩

/-- C16 as stated fails: after `init_simulation` and 200 calls of `add_task` the
queue holds `MAX_TASKS` tasks; the 201st call creates a pending task with
`task_id = 201` and counts it in `total_tasks`, but the queue still holds
`MAX_TASKS` tasks and the new task is not among them. -/
theorem add_task_dropped_when_full :
    ∃ s, run (init_simulation blankSim 1 1) (List.replicate 200 (Event.add_task 1 4)) = some s ∧
      s.task_queue.size = MAX_TASKS ∧
      (add_task s 1 4).mem s.next_free =
        { task_id := 201, priority := 1, estimated_time := 4, state := TASK_PENDING,
          assigned_drone := -1 } ∧
      (add_task s 1 4).stats.total_tasks = 201 ∧
      (add_task s 1 4).task_queue.size = MAX_TASKS ∧
      s.next_free ∉ pq_contents (add_task s 1 4).task_queue := by
  obtain ⟨s, hrun, hsize⟩ := run_add_tasks 1 4 200 (init_simulation blankSim 1 1) (by decide)
  have hsize' : s.task_queue.size = MAX_TASKS := hsize
  obtain ⟨hinv0, _⟩ := init_simulation_inv blankSim 1 1
  obtain ⟨hinv, _, htot⟩ := run_inv blankSim.next_free _ _ s hinv0 hrun
  rw [num_add_task_replicate] at htot
  have htot' : s.stats.total_tasks = 200 := by
    rw [htot]; rfl
  have hfull := add_task_full s 1 4 (le_of_eq hsize'.symm)
  refine ⟨s, hrun, hsize', ?_, ?_, by rw [hfull]; exact hsize', ?_⟩
  · show (Function.update s.mem s.next_free _) s.next_free = _
    rw [Function.update_same, htot']
    rfl
  · show s.stats.total_tasks + 1 = 201
    rw [htot']; rfl
  · rw [hfull]
    intro hin
    have := (hinv.queue_ok s.next_free hin).2.1
    omega

/-- C19: in every state reached from `init_simulation` by `add_drone`, `add_task`,
scheduler cycles and worker cycles of registered drones, each run on its own,
`stats.completed_tasks ≤ stats.total_tasks`; `completed_tasks` is exactly the
number of tasks created since `init_simulation` whose state is
`TASK_COMPLETED`, so no task is counted twice; and `total_tasks` is the number
of tasks created. -/
theorem completed_le_total (s0 : Simulation) (num_charging num_loading : Int)
    (evs : List Event) (s : Simulation)
    (hrun : run (init_simulation s0 num_charging num_loading) evs = some s) :
    s.stats.completed_tasks ≤ s.stats.total_tasks ∧
    s.stats.completed_tasks = (completed_count s.mem s0.next_free s.next_free : Nat) ∧
    s.stats.total_tasks = ((s.next_free - s0.next_free : Nat) : Int) ∧
    s.stats.total_tasks = (num_add_task evs : Nat) := by
  obtain ⟨hinv0, _⟩ := init_simulation_inv s0 num_charging num_loading
  obtain ⟨hinv, _, htot⟩ := run_inv s0.next_free evs _ s hinv0 hrun
  have h1 := hinv.completed_eq
  have h2 := hinv.total_eq
  have h3 := completed_count_le s.mem s0.next_free s.next_free
  have h4 := hinv.base_le
  refine ⟨by omega, h1, by omega, ?_⟩
  rw [htot]
  show (0 : Int) + _ = _
  omega

/-- Witness for C19 on the run `exEvents`, in which one task is completed. -/
theorem completed_le_total_witness :
    ∃ s, run (init_simulation blankSim 1 1) exEvents = some s ∧
      s.stats.completed_tasks = 1 ∧ s.stats.total_tasks = 2 ∧
      s.stats.completed_tasks ≤ s.stats.total_tasks := by
  obtain ⟨s, h1, h2⟩ := option_map_some (run (init_simulation blankSim 1 1) exEvents)
    (fun s => decide (s.stats.completed_tasks = 1 ∧ s.stats.total_tasks = 2)) true (by decide)
  obtain ⟨h3, _⟩ := completed_le_total blankSim 1 1 exEvents s h1
  exact ⟨s, h1, (of_decide_eq_true h2).1, (of_decide_eq_true h2).2, h3⟩

/-! ## `main` does not look at the pool counts -/

theorem add_drone_without_pools (s : Simulation) (speed battery : Int) :
    (add_drone s speed battery).without_pools = add_drone s.without_pools speed battery := by
  unfold add_drone
  by_cases h : s.num_drones ≥ MAX_DRONES
  · have h' : s.without_pools.num_drones ≥ MAX_DRONES := h
    rw [if_pos h, if_pos h']
  · have h' : ¬ s.without_pools.num_drones ≥ MAX_DRONES := h
    rw [if_neg h, if_neg h']
    rfl

theorem add_task_without_pools (s : Simulation) (priority est_time : Int) :
    (add_task s priority est_time).without_pools =
      add_task s.without_pools priority est_time := rfl

theorem read_config_without_pools :
    ∀ (lines : List ConfigLine) (s : Simulation),
      (read_config s lines).without_pools = read_config s.without_pools lines := by
  intro lines
  induction lines with
  | nil => intro s; rfl
  | cons line rest ih =>
    intro s
    cases line with
    | drone speed battery =>
      simp only [read_config]
      split_ifs
      · rw [ih, add_drone_without_pools]
      · exact ih s
    | task priority est_time =>
      simp only [read_config]
      split_ifs
      · rw [ih, add_task_without_pools]
      · exact ih s
    | start => rfl
    | skip => exact ih s

theorem legacy_first_loop_without_pools (num_drones : Int) :
    ∀ (k i : Nat) (s : Simulation),
      (legacy_first_loop num_drones k i s).without_pools =
        legacy_first_loop num_drones k i s.without_pools := by
  intro k
  induction k with
  | zero => intro i s; rfl
  | succ k ih =>
    intro i s
    simp only [legacy_first_loop]
    split_ifs
    · rw [ih, add_drone_without_pools]
    · rfl

theorem legacy_second_loop_without_pools (num_drones : Int) :
    ∀ (k i : Nat) (s : Simulation),
      (legacy_second_loop num_drones k i s).without_pools =
        legacy_second_loop num_drones k i s.without_pools := by
  intro k
  induction k with
  | zero => intro i s; rfl
  | succ k ih =>
    intro i s
    simp only [legacy_second_loop]
    split_ifs
    · rw [ih, add_drone_without_pools]
    · rfl

theorem legacy_setup_without_pools (s : Simulation) (num_drones : Int) :
    (legacy_setup s num_drones).without_pools = legacy_setup s.without_pools num_drones := by
  unfold legacy_setup
  simp only [add_task_without_pools, legacy_second_loop_without_pools,
    legacy_first_loop_without_pools]

theorem configure_without_pools (o o' : Options) (sim sim' : Simulation)
    (lines : List ConfigLine) (ho : o'.without_pools = o.without_pools)
    (hs : sim'.without_pools = sim.without_pools) :
    (configure o' sim' lines).map Simulation.without_pools =
      (configure o sim lines).map Simulation.without_pools := by
  obtain ⟨a1, a2, a3, a4, a5, a6⟩ := o
  obtain ⟨b1, b2, b3, b4, b5, b6⟩ := o'
  simp only [Options.without_pools, Options.mk.injEq, true_and] at ho
  obtain ⟨e1, _, e5, e6⟩ := ho
  subst e1 e5 e6
  unfold configure
  simp only []
  split_ifs
  · simp only [Option.map_some', read_config_without_pools, hs]
  · simp only [Option.map_some', legacy_setup_without_pools, hs]
  · rfl

theorem start_or_exit_without_pools (r r' : Option Simulation)
    (h : r'.map Simulation.without_pools = r.map Simulation.without_pools) :
    (start_or_exit r').exit_status = (start_or_exit r).exit_status := by
  cases r with
  | none =>
    cases r' with
    | none => rfl
    | some s' => cases h
  | some s =>
    cases r' with
    | none => cases h
    | some s' =>
      simp only [Option.map_some', Option.some.injEq] at h
      have hn : s'.num_drones = s.num_drones := by
        have := congrArg (fun x : Simulation => x.num_drones) h
        exact this
      have hq : s'.task_queue.size = s.task_queue.size := by
        have := congrArg (fun x : Simulation => x.task_queue.size) h
        exact this
      unfold start_or_exit
      simp only [hn, hq]
      split_ifs <;> rfl

theorem parse_args_without_pools (c l : Int) :
    ∀ (args : List Arg) (o o' : Options), o'.without_pools = o.without_pools →
      (match parse_args (args.map (set_pools c l)) o', parse_args args o with
       | Except.error k', Except.error k => k' = k
       | Except.ok p', Except.ok p => p'.without_pools = p.without_pools
       | _, _ => False) := by
  intro args
  induction args with
  | nil => intro o o' h; exact h
  | cons a rest ih =>
    intro o o' h
    have hf := h
    obtain ⟨a1, a2, a3, a4, a5, a6⟩ := o
    obtain ⟨b1, b2, b3, b4, b5, b6⟩ := o'
    simp only [Options.without_pools, Options.mk.injEq, true_and] at hf
    obtain ⟨e1, e4, e5, e6⟩ := hf
    subst e1 e4 e5 e6
    cases a with
    | drones n =>
      simp only [List.map, set_pools, parse_args]
      split_ifs
      · trivial
      · exact ih _ _ rfl
    | charging n =>
      simp only [List.map, set_pools, parse_args]
      exact ih _ _ rfl
    | loading n =>
      simp only [List.map, set_pools, parse_args]
      exact ih _ _ rfl
    | duration n =>
      simp only [List.map, set_pools, parse_args]
      exact ih _ _ rfl
    | config is_stdin =>
      simp only [List.map, set_pools, parse_args]
      apply ih
      cases is_stdin <;> rfl
    | help =>
      simp only [List.map, set_pools, parse_args]
    | other =>
      simp only [List.map, set_pools, parse_args]
      exact ih _ _ rfl

/-- C18 (amended): a zero charging-station or loading-bay count is not rejected.
`main` never looks at the two counts: whether it returns before
`start_simulation`, and with which status, is the same when the counts given on
the command line are replaced by any other values `c` and `l`, zero included. -/
theorem main_ignores_pools (s0 : Simulation) (args : List Arg) (lines : List ConfigLine)
    (c l : Int) :
    (main s0 (args.map (set_pools c l)) lines).exit_status =
      (main s0 args lines).exit_status := by
  have hp := parse_args_without_pools c l args default_options default_options rfl
  unfold main
  cases h1 : parse_args (args.map (set_pools c l)) default_options with
  | error k' =>
    cases h2 : parse_args args default_options with
    | error k =>
      rw [h1, h2] at hp
      simp only at hp
      rw [hp]
    | ok p => rw [h1, h2] at hp; exact absurd hp id
  | ok p' =>
    cases h2 : parse_args args default_options with
    | error k => rw [h1, h2] at hp; exact absurd hp id
    | ok p =>
      rw [h1, h2] at hp
      simp only at hp
      simp only []
      apply start_or_exit_without_pools
      apply configure_without_pools _ _ _ _ _ hp
      rfl

/-- C18 as stated fails: with `--drones 2 --charging 0 --loading 0` `main` does not
return before the start; it calls `start_simulation` on a simulation with two
drones, five tasks and both pools at zero. -/
theorem main_starts_with_zero_pools :
    (main blankSim [Arg.drones 2, Arg.charging 0, Arg.loading 0] []).exit_status = none ∧
    (main blankSim [Arg.drones 2, Arg.charging 0, Arg.loading 0] []).started.map
      (fun s => decide (s.num_charging_stations = 0 ∧ s.num_loading_bays = 0 ∧
        s.charging_stations = 0 ∧ s.loading_bays = 0 ∧ s.num_drones = 2 ∧
        s.task_queue.size = 5)) = some true := by
  decide

/-! ## The queue loses and duplicates nothing, and is not stable -/

/-- C23: whatever the memory, for every queue with fewer than `MAX_TASKS` tasks
and every task `t`, the tasks in the queue after `pq_push` are the old ones
plus exactly one occurrence of `t` (no other count changes) and `size` goes up
by exactly 1; for every non-empty queue `pq_pop` returns a task `r` of the
queue, and the tasks left are the old ones minus exactly one occurrence of `r`
(no other count changes), with `size` down by exactly 1. -/
theorem queue_ops_preserve_tasks (mem : TaskMem) (pq : PriorityQueue) :
    (∀ t : TaskPtr, pq.size < MAX_TASKS →
      pq_contents (pq_push mem pq t) = t ::ₘ pq_contents pq ∧
      (∀ p : TaskPtr, (pq_contents (pq_push mem pq t)).count p =
        (pq_contents pq).count p + (if p = t then 1 else 0)) ∧
      (pq_push mem pq t).size = pq.size + 1) ∧
    (pq.size ≠ 0 →
      ∃ r, (pq_pop mem pq).1 = some r ∧ r ∈ pq_contents pq ∧
        pq_contents (pq_pop mem pq).2 = (pq_contents pq).erase r ∧
        (∀ p : TaskPtr, (pq_contents (pq_pop mem pq).2).count p + (if p = r then 1 else 0) =
          (pq_contents pq).count p) ∧
        (pq_pop mem pq).2.size + 1 = pq.size) := by
  constructor
  · intro t ht
    obtain ⟨h1, h2⟩ := pq_push_contents mem pq t ht
    refine ⟨h1, ?_, h2⟩
    intro p
    rw [h1, Multiset.count_cons]
  · intro hne
    have hpos : 0 < pq.size := by omega
    obtain ⟨h1, h2, h3⟩ := pq_pop_contents mem pq hpos
    refine ⟨pq.tasks 0, h1, ?_, ?_, ?_, by omega⟩
    · rw [h2]; exact Multiset.mem_cons_self _ _
    · rw [h2, Multiset.erase_cons_head]
    · intro p
      rw [h2, Multiset.count_cons]

/-- Witness for C23 on the three-element queue `exQueue` (addresses 1, 0, 2). -/
theorem queue_ops_preserve_tasks_witness :
    (exQueue.size < MAX_TASKS ∧
      pq_contents (pq_push (memOfPrios [3, 1, 2]) exQueue 5) = 5 ::ₘ pq_contents exQueue ∧
      (pq_push (memOfPrios [3, 1, 2]) exQueue 5).size = exQueue.size + 1) ∧
    (exQueue.size ≠ 0 ∧
      ∃ r, (pq_pop (memOfPrios [3, 1, 2]) exQueue).1 = some r ∧
        pq_contents (pq_pop (memOfPrios [3, 1, 2]) exQueue).2 = (pq_contents exQueue).erase r) := by
  have h1 : exQueue.size < MAX_TASKS := by decide
  have h2 : exQueue.size ≠ 0 := by decide
  obtain ⟨a1, _, a3⟩ := (queue_ops_preserve_tasks (memOfPrios [3, 1, 2]) exQueue).1 5 h1
  obtain ⟨r, b1, _, b3, _⟩ := (queue_ops_preserve_tasks (memOfPrios [3, 1, 2]) exQueue).2 h2
  exact ⟨⟨h1, a1, a3⟩, h2, r, b1, b3⟩

/-- C22: the queue is not stable.  Whatever the array held before `pq_init`, after
pushing `a` (priority 1), then `b` (priority 2), then `c` (priority 2), three
calls of `pq_pop` return `a`, then `c`, then `b`: the two tasks of equal
priority come out in the reverse of their insertion order. -/
theorem pq_pop_not_stable (mem : TaskMem) (pq : PriorityQueue) (a b c : TaskPtr)
    (ha : (mem a).priority = 1) (hb : (mem b).priority = 2) (hc : (mem c).priority = 2) :
    pop_results mem 3 (pq_push mem (pq_push mem (pq_push mem (pq_init pq) a) b) c) =
      [some a, some c, some b] := by
  simp [pop_results, pq_pop, pq_push, pq_init, sift_up, sift_up_fuel, sift_down, sift_down_fuel,
    smallest_of, prio, MAX_TASKS, Function.update, ha, hb, hc]

/-- Witness for C22 with the tasks at addresses 0, 1 and 2: the pops return the
addresses 0, 2, 1, and the tasks at 1 and 2 are different tasks of the same
priority. -/
theorem pq_pop_not_stable_witness :
    ((memOfPrios [1, 2, 2]) 1).priority = ((memOfPrios [1, 2, 2]) 2).priority ∧
    (1 : TaskPtr) ≠ 2 ∧
    pop_results (memOfPrios [1, 2, 2]) 3
      (pq_push (memOfPrios [1, 2, 2]) (pq_push (memOfPrios [1, 2, 2])
        (pq_push (memOfPrios [1, 2, 2]) (pq_init exQueue) 0) 1) 2) =
      [some 0, some 2, some 1] :=
  ⟨by decide, by decide,
    pq_pop_not_stable (memOfPrios [1, 2, 2]) exQueue 0 1 2 (by decide) (by decide) (by decide)⟩

/-! ## What one operation does to the drone records -/

theorem load_phase_drones (s : Simulation) (i : Nat) (t : TaskPtr) (s1 : Simulation)
    (h : load_phase s i t = some s1) :
    s1.num_drones = s.num_drones ∧
    (∀ j, j ≠ i → s1.drones j = s.drones j) ∧
    (s1.drones i).battery_level = (s.drones i).battery_level ∧
    ((s1.drones i).state = (s.drones i).state ∨ (s1.drones i).state = DRONE_DELIVERING) := by
  unfold load_phase at h
  by_cases h1 : (s.drones i).state = DRONE_IDLE ∨ (s.drones i).state = DRONE_LOADING
  · rw [if_pos h1] at h
    by_cases h2 : s.loading_bays = 0
    · rw [if_pos h2] at h; cases h
    · rw [if_neg h2] at h
      simp only [Option.some.injEq] at h
      subst h
      refine ⟨rfl, ?_, ?_, Or.inr ?_⟩
      · intro j hj
        simp only [Function.update_noteq hj]
      · simp only [Function.update_same]
      · simp only [Function.update_same]
  · rw [if_neg h1] at h
    simp only [Option.some.injEq] at h
    subst h
    exact ⟨rfl, fun _ _ => rfl, rfl, Or.inl rfl⟩

/-- The delivery loop drains exactly `BATTERY_DRAIN_RATE` per tick, and never
takes the battery of a drone that starts above the threshold below 16. -/
theorem deliver_loop_battery :
    ∀ (k : Nat) (d : Drone) (ticks : Nat),
      (deliver_loop k d ticks).1.battery_level =
        d.battery_level - 5 * (((deliver_loop k d ticks).2 : Int) - (ticks : Int)) ∧
      ticks ≤ (deliver_loop k d ticks).2 ∧
      (20 < d.battery_level → 16 ≤ (deliver_loop k d ticks).1.battery_level) := by
  intro k
  induction k with
  | zero =>
    intro d ticks
    simp only [deliver_loop]
    refine ⟨by omega, le_refl _, fun h => by omega⟩
  | succ k ih =>
    intro d ticks
    unfold deliver_loop
    by_cases h1 : d.state = DRONE_DELIVERING
    · rw [if_pos h1]
      simp only []
      have ht : (deliver_tick d).battery_level = d.battery_level - 5 := rfl
      by_cases h2 : (deliver_tick d).battery_level ≤ BATTERY_LOW_THRESHOLD
      · rw [if_pos h2]
        simp only []
        refine ⟨by rw [ht]; push_cast; omega, by omega, fun h => by rw [ht]; omega⟩
      · rw [if_neg h2]
        obtain ⟨e1, e2, e3⟩ := ih (deliver_tick d) (ticks + 1)
        have h2' : ¬ (deliver_tick d).battery_level ≤ 20 := h2
        refine ⟨?_, by omega, fun _ => e3 (by omega)⟩
        rw [e1, ht]
        push_cast
        omega
    · rw [if_neg h1]
      simp only []
      refine ⟨by omega, le_refl _, fun h => by omega⟩

theorem deliver_phase_drones (s : Simulation) (i : Nat) (t : TaskPtr) (s2 : Simulation)
    (h : deliver_phase s i t = some s2) :
    s2.num_drones = s.num_drones ∧
    (∀ j, j ≠ i → s2.drones j = s.drones j) ∧
    ((s2.drones i).state = (s.drones i).state ∨ (s2.drones i).state = DRONE_IDLE) ∧
    (s2.drones i).battery_level ≤ (s.drones i).battery_level ∧
    ((s2.drones i).battery_level = (s.drones i).battery_level ∨
      16 ≤ (s2.drones i).battery_level) := by
  unfold deliver_phase at h
  by_cases h1 : (s.drones i).state = DRONE_DELIVERING ∧
      (s.drones i).battery_level > BATTERY_LOW_THRESHOLD
  · rw [if_pos h1] at h
    by_cases h2 : (s.drones i).speed = 0
    · rw [if_pos h2] at h; cases h
    · rw [if_neg h2] at h
      simp only [] at h
      have hb20 : 20 < (s.drones i).battery_level := h1.2
      obtain ⟨e1, e2, e3⟩ := deliver_loop_battery
        (delivery_time (s.mem t).estimated_time (s.drones i).speed).toNat (s.drones i) 0
      obtain ⟨b, hb⟩ := deliver_loop_fields
        (delivery_time (s.mem t).estimated_time (s.drones i).speed).toNat (s.drones i) 0
      have e3' := e3 hb20
      have hle : (deliver_loop (delivery_time (s.mem t).estimated_time
          (s.drones i).speed).toNat (s.drones i) 0).1.battery_level ≤
          (s.drones i).battery_level := by
        rw [e1]; omega
      by_cases h3 : (deliver_loop (delivery_time (s.mem t).estimated_time
          (s.drones i).speed).toNat (s.drones i) 0).1.state = DRONE_DELIVERING
      · rw [if_pos h3] at h
        simp only [Option.some.injEq] at h
        subst h
        refine ⟨rfl, ?_, Or.inr ?_, ?_, Or.inr ?_⟩
        · intro j hj
          simp only [Function.update_noteq hj]
        · simp only [Function.update_same]
        · simp only [Function.update_same]
          exact hle
        · simp only [Function.update_same]
          exact e3'
      · rw [if_neg h3] at h
        simp only [Option.some.injEq] at h
        subst h
        refine ⟨rfl, ?_, Or.inl ?_, ?_, Or.inr ?_⟩
        · intro j hj
          simp only [Function.update_noteq hj]
        · simp only [Function.update_same]
          rw [hb]
        · simp only [Function.update_same]
          exact hle
        · simp only [Function.update_same]
          exact e3'
  · rw [if_neg h1] at h
    simp only [Option.some.injEq] at h
    subst h
    exact ⟨rfl, fun _ _ => rfl, Or.inl rfl, le_refl _, Or.inl rfl⟩

theorem task_phase_drones (s : Simulation) (i : Nat) (s1 : Simulation)
    (h : task_phase s i = some s1) :
    s1.num_drones = s.num_drones ∧
    (∀ j, j ≠ i → s1.drones j = s.drones j) ∧
    ((s1.drones i).state = (s.drones i).state ∨ (s1.drones i).state = DRONE_DELIVERING ∨
      (s1.drones i).state = DRONE_IDLE) ∧
    (s1.drones i).battery_level ≤ (s.drones i).battery_level ∧
    ((s1.drones i).battery_level = (s.drones i).battery_level ∨
      16 ≤ (s1.drones i).battery_level) := by
  unfold task_phase at h
  cases hti : (s.drones i).current_task with
  | none =>
    rw [hti] at h
    simp only [Option.some.injEq] at h
    subst h
    exact ⟨rfl, fun _ _ => rfl, Or.inl rfl, le_refl _, Or.inl rfl⟩
  | some t =>
    rw [hti] at h
    simp only [] at h
    by_cases hne : (s.drones i).state ≠ DRONE_PREEMPTED
    · rw [if_pos hne] at h
      cases hl : load_phase s i t with
      | none => rw [hl] at h; cases h
      | some sl =>
        rw [hl, Option.some_bind] at h
        obtain ⟨a1, a2, a3, a4⟩ := load_phase_drones s i t sl hl
        obtain ⟨b1, b2, b3, b4, b5⟩ := deliver_phase_drones sl i t s1 h
        refine ⟨by rw [b1, a1], fun j hj => by rw [b2 j hj, a2 j hj], ?_, by omega, ?_⟩
        · rcases b3 with e | e
          · rcases a4 with f | f
            · exact Or.inl (by rw [e, f])
            · exact Or.inr (Or.inl (by rw [e, f]))
          · exact Or.inr (Or.inr e)
        · rcases b5 with e | e
          · exact Or.inl (by rw [e, a3])
          · exact Or.inr e
    · rw [if_neg hne] at h
      simp only [Option.some.injEq] at h
      subst h
      exact ⟨rfl, fun _ _ => rfl, Or.inl rfl, le_refl _, Or.inl rfl⟩

theorem demote_drones (s : Simulation) (i : Nat) :
    (demote s i).num_drones = s.num_drones ∧
    (∀ j, j ≠ i → (demote s i).drones j = s.drones j) := by
  unfold demote
  cases h : (s.drones i).current_task with
  | none => exact ⟨rfl, fun _ _ => rfl⟩
  | some t =>
    simp only []
    by_cases hne : (s.drones i).state ≠ DRONE_PREEMPTED
    · rw [if_pos hne]
      refine ⟨rfl, ?_⟩
      intro j hj
      simp only [Function.update_noteq hj]
    · rw [if_neg hne]
      exact ⟨rfl, fun _ _ => rfl⟩

theorem low_battery_phase_drones (s : Simulation) (i : Nat) (s' : Simulation)
    (h : low_battery_phase s i = some s') :
    s'.num_drones = s.num_drones ∧
    (∀ j, j ≠ i → s'.drones j = s.drones j) ∧
    (((s'.drones i).state = (s.drones i).state ∧
        (s'.drones i).battery_level = (s.drones i).battery_level) ∨
      ((s.drones i).battery_level ≤ 20 ∧ (s'.drones i).state = DRONE_IDLE ∧
        (s'.drones i).battery_level = 100)) := by
  by_cases h1 : (s.drones i).battery_level ≤ BATTERY_LOW_THRESHOLD ∧
      (s.drones i).state ≠ DRONE_CHARGING
  · by_cases h2 : s.charging_stations = 0
    · unfold low_battery_phase at h
      rw [if_pos h1] at h
      simp only [] at h
      rw [if_pos (by rw [(demote_drone s i).2.2.2]; exact h2)] at h
      cases h
    · rw [low_battery_phase_some s i h1 (by omega)] at h
      simp only [Option.some.injEq] at h
      subst h
      obtain ⟨d1, d2⟩ := demote_drones s i
      refine ⟨d1, ?_, Or.inr ⟨h1.1, ?_, ?_⟩⟩
      · intro j hj
        simp only [Function.update_noteq hj]
        exact d2 j hj
      · simp only [Function.update_same]
      · simp only [Function.update_same]
  · unfold low_battery_phase at h
    rw [if_neg h1] at h
    simp only [Option.some.injEq] at h
    subst h
    exact ⟨rfl, fun _ _ => rfl, Or.inl ⟨rfl, rfl⟩⟩

/-- One worker cycle of drone `i` writes no other drone record, never leaves
drone `i` preempted unless it was, and keeps its battery within 0 and 100. -/
theorem worker_cycle_drones (s : Simulation) (i : Nat) (s' : Simulation)
    (h : worker_cycle s i = some s') :
    s'.num_drones = s.num_drones ∧
    (∀ j, j ≠ i → s'.drones j = s.drones j) ∧
    ((s.drones i).state ≠ DRONE_PREEMPTED → (s'.drones i).state ≠ DRONE_PREEMPTED) ∧
    (0 ≤ (s.drones i).battery_level → (s.drones i).battery_level ≤ 100 →
      0 ≤ (s'.drones i).battery_level ∧ (s'.drones i).battery_level ≤ 100) := by
  unfold worker_cycle at h
  cases ht : task_phase s i with
  | none => rw [ht] at h; cases h
  | some s1 =>
    rw [ht, Option.some_bind] at h
    obtain ⟨a1, a2, a3, a4, a5⟩ := task_phase_drones s i s1 ht
    obtain ⟨b1, b2, b3⟩ := low_battery_phase_drones s1 i s' h
    refine ⟨by rw [b1, a1], fun j hj => by rw [b2 j hj, a2 j hj], ?_, ?_⟩
    · intro hne
      rcases b3 with ⟨e, _⟩ | ⟨_, e, _⟩
      · rw [e]
        rcases a3 with f | f | f
        · rw [f]; exact hne
        · rw [f]; exact fun c => DroneState.noConfusion c
        · rw [f]; exact fun c => DroneState.noConfusion c
      · rw [e]; exact fun c => DroneState.noConfusion c
    · intro h0 h100
      rcases b3 with ⟨_, e⟩ | ⟨_, _, e⟩
      · rw [e]
        rcases a5 with f | f
        · rw [f]; exact ⟨h0, h100⟩
        · exact ⟨by omega, by omega⟩
      · rw [e]; exact ⟨by omega, by omega⟩

/-- After a preemption of drone `i` on a queue that is not empty, the
assignment pops a task, hands it to drone `i` and resets the drone to idle. -/
theorem assign_after_preempt (s : Simulation) (i : Nat) (t : TaskPtr)
    (hq : 0 < s.task_queue.size) :
    ∃ q, (pq_pop (preempt s i t).mem (preempt s i t).task_queue).1 = some q ∧
      (assign (preempt s i t) (some i)).drones =
        Function.update (preempt s i t).drones i
          { (preempt s i t).drones i with current_task := some q, state := DRONE_IDLE } := by
  obtain ⟨_, _, f3, _, _⟩ := preempt_fields s i t
  obtain ⟨hpop, _, _⟩ := pq_pop_contents (preempt s i t).mem (preempt s i t).task_queue
    (by omega)
  exact ⟨_, hpop, by rw [assign_some _ i _ hpop]⟩

/-- One scheduler cycle changes no battery and leaves no drone preempted that
was not preempted before. -/
theorem scheduler_cycle_drones (s : Simulation) (j : Nat) :
    ((scheduler_cycle s).drones j).battery_level = (s.drones j).battery_level ∧
    ((s.drones j).state ≠ DRONE_PREEMPTED →
      ((scheduler_cycle s).drones j).state ≠ DRONE_PREEMPTED) := by
  rcases scheduler_cycle_cases s with e | ⟨b, _, _, hq, e⟩ | ⟨i, t, _, _, _, hq, _, e⟩
  · rw [e]; exact ⟨rfl, fun h => h⟩
  · obtain ⟨hpop, _, _⟩ := pq_pop_contents s.mem s.task_queue hq
    rw [e, assign_some s b _ hpop]
    by_cases hj : j = b
    · subst hj
      simp only [Function.update_same]
      exact ⟨trivial, fun _ c => DroneState.noConfusion c⟩
    · simp only [Function.update_noteq hj]
      exact ⟨trivial, fun h => h⟩
  · obtain ⟨q, _, hd⟩ := assign_after_preempt s i t hq
    rw [e, hd]
    by_cases hj : j = i
    · subst hj
      simp only [Function.update_same, preempt]
      exact ⟨trivial, fun _ c => DroneState.noConfusion c⟩
    · simp only [Function.update_noteq hj, preempt]
      exact ⟨trivial, fun h => h⟩

theorem add_drone_drones (s : Simulation) (speed battery : Int) :
    s.num_drones ≤ (add_drone s speed battery).num_drones ∧
    (∀ j, j < s.num_drones → (add_drone s speed battery).drones j = s.drones j) ∧
    (∀ j, s.num_drones ≤ j → j < (add_drone s speed battery).num_drones →
      ((add_drone s speed battery).drones j).state = DRONE_IDLE ∧
      ((add_drone s speed battery).drones j).battery_level = battery) ∧
    (s.num_drones < MAX_DRONES →
      (add_drone s speed battery).num_drones = s.num_drones + 1) := by
  unfold add_drone
  by_cases h : s.num_drones ≥ MAX_DRONES
  · rw [if_pos h]
    exact ⟨le_refl _, fun _ _ => rfl, fun j h1 h2 => by omega, fun h' => by omega⟩
  · rw [if_neg h]
    refine ⟨Nat.le_succ _, ?_, ?_, fun _ => rfl⟩
    · intro j hj
      have hne : j ≠ s.num_drones := by omega
      simp only [Function.update_noteq hne]
    · intro j h1 h2
      have hj : j = s.num_drones := by
        have : j < s.num_drones + 1 := h2
        omega
      subst hj
      simp only [Function.update_same, and_self]

/-- One operation of a run keeps every registered drone registered, leaves it
not preempted if it was not, keeps its battery within 0 and 100 if it was, and
registers new drones as idle. -/
theorem step_drones (s s' : Simulation) (e : Event) (h : step s e = some s') :
    s.num_drones ≤ s'.num_drones ∧
    (∀ j, j < s.num_drones →
      ((s.drones j).state ≠ DRONE_PREEMPTED → (s'.drones j).state ≠ DRONE_PREEMPTED) ∧
      (0 ≤ (s.drones j).battery_level → (s.drones j).battery_level ≤ 100 →
        0 ≤ (s'.drones j).battery_level ∧ (s'.drones j).battery_level ≤ 100)) ∧
    (∀ j, s.num_drones ≤ j → j < s'.num_drones → (s'.drones j).state = DRONE_IDLE) := by
  cases e with
  | add_drone speed battery =>
    simp only [step, Option.some.injEq] at h
    subst h
    obtain ⟨a1, a2, a3, _⟩ := add_drone_drones s speed battery
    refine ⟨a1, fun j hj => ?_, fun j h1 h2 => (a3 j h1 h2).1⟩
    rw [a2 j hj]
    exact ⟨fun h => h, fun h0 h100 => ⟨h0, h100⟩⟩
  | add_task priority est_time =>
    simp only [step, Option.some.injEq] at h
    subst h
    refine ⟨le_refl _, fun j _ => ⟨fun h => h, fun h0 h100 => ⟨h0, h100⟩⟩, fun j h1 h2 => ?_⟩
    have : j < s.num_drones := h2
    omega
  | scheduler =>
    simp only [step, Option.some.injEq] at h
    subst h
    have hn := (scheduler_cycle_fields s).1
    refine ⟨by rw [hn], fun j _ => ?_, fun j h1 h2 => by omega⟩
    obtain ⟨b1, b2⟩ := scheduler_cycle_drones s j
    exact ⟨b2, fun h0 h100 => by rw [b1]; exact ⟨h0, h100⟩⟩
  | worker i =>
    simp only [step] at h
    by_cases hi : i < s.num_drones
    · rw [if_pos hi] at h
      obtain ⟨w1, w2, w3, w4⟩ := worker_cycle_drones s i s' h
      refine ⟨by rw [w1], fun j _ => ?_, fun j h1 h2 => by omega⟩
      by_cases hj : j = i
      · subst hj; exact ⟨w3, w4⟩
      · rw [w2 j hj]
        exact ⟨fun h => h, fun h0 h100 => ⟨h0, h100⟩⟩
    · rw [if_neg hi] at h; cases h

/-- Along a run no registered drone is ever left preempted, and a registered
drone whose battery is within 0 and 100 keeps it there. -/
theorem run_drones :
    ∀ (evs : List Event) (s s' : Simulation), run s evs = some s' →
      s.num_drones ≤ s'.num_drones ∧
      ((∀ j, j < s.num_drones → (s.drones j).state ≠ DRONE_PREEMPTED) →
        ∀ j, j < s'.num_drones → (s'.drones j).state ≠ DRONE_PREEMPTED) ∧
      (∀ j, j < s.num_drones →
        0 ≤ (s.drones j).battery_level → (s.drones j).battery_level ≤ 100 →
          0 ≤ (s'.drones j).battery_level ∧ (s'.drones j).battery_level ≤ 100) := by
  intro evs
  induction evs with
  | nil =>
    intro s s' hr
    simp only [run, Option.some.injEq] at hr
    subst hr
    exact ⟨le_refl _, fun h => h, fun j _ h0 h100 => ⟨h0, h100⟩⟩
  | cons e es ih =>
    intro s s' hr
    simp only [run] at hr
    cases hs : step s e with
    | none => rw [hs] at hr; cases hr
    | some s1 =>
      rw [hs, Option.some_bind] at hr
      obtain ⟨a1, a2, a3⟩ := step_drones s s1 e hs
      obtain ⟨b1, b2, b3⟩ := ih s1 s' hr
      refine ⟨by omega, fun hinv => b2 (fun j hj => ?_), fun j hj h0 h100 => ?_⟩
      · by_cases hlt : j < s.num_drones
        · exact (a2 j hlt).1 (hinv j hlt)
        · rw [a3 j (by omega) hj]
          exact fun c => DroneState.noConfusion c
      · obtain ⟨c0, c100⟩ := (a2 j hj).2 h0 h100
        exact b3 j (by omega) c0 c100

/-! ## Battery range and drone states along a run -/

/-- C21: a drone registered by `add_drone` with a battery within 0 and 100 (in any
state with room for it) has its battery within 0 and 100 in every state
reached afterwards by `add_drone`, `add_task`, scheduler cycles and worker
cycles.  Every tick of the delivery loop takes exactly 5 off the battery, so
strictly decreases it; the loop as a whole takes 5 times the number of ticks
it ran, and started above 20 it never goes below 16.  Every tick of the
charging loop, which runs only below 100, strictly increases the battery and
never takes it above 100. -/
theorem battery_stays_in_range :
    (∀ (s1 : Simulation) (speed battery : Int) (evs : List Event) (s : Simulation),
      s1.num_drones < MAX_DRONES → 0 ≤ battery → battery ≤ 100 →
      run (add_drone s1 speed battery) evs = some s →
      0 ≤ (s.drones s1.num_drones).battery_level ∧
        (s.drones s1.num_drones).battery_level ≤ 100) ∧
    (∀ d : Drone, (deliver_tick d).battery_level = d.battery_level - 5 ∧
      (deliver_tick d).battery_level < d.battery_level) ∧
    (∀ (k : Nat) (d : Drone) (ticks : Nat),
      (deliver_loop k d ticks).1.battery_level =
        d.battery_level - 5 * (((deliver_loop k d ticks).2 : Int) - (ticks : Int)) ∧
      (20 < d.battery_level → 16 ≤ (deliver_loop k d ticks).1.battery_level)) ∧
    (∀ b : Int, b < 100 → b < charge_tick b ∧ charge_tick b ≤ 100) := by
  refine ⟨?_, ?_, ?_, charge_tick_bounds⟩
  · intro s1 speed battery evs s hroom h0 h100 hrun
    obtain ⟨_, _, a3, a4⟩ := add_drone_drones s1 speed battery
    have hb := (a3 s1.num_drones (le_refl _) (by rw [a4 hroom]; omega)).2
    obtain ⟨_, _, r3⟩ := run_drones evs _ s hrun
    exact r3 s1.num_drones (by rw [a4 hroom]; omega) (by rw [hb]; exact h0)
      (by rw [hb]; exact h100)
  · intro d
    have e : (deliver_tick d).battery_level = d.battery_level - 5 := rfl
    exact ⟨e, by omega⟩
  · intro k d ticks
    obtain ⟨e1, _, e3⟩ := deliver_loop_battery k d ticks
    exact ⟨e1, e3⟩

/-- Witness for C21: a drone registered with battery 100 and speed 1 delivers a
task of estimated time 10 and ends with battery 50. -/
theorem battery_stays_in_range_witness :
    ∃ s, run (add_drone (init_simulation blankSim 1 1) 1 100)
        [Event.add_task 3 10, Event.scheduler, Event.worker 0] = some s ∧
      (s.drones 0).battery_level = 50 ∧
      0 ≤ (s.drones 0).battery_level ∧ (s.drones 0).battery_level ≤ 100 := by
  obtain ⟨s, h1, h2⟩ := option_map_some
    (run (add_drone (init_simulation blankSim 1 1) 1 100)
      [Event.add_task 3 10, Event.scheduler, Event.worker 0])
    (fun s => decide ((s.drones 0).battery_level = 50)) true (by decide)
  have h3 := battery_stays_in_range.1 (init_simulation blankSim 1 1) 1 100 _ s
    (by decide) (by decide) (by decide) h1
  exact ⟨s, h1, of_decide_eq_true h2, h3⟩

/-- C24: in every state reached from `init_simulation` by `add_drone`, `add_task`,
scheduler cycles and worker cycles of registered drones, each run on its own,
no registered drone has state `DRONE_PREEMPTED`.  The reason: a scheduler cycle
that preempts (the queue is not empty, its head has priority 1, some drone is
active with battery above 20 and holds a task of priority above 1) is the
preemption of a drone `i`, which sets it to `DRONE_PREEMPTED`, followed by the
assignment, whose `pq_pop` returns a task `q`, and at the end of the cycle
drone `i` is `DRONE_IDLE` and holds `q`. -/
theorem preempted_never_observable :
    (∀ (s0 : Simulation) (num_charging num_loading : Int) (evs : List Event) (s : Simulation),
      run (init_simulation s0 num_charging num_loading) evs = some s →
      ∀ i, i < s.num_drones → (s.drones i).state ≠ DRONE_PREEMPTED) ∧
    (∀ s : Simulation, 0 < s.task_queue.size →
      (s.mem (s.task_queue.tasks 0)).priority = 1 →
      (∃ j, j < s.num_drones ∧ preemptable s j) →
      ∃ i t q, i < s.num_drones ∧ (s.drones i).current_task = some t ∧
        scheduler_cycle s = assign (preempt s i t) (some i) ∧
        ((preempt s i t).drones i).state = DRONE_PREEMPTED ∧
        (pq_pop (preempt s i t).mem (preempt s i t).task_queue).1 = some q ∧
        ((scheduler_cycle s).drones i).state = DRONE_IDLE ∧
        ((scheduler_cycle s).drones i).current_task = some q) := by
  constructor
  · intro s0 num_charging num_loading evs s hrun
    obtain ⟨_, r2, _⟩ := run_drones evs _ s hrun
    exact r2 (fun j hj => absurd hj (Nat.not_lt_zero j))
  · intro s hq hhead hex
    obtain ⟨i, t, hin, _, _, ht, _, _, hcycle⟩ := scheduler_cycle_urgent s hq hhead hex
    obtain ⟨q, hpop, hd⟩ := assign_after_preempt s i t hq
    refine ⟨i, t, q, hin, ht, hcycle, ?_, hpop, ?_, ?_⟩
    · simp only [preempt, Function.update_same]
    · rw [hcycle, hd, Function.update_same]
    · rw [hcycle, hd, Function.update_same]

/-- Witness for C24: the run `exEvents`, in which drone 0 is preempted once,
ends with no registered drone preempted; and in `exUrgent` the scheduler cycle
preempts a drone and leaves it idle with a task. -/
theorem preempted_never_observable_witness :
    (∃ s, run (init_simulation blankSim 1 1) exEvents = some s ∧
      (s.drones 0).preempted_count = 1 ∧
      ∀ i, i < s.num_drones → (s.drones i).state ≠ DRONE_PREEMPTED) ∧
    ((0 < exUrgent.task_queue.size ∧
        (exUrgent.mem (exUrgent.task_queue.tasks 0)).priority = 1 ∧ preemptable exUrgent 0) ∧
      ∃ i t, ((preempt exUrgent i t).drones i).state = DRONE_PREEMPTED ∧
        ((scheduler_cycle exUrgent).drones i).state = DRONE_IDLE) := by
  constructor
  · obtain ⟨s, h1, h2⟩ := option_map_some (run (init_simulation blankSim 1 1) exEvents)
      (fun s => decide ((s.drones 0).preempted_count = 1)) true (by decide)
    exact ⟨s, h1, of_decide_eq_true h2, preempted_never_observable.1 blankSim 1 1 exEvents s h1⟩
  · have hp : preemptable exUrgent 0 := ⟨by decide, ⟨0, by decide, by decide⟩, by decide⟩
    obtain ⟨i, t, q, _, _, _, h4, _, h6, _⟩ :=
      preempted_never_observable.2 exUrgent (by decide) (by decide) ⟨0, by decide, hp⟩
    exact ⟨⟨by decide, by decide, hp⟩, i, t, h4, h6⟩

/-! ## The preemption scan does not read the drone's state -/

/-- C25: the state `exUrgent` is reached from `init_simulation` by the operations
`exUrgentEvents`; in it drone 0 is `DRONE_IDLE` and holds the priority-3 task at
address 0, which is `TASK_ASSIGNED`, no loading bay has been used and nothing
has been preempted, and a second drone is idle without a task.  One scheduler
cycle preempts drone 0: `stats.total_preemptions` and the drone's
`preempted_count` become 1, the task becomes `TASK_PREEMPTED` and is back in the
queue, and drone 0 holds the priority-1 task at address 1.  The counters and
the task state come out the same whatever value the `state` field of drone 0
has. -/
theorem preemption_ignores_drone_state :
    run (init_simulation blankSim 1 2) exUrgentEvents = some exUrgent ∧
    ((exUrgent.drones 0).state = DRONE_IDLE ∧
      (exUrgent.drones 0).current_task = some 0 ∧
      (exUrgent.mem 0).state = TASK_ASSIGNED ∧ (exUrgent.mem 0).priority = 3 ∧
      (exUrgent.mem 1).priority = 1 ∧
      exUrgent.stats.loading_bay_uses = 0 ∧ exUrgent.stats.total_preemptions = 0 ∧
      (exUrgent.drones 0).preempted_count = 0 ∧ eligible exUrgent 1) ∧
    ((scheduler_cycle exUrgent).stats.total_preemptions = 1 ∧
      ((scheduler_cycle exUrgent).drones 0).preempted_count = 1 ∧
      ((scheduler_cycle exUrgent).mem 0).state = TASK_PREEMPTED ∧
      (0 : TaskPtr) ∈ pq_contents (scheduler_cycle exUrgent).task_queue ∧
      ((scheduler_cycle exUrgent).drones 0).current_task = some 1 ∧
      ((scheduler_cycle exUrgent).drones 1).current_task = none) ∧
    (∀ st : DroneState,
      (scheduler_cycle (with_drone_state exUrgent 0 st)).stats.total_preemptions = 1 ∧
      ((scheduler_cycle (with_drone_state exUrgent 0 st)).drones 0).preempted_count = 1 ∧
      ((scheduler_cycle (with_drone_state exUrgent 0 st)).mem 0).state = TASK_PREEMPTED) := by
  refine ⟨rfl, by decide, by decide, ?_⟩
  intro st
  cases st <;> decide

end DroneSim
